import Mathlib

/-!
# bosh-agent: job applier and CentOS network manager

A shallow embedding of

* `bosh/agent/applier/jobapplier/rendered_job_applier.go`
  (`Apply`, `Configure`, `KeepOnly`), and
* `platform/net/centos_net_manager.go`
  (`SetupDhcp`, `SetupManualNetworking`, `writeIfcfgs`, `writeResolvConf`,
  `detectMacAddresses`, `restartNetwork`).

Both components only talk to collaborators (bundle collection, blobstore,
compressor, file system, job supervisor, command runner, address
broadcaster).  A collaborator is an arbitrary deterministic state
transformer over an abstract world state `σ`; every call the code makes is
appended, together with its outcome, to a trace of events.  A Go `error`
is `Option Error` (`none` is `nil`); a Go `(value, error)` result whose
value is only used when the error is `nil` is `Except Error value`.

Go strings are Lean strings.  The standard-library helpers the code uses
(`strings.Replace`, `strings.Join`, `strings.Trim`, `filepath.Base`,
`filepath.Join`) are written out on character lists, following the Go
documentation for Unix paths.
-/

namespace Bosh

/-! ## Go standard library helpers -/

namespace strings

/-- Position-wise search: `some (before, after)` when `old` first occurs in
`s` between `before` and `after` (Go `strings.Index` plus the slicing done
by `strings.Replace`). -/
def cutFirst (old : List Char) : List Char → Option (List Char × List Char)
  | [] => if old = [] then some ([], []) else none
  | c :: cs =>
    if old.isPrefixOf (c :: cs) then some ([], (c :: cs).drop old.length)
    else match cutFirst old cs with
      | some (before, after) => some (c :: before, after)
      | none => none

/-- Go `strings.Replace(s, old, new, n)` for a non-empty `old` and `n ≥ 0`:
the first `n` non-overlapping occurrences of `old`, from the left, are
replaced by `new`.  (For an empty `old` Go inserts `new` between the
characters; the code never does that and the model returns `s`.) -/
def replaceChars (old new : List Char) : Nat → List Char → List Char
  | 0, s => s
  | n + 1, s =>
    if old = [] then s
    else match cutFirst old s with
      | none => s
      | some (before, after) => before ++ new ++ replaceChars old new n after

/-- Go `strings.Replace`. -/
def Replace (s old new : String) (n : Nat) : String :=
  ⟨replaceChars old.data new.data n s.data⟩

/-- Go `strings.Join`: the elements with `sep` between neighbours. -/
def Join : List String → String → String
  | [], _ => ""
  | [a], _ => a
  | a :: b :: rest, sep => a ++ sep ++ Join (b :: rest) sep

/-- Go `strings.Trim(s, cutset)`: all leading and trailing characters that
occur in `cutset` are removed. -/
def Trim (s cutset : String) : String :=
  ⟨((s.data.dropWhile (fun c => cutset.data.contains c)).reverse.dropWhile
      (fun c => cutset.data.contains c)).reverse⟩

end strings

namespace filepath

/-- The characters of a path cut at every `/`. -/
def splitSlash : List Char → List (List Char)
  | [] => [[]]
  | c :: cs =>
    if c = '/' then [] :: splitSlash cs
    else match splitSlash cs with
      | [] => [[c]]
      | w :: ws => (c :: w) :: ws

/-- Go `filepath.Base`: the last element of the path, trailing slashes
removed first; `.` for the empty path and `/` for a path of slashes only. -/
def Base (path : String) : String :=
  if path.data = [] then "."
  else
    let stripped := (path.data.reverse.dropWhile (fun c => c = '/')).reverse
    let last := (stripped.reverse.takeWhile (fun c => c ≠ '/')).reverse
    if last = [] then "/" else ⟨last⟩

/-- One step of the element stack of Go `filepath.Clean`: `elems` holds the
cleaned elements so far, innermost first. -/
def cleanStep (rooted : Bool) (elems : List (List Char)) (e : List Char) :
    List (List Char) :=
  if e = [] ∨ e = ['.'] then elems
  else if e = ['.', '.'] then
    match elems with
    | top :: rest =>
      if top = ['.', '.'] then e :: elems else rest
    | [] => if rooted then [] else [e]
  else e :: elems

/-- Go `filepath.Clean` on Unix: repeated separators collapse, `.` elements
disappear, an inner `..` removes the element before it, a `..` at the root
disappears; the empty result is `.`. -/
def Clean (path : String) : String :=
  if path.data = [] then "."
  else
    let rooted := path.data.head? = some '/'
    let elems := ((splitSlash path.data).foldl (cleanStep rooted) []).reverse
    let body := ['/'].intercalate elems
    if rooted then ⟨'/' :: body⟩
    else if body = [] then "." else ⟨body⟩

/-- Go `filepath.Join`: the non-empty elements joined by `/`, then cleaned;
the empty string when every element is empty. -/
def Join (elem : List String) : String :=
  let parts := elem.filter (fun e => e ≠ "")
  if parts = [] then "" else Clean ("/".intercalate parts)

end filepath

/-! ## Errors -/

/-- Modelled from the spec: the `errors` package (`bosherr`) is not among
the sources.  The spec has every propagated error "wrapped with a static
description of the attempted action and the original error chain
preserved", the wrapped error "containing the underlying cause text".  An
error is therefore a description, optionally on top of the error it wraps. -/
inductive Error where
  | New (msg : String)
  | Wrap (msg : String) (cause : Error)
deriving DecidableEq, Repr

/-- The text of an error (Go `err.Error()`): the description, followed by
the text of the cause when there is one. -/
def Error.message : Error → String
  | .New msg => msg
  | .Wrap msg cause => msg ++ ": " ++ cause.message

/-- Modelled from the spec: `bosherr.WrapError(err, msg)` for an existing
cause `err`: the description on top of the cause, whose text it keeps.  The
spec describes wrapping only for an existing cause; the one call that wraps
a `nil` error (in `writeIfcfgs`) goes through
`NetCollaborators.WrapNilError`. -/
def WrapError (cause : Error) (msg : String) : Error :=
  .Wrap msg cause

deriving instance DecidableEq for Except

/-! ## Programs over a world of collaborators -/

/-- What a run produced: the returned value, the world afterwards and the
collaborator calls made, oldest first. -/
structure Run (σ ε α : Type) where
  ret : α
  world : σ
  trace : List ε

/-- A piece of code: from a world to a run. -/
def Prog (σ ε α : Type) : Type := σ → Run σ ε α

namespace Prog

variable {σ ε α β : Type}

/-- Code that returns `a` without calling anything. -/
def ret (a : α) : Prog σ ε α := fun s => ⟨a, s, []⟩

/-- Sequencing: `f` runs in the world `p` left, its calls follow those of `p`. -/
def andThen (p : Prog σ ε α) (f : α → Prog σ ε β) : Prog σ ε β := fun s =>
  let r := p s
  let r2 := f r.ret r.world
  ⟨r2.ret, r2.world, r.trace ++ r2.trace⟩

instance : Monad (Prog σ ε) where
  pure := ret
  bind := andThen

/-- One collaborator call: `op` acts on the world, the call and its outcome
are recorded as `ev outcome`. -/
def call (op : σ → α × σ) (ev : α → ε) : Prog σ ε α := fun s =>
  ⟨(op s).1, (op s).2, [ev (op s).1]⟩

/-- One call to a collaborator whose result the code discards. -/
def callVoid (op : σ → σ) (ev : ε) : Prog σ ε Unit := fun s =>
  ⟨(), op s, [ev]⟩

/-- Something the code sets going without waiting for it (a goroutine):
only the fact is recorded, the world is left as it is. -/
def emit (ev : ε) : Prog σ ε Unit := fun s => ⟨(), s, [ev]⟩

/-- Go `defer cleanup` placed in front of `body`, the rest of the function:
`cleanup` runs when `body` is done, whatever `body` returns. -/
def defer (cleanup : Prog σ ε Unit) (body : Prog σ ε α) : Prog σ ε α := do
  let r ← body
  cleanup
  pure r

end Prog

/-- Whether `trace` is a true record of calls that take the world from `s`
to `s2`.  `redo ev w` makes the call recorded in `ev` again, in the world
`w`: it gives the event with the outcome obtained there, and the world the
call leaves.  Each recorded event must be the one obtained in the world
reached so far, and the world moves on by the effect of the call. -/
def Replays {σ ε : Type} (redo : ε → σ → ε × σ) : σ → List ε → σ → Prop
  | s, [], s2 => s2 = s
  | s, ev :: rest, s2 => (redo ev s).1 = ev ∧ Replays redo (redo ev s).2 rest s2

/-- A piece of code keeps a true record: in every run the trace replays from
the starting world to the world returned. -/
def Prog.Faithful {σ ε α : Type} (redo : ε → σ → ε × σ) (p : Prog σ ε α) : Prop :=
  ∀ s, Replays redo s (p s).trace (p s).world

/-! ## The job applier -/

/-- Modelled from the spec: `models.Source` is declared outside the sources;
these are the fields the applier reads (content id, checksum,
archive-relative path). -/
structure Source where
  Sha1 : String
  BlobstoreID : String
  PathInArchive : String
deriving DecidableEq, Repr

/-- Modelled from the spec: `models.Job` is declared outside the sources;
these are the fields the applier reads. -/
structure Job where
  Name : String
  Version : String
  Source : Source
deriving DecidableEq, Repr

/-- The collaborators of `renderedJobApplier`, each an arbitrary
deterministic operation on the world `σ`.  `Bundle` is the type of bundle
handles (`bc.Bundle`); `jobsBc*` is the bundle collection, `blobstore*` the
blobstore, the file-system operations are those of the `fs` a bundle hands
out.  Logging is not modelled. -/
structure Collaborators (σ Bundle : Type) where
  jobsBcGet : Job → σ → Except Error Bundle × σ
  jobsBcList : σ → Except Error (List Bundle) × σ
  Install : Bundle → σ → Except Error String × σ
  GetInstallPath : Bundle → σ → Except Error String × σ
  Enable : Bundle → σ → Option Error × σ
  Disable : Bundle → σ → Option Error × σ
  Uninstall : Bundle → σ → Option Error × σ
  blobstoreGet : String → String → σ → Except Error String × σ
  blobstoreCleanUp : String → σ → σ
  TempDir : String → σ → Except Error String × σ
  RemoveAll : String → σ → σ
  DecompressFileToDir : String → String → σ → Option Error × σ
  CopyDirEntries : String → String → σ → Option Error × σ
  Glob : String → σ → Except Error (List String) × σ
  Chmod : String → Nat → σ → Option Error × σ
  FileExists : String → σ → Bool × σ
  AddJob : String → Int → String → σ → Option Error × σ

/-- A collaborator call of the job applier together with its outcome. -/
inductive Event (Bundle : Type) where
  | jobsBcGet (job : Job) (res : Except Error Bundle)
  | jobsBcList (res : Except Error (List Bundle))
  | Install (b : Bundle) (res : Except Error String)
  | GetInstallPath (b : Bundle) (res : Except Error String)
  | Enable (b : Bundle) (err : Option Error)
  | Disable (b : Bundle) (err : Option Error)
  | Uninstall (b : Bundle) (err : Option Error)
  | blobstoreGet (blobID sha1 : String) (res : Except Error String)
  | blobstoreCleanUp (file : String)
  | TempDir (pfx : String) (res : Except Error String)
  | RemoveAll (path : String)
  | DecompressFileToDir (file dir : String) (err : Option Error)
  | CopyDirEntries (src dst : String) (err : Option Error)
  | Glob (pattern : String) (res : Except Error (List String))
  | Chmod (path : String) (mode : Nat) (err : Option Error)
  | FileExists (path : String) (res : Bool)
  | AddJob (name : String) (index : Int) (path : String) (err : Option Error)
deriving DecidableEq

section JobApplier

open Prog

variable {σ Bundle : Type}

/-- The loop `for _, f := range files` of `Apply`: every file is made
executable (mode `0755`); the first failure ends the loop with the wrapped
error. -/
def Apply.chmodFiles (c : Collaborators σ Bundle) :
    List String → Prog σ (Event Bundle) (Option Error)
  | [] => pure none
  | f :: files => do
    let err ← call (c.Chmod f 0o755) (.Chmod f 0o755)
    match err with
    | some e => pure (some (WrapError e ("Making " ++ f ++ " executable")))
    | none => Apply.chmodFiles c files

/-- Go `renderedJobApplier.Apply`. -/
def Apply (c : Collaborators σ Bundle) (job : Job) :
    Prog σ (Event Bundle) (Option Error) := do
  let r ← call (c.jobsBcGet job) (.jobsBcGet job)
  match r with
  | .error err => pure (some (WrapError err "Getting job bundle"))
  | .ok jobBundle =>
  let r ← call (c.Install jobBundle) (.Install jobBundle)
  match r with
  | .error err => pure (some (WrapError err "Installing jobs bundle collection"))
  | .ok jobDir =>
  let r ← call (c.blobstoreGet job.Source.BlobstoreID job.Source.Sha1)
    (.blobstoreGet job.Source.BlobstoreID job.Source.Sha1)
  match r with
  | .error err => pure (some (WrapError err "Getting job source from blobstore"))
  | .ok file =>
  defer (callVoid (c.blobstoreCleanUp file) (.blobstoreCleanUp file)) do
  let r ← call (c.TempDir "bosh-agent-applier-jobapplier-RenderedJobApplier-Apply")
    (.TempDir "bosh-agent-applier-jobapplier-RenderedJobApplier-Apply")
  match r with
  | .error err => pure (some (WrapError err "Getting temp dir"))
  | .ok tmpDir =>
  defer (callVoid (c.RemoveAll tmpDir) (.RemoveAll tmpDir)) do
  let err ← call (c.DecompressFileToDir file tmpDir) (.DecompressFileToDir file tmpDir)
  match err with
  | some e => pure (some (WrapError e "Decompressing files to temp dir"))
  | none =>
  let err ← call (c.CopyDirEntries (filepath.Join [tmpDir, job.Source.PathInArchive]) jobDir)
    (.CopyDirEntries (filepath.Join [tmpDir, job.Source.PathInArchive]) jobDir)
  match err with
  | some e => pure (some (WrapError e "Copying job files to install dir"))
  | none =>
  let r ← call (c.Glob (filepath.Join [jobDir, "bin", "*"]))
    (.Glob (filepath.Join [jobDir, "bin", "*"]))
  match r with
  | .error err => pure (some (WrapError err "Finding job binary files"))
  | .ok files =>
  let err ← Apply.chmodFiles c files
  match err with
  | some e => pure (some e)
  | none =>
  let err ← call (c.Enable jobBundle) (.Enable jobBundle)
  match err with
  | some e => pure (some (WrapError e "Enabling job"))
  | none => pure none

/-- The label of a monit fragment, as `Configure` computes it:
`strings.Replace(filepath.Base(monitFilePath), ".monit", "", 1)`. -/
def Configure.label (monitFilePath : String) : String :=
  strings.Replace (filepath.Base monitFilePath) ".monit" "" 1

/-- The name `Configure` gives the sub-job of a fragment:
`fmt.Sprintf("%s_%s", job.Name, label)`. -/
def Configure.subJobName (job : Job) (monitFilePath : String) : String :=
  job.Name ++ "_" ++ Configure.label monitFilePath

/-- The loop `for _, monitFilePath := range monitFilePaths` of `Configure`. -/
def Configure.addFragments (c : Collaborators σ Bundle) (job : Job) (jobIndex : Int) :
    List String → Prog σ (Event Bundle) (Option Error)
  | [] => pure none
  | monitFilePath :: rest => do
    let err ← call (c.AddJob (Configure.subJobName job monitFilePath) jobIndex monitFilePath)
      (.AddJob (Configure.subJobName job monitFilePath) jobIndex monitFilePath)
    match err with
    | some e =>
      pure (some (WrapError e
        ("Adding additional monit configuration " ++ Configure.label monitFilePath)))
    | none => Configure.addFragments c job jobIndex rest

/-- The second half of `Configure`: the glob for `*.monit` and the loop
over what it found. -/
def Configure.fragments (c : Collaborators σ Bundle) (job : Job) (jobIndex : Int)
    (jobDir : String) : Prog σ (Event Bundle) (Option Error) := do
  let r ← call (c.Glob (filepath.Join [jobDir, "*.monit"]))
    (.Glob (filepath.Join [jobDir, "*.monit"]))
  match r with
  | .error err => pure (some (WrapError err "Looking for additional monit files"))
  | .ok monitFilePaths => Configure.addFragments c job jobIndex monitFilePaths

/-- Go `renderedJobApplier.Configure`. -/
def Configure (c : Collaborators σ Bundle) (job : Job) (jobIndex : Int) :
    Prog σ (Event Bundle) (Option Error) := do
  let r ← call (c.jobsBcGet job) (.jobsBcGet job)
  match r with
  | .error err => pure (some (WrapError err "Getting job bundle"))
  | .ok jobBundle =>
  let r ← call (c.GetInstallPath jobBundle) (.GetInstallPath jobBundle)
  match r with
  | .error err => pure (some (WrapError err "Looking up job directory"))
  | .ok jobDir =>
  let found ← call (c.FileExists (filepath.Join [jobDir, "monit"]))
    (.FileExists (filepath.Join [jobDir, "monit"]))
  if found then do
    let err ← call (c.AddJob job.Name jobIndex (filepath.Join [jobDir, "monit"]))
      (.AddJob job.Name jobIndex (filepath.Join [jobDir, "monit"]))
    match err with
    | some e => pure (some (WrapError e "Adding monit configuration"))
    | none => Configure.fragments c job jobIndex jobDir
  else Configure.fragments c job jobIndex jobDir

/-- The inner loop `for _, job := range jobs` of `KeepOnly`: whether some
desired job's bundle is the installed bundle; a failing lookup ends it with
the wrapped error. -/
def KeepOnly.shouldKeep [DecidableEq Bundle] (c : Collaborators σ Bundle)
    (installedBundle : Bundle) : List Job → Prog σ (Event Bundle) (Except Error Bool)
  | [] => pure (.ok false)
  | job :: jobs => do
    let r ← call (c.jobsBcGet job) (.jobsBcGet job)
    match r with
    | .error err => pure (.error (WrapError err "Getting job bundle"))
    | .ok jobBundle =>
      if jobBundle = installedBundle then pure (.ok true)
      else KeepOnly.shouldKeep c installedBundle jobs

/-- The outer loop `for _, installedBundle := range installedBundles` of
`KeepOnly`. -/
def KeepOnly.eachInstalled [DecidableEq Bundle] (c : Collaborators σ Bundle)
    (jobs : List Job) : List Bundle → Prog σ (Event Bundle) (Option Error)
  | [] => pure none
  | installedBundle :: rest => do
    let keep ← KeepOnly.shouldKeep c installedBundle jobs
    match keep with
    | .error err => pure (some err)
    | .ok true => KeepOnly.eachInstalled c jobs rest
    | .ok false =>
      let err ← call (c.Disable installedBundle) (.Disable installedBundle)
      match err with
      | some e => pure (some (WrapError e "Disabling job bundle"))
      | none =>
      let err ← call (c.Uninstall installedBundle) (.Uninstall installedBundle)
      match err with
      | some e => pure (some (WrapError e "Uninstalling job bundle"))
      | none => KeepOnly.eachInstalled c jobs rest

/-- Go `renderedJobApplier.KeepOnly`. -/
def KeepOnly [DecidableEq Bundle] (c : Collaborators σ Bundle) (jobs : List Job) :
    Prog σ (Event Bundle) (Option Error) := do
  let r ← call c.jobsBcList .jobsBcList
  match r with
  | .error err => pure (some (WrapError err "Retrieving installed bundles"))
  | .ok installedBundles => KeepOnly.eachInstalled c jobs installedBundles

end JobApplier

/-! ## The CentOS network manager -/

/-- Modelled from the spec: `boshsettings.Network` is declared outside the
sources; the spec lists its fields as `{Type, IP, Netmask, Gateway, DNS[],
Mac}` (`Type` is spelled `NetworkType` here). -/
structure Network where
  NetworkType : String
  IP : String
  Netmask : String
  Gateway : String
  DNS : List String
  Mac : String
deriving DecidableEq, Repr

/-- The zero value of `boshsettings.Network`. -/
def Network.zero : Network := ⟨"", "", "", "", [], ""⟩

/-- Go `boshsettings.Networks`, a `map[string]Network`: the entries, in the
order in which a `range` loop meets them. -/
abbrev Networks : Type := List (String × Network)

/-- Modelled from the spec: `customNetwork` is declared outside the sources.
It combines a network with its detected interface name, the computed
network and broadcast addresses, and the default-gateway flag, in the order
of the composite literal in `writeIfcfgs`. -/
structure customNetwork where
  Network : Bosh.Network
  Interface : String
  NetworkIP : String
  Broadcast : String
  HasDefaultGateway : Bool
deriving DecidableEq, Repr

/-- Modelled from the spec: `boship.InterfaceAddress` is declared outside the
sources; it is an interface→address binding, either fixed
(`NewSimpleInterfaceAddress`) or resolved when it is broadcast
(`NewResolvingInterfaceAddress`, "resolve the primary interface's current
address and broadcast it"). -/
inductive InterfaceAddress where
  | simple (interfaceName ip : String)
  | resolving (interfaceName : String)
deriving DecidableEq, Repr

/-- Modelled from the spec: `toInterfaceAddresses` is defined outside the
sources; it yields "the resulting interface→address bindings", one per
written network. -/
def toInterfaceAddresses (networks : List customNetwork) : List InterfaceAddress :=
  networks.map (fun n => .simple n.Interface n.Network.IP)

/-- The collaborators of `centosNetManager`.  `DefaultNetworkFor` (a method
of `boshsettings.Networks`) and `CalculateNetworkAndBroadcast` (of `boshsys`)
are defined outside the sources and compute without touching the world; the
file system and the command runner act on the world `σ`.  `WrapNilError msg`
is what `bosherr.WrapError(nil, msg)` returns: that function is defined
outside the sources and the spec does not say what it makes of a `nil`
cause, so the result is left open (`none` is a `nil` error).  Logging is not
modelled. -/
structure NetCollaborators (σ : Type) where
  WrapNilError : String → Option Error
  DefaultNetworkFor : Networks → String → Network × Bool
  CalculateNetworkAndBroadcast : String → String → Except Error (String × String)
  ConvergeFileContents : String → String → σ → Except Error Bool × σ
  WriteFile : String → String → σ → Option Error × σ
  Glob : String → σ → Except Error (List String) × σ
  ReadFileString : String → σ → Except Error String × σ
  RunCommand : String → List String → σ → Option Error × σ

/-- A collaborator call of the network manager together with its outcome;
`GoBroadcastMACAddresses` records the goroutine that broadcasts `addresses`
and then signals on `errCh` when that is not `nil`. -/
inductive NetEvent where
  | ConvergeFileContents (path content : String) (res : Except Error Bool)
  | WriteFile (path content : String) (err : Option Error)
  | Glob (pattern : String) (res : Except Error (List String))
  | ReadFileString (path : String) (res : Except Error String)
  | RunCommand (cmd : String) (args : List String) (err : Option Error)
  | GoBroadcastMACAddresses (addresses : List InterfaceAddress) (errCh : Option Nat)
deriving DecidableEq

/-- The text in front of the conditional part of `centosDHCPConfigTemplate`. -/
def centosDHCPConfigRequest : String :=
  "# Generated by bosh-agent\n\noption rfc3442-classless-static-routes code 121 = array of unsigned integer 8;\n\nsend host-name \"<hostname>\";\n\nrequest subnet-mask, broadcast-address, time-offset, routers,\n\tdomain-name, domain-name-servers, domain-search, host-name,\n\tnetbios-name-servers, netbios-scope, interface-mtu,\n\trfc3442-classless-static-routes, ntp-servers;\n"

/-- Go `centosDHCPConfigTemplate` executed on the string `dot`: the request
text, then, inside `{{ if . }} … {{ end }}` (true for a non-empty string), a
line break and `prepend domain-name-servers {{ . }};`, then a line break. -/
def centosDHCPConfigTemplate (dot : String) : String :=
  centosDHCPConfigRequest ++
    (if dot ≠ "" then "\nprepend domain-name-servers " ++ dot ++ ";" else "") ++ "\n"

/-- Go `centosIfcgfTemplate` executed on a `customNetwork`. -/
def centosIfcgfTemplate (n : customNetwork) : String :=
  "DEVICE=" ++ n.Interface ++ "\nBOOTPROTO=static\nIPADDR=" ++ n.Network.IP ++
    "\nNETMASK=" ++ n.Network.Netmask ++ "\nBROADCAST=" ++ n.Broadcast ++ "\n" ++
    (if n.HasDefaultGateway then "GATEWAY=" ++ n.Network.Gateway else "") ++ "\nONBOOT=yes"

/-- Go `centosResolvConfTemplate` executed on `dnsConfigArg{DNSServers}`. -/
def centosResolvConfTemplate (DNSServers : List String) : String :=
  "# Generated by bosh-agent\n" ++
    String.join (DNSServers.map (fun server => "nameserver " ++ server ++ "\n"))

section NetManager

open Prog

variable {σ : Type}

/-- Go `centosNetManager.restartNetwork`: the outcome of the command is
logged and otherwise ignored. -/
def restartNetwork (c : NetCollaborators σ) : Prog σ NetEvent Unit := do
  let _ ← call (c.RunCommand "service" ["network", "restart"])
    (.RunCommand "service" ["network", "restart"])
  pure ()

/-- Go `centosNetManager.SetupDhcp`.  Executing the template into a byte
buffer cannot fail, so the error branch after `t.Execute` is left out. -/
def SetupDhcp (c : NetCollaborators σ) (networks : Networks) (errCh : Option Nat) :
    Prog σ NetEvent (Option Error) := do
  let dnsNetwork := (c.DefaultNetworkFor networks "dns").1
  let dnsServersList := strings.Join dnsNetwork.DNS ", "
  let buffer := centosDHCPConfigTemplate dnsServersList
  let r ← call (c.ConvergeFileContents "/etc/dhcp/dhclient.conf" buffer)
    (.ConvergeFileContents "/etc/dhcp/dhclient.conf" buffer)
  match r with
  | .error err => pure (some (WrapError err "Writing to /etc/dhcp/dhclient.conf"))
  | .ok written =>
    if written then restartNetwork c else pure ()
    emit (.GoBroadcastMACAddresses [.resolving "eth0"] errCh)
    pure none

/-- The loop of `detectMacAddresses` over the globbed paths; `addresses` is
the Go map, newest entry first. -/
def detectMacAddresses.eachPath (c : NetCollaborators σ) :
    List String → List (String × String) →
      Prog σ NetEvent (List (String × String) × Option Error)
  | [], addresses => pure (addresses, none)
  | filePath :: rest, addresses => do
    let r ← call (c.ReadFileString (filepath.Join [filePath, "address"]))
      (.ReadFileString (filepath.Join [filePath, "address"]))
    match r with
    | .error err =>
      pure (addresses, some (WrapError err "Reading mac address from file"))
    | .ok macAddress =>
      detectMacAddresses.eachPath c rest
        ((strings.Trim macAddress "\n", filepath.Base filePath) :: addresses)

/-- Go `centosNetManager.detectMacAddresses`. -/
def detectMacAddresses (c : NetCollaborators σ) :
    Prog σ NetEvent (List (String × String) × Option Error) := do
  let r ← call (c.Glob "/sys/class/net/*") (.Glob "/sys/class/net/*")
  match r with
  | .error err => pure ([], some (WrapError err "Getting file list from /sys/class/net"))
  | .ok filePaths => detectMacAddresses.eachPath c filePaths []

/-- Go map indexing `macAddresses[mac]`: the newest entry for `mac`, the
empty string when there is none. -/
def macLookup (macAddresses : List (String × String)) (mac : String) : String :=
  (macAddresses.lookup mac).getD ""

/-- The loop `for _, aNet := range networks` of `writeIfcfgs`. -/
def writeIfcfgs.eachNetwork (c : NetCollaborators σ) (macAddresses : List (String × String))
    (gatewayNetwork : Network) :
    List Network → List customNetwork → Prog σ NetEvent (List customNetwork × Option Error)
  | [], modifiedNetworks => pure (modifiedNetworks, none)
  | aNet :: rest, modifiedNetworks =>
    match c.CalculateNetworkAndBroadcast aNet.IP aNet.Netmask with
    | .error err =>
      pure (modifiedNetworks, some (WrapError err "Calculating network and broadcast"))
    | .ok (network, broadcast) => do
      let newNet : customNetwork :=
        ⟨aNet, macLookup macAddresses aNet.Mac, network, broadcast,
          decide (aNet.IP = gatewayNetwork.IP)⟩
      let err ← call
        (c.WriteFile
          (filepath.Join ["/etc/sysconfig/network-scripts", "ifcfg-" ++ newNet.Interface])
          (centosIfcgfTemplate newNet))
        (.WriteFile
          (filepath.Join ["/etc/sysconfig/network-scripts", "ifcfg-" ++ newNet.Interface])
          (centosIfcgfTemplate newNet))
      match err with
      | some e =>
        pure (modifiedNetworks ++ [newNet],
          some (WrapError e "Writing to /etc/sysconfig/network-scripts"))
      | none =>
        writeIfcfgs.eachNetwork c macAddresses gatewayNetwork rest (modifiedNetworks ++ [newNet])

/-- Go `centosNetManager.writeIfcfgs`.  When no network carries the default
gateway the code wraps `err`, which is `nil` at that point. -/
def writeIfcfgs (c : NetCollaborators σ) (networks : Networks) :
    Prog σ NetEvent (List customNetwork × Option Error) := do
  let r ← detectMacAddresses c
  match r with
  | (_, some err) => pure ([], some (WrapError err "Detecting mac addresses"))
  | (macAddresses, none) =>
    let (gatewayNetwork, gatewayNetworkFound) := c.DefaultNetworkFor networks "gateway"
    if !gatewayNetworkFound then
      pure ([], c.WrapNilError "Finding network for default gateway")
    else
      writeIfcfgs.eachNetwork c macAddresses gatewayNetwork (networks.map (·.2)) []

/-- Go `centosNetManager.writeResolvConf`. -/
def writeResolvConf (c : NetCollaborators σ) (networks : Networks) :
    Prog σ NetEvent (Option Error) := do
  let dnsNetwork := (c.DefaultNetworkFor networks "dns").1
  let err ← call (c.WriteFile "/etc/resolv.conf" (centosResolvConfTemplate dnsNetwork.DNS))
    (.WriteFile "/etc/resolv.conf" (centosResolvConfTemplate dnsNetwork.DNS))
  match err with
  | some e => pure (some (WrapError e "Writing to /etc/resolv.conf"))
  | none => pure none

/-- Go `centosNetManager.SetupManualNetworking`. -/
def SetupManualNetworking (c : NetCollaborators σ) (networks : Networks)
    (errCh : Option Nat) : Prog σ NetEvent (Option Error) := do
  let r ← writeIfcfgs c networks
  match r with
  | (_, some err) => pure (some (WrapError err "Writing network interfaces"))
  | (modifiedNetworks, none) =>
    restartNetwork c
    let err ← writeResolvConf c networks
    match err with
    | some e => pure (some (WrapError e "Writing resolv.conf"))
    | none =>
      emit (.GoBroadcastMACAddresses (toInterfaceAddresses modifiedNetworks) errCh)
      pure none

end NetManager

/-! ## The apply spec service -/

/-- Modelled from the spec: the values of `NetworkSpec.Fields`
(`map[string]interface{}`), declared outside the sources; the spec has "a
tagged union of scalar/string values keyed by string". -/
inductive FieldValue where
  | str (s : String)
  | int (n : Int)
  | bool (b : Bool)
  | null
deriving DecidableEq, Repr

/-- Modelled from the spec: overwriting the value of `key` in a map kept as
the list of its entries.  The entry for `key` is overwritten where it
stands; "keys not present in the spec before resolution are never
introduced", so a map without an entry for `key` is left as it is. -/
def setField (key : String) (value : FieldValue) :
    List (String × FieldValue) → List (String × FieldValue)
  | [] => []
  | (k, v) :: rest =>
    if k = key then (key, value) :: rest else (k, v) :: setField key value rest

/-- Modelled from the spec: `NetworkSpec` is declared outside the sources;
its `Fields` are "an open mapping of string keys to heterogeneous values". -/
structure NetworkSpec where
  Fields : List (String × FieldValue)
deriving DecidableEq, Repr

/-- Modelled from the spec: a network is dynamic when its `type` field has
the value `"dynamic"` (`Fields["type"] == "dynamic"`). -/
def NetworkSpec.isDynamic (ns : NetworkSpec) : Bool :=
  decide (ns.Fields.lookup "type" = some (.str "dynamic"))

/-- Modelled from the spec: resolution of one network, "overwrite `ip`,
`netmask`, `gateway` in that network's `Fields` with the resolved settings'
values, leaving all other fields untouched"; "keys not present in the spec
before resolution are never introduced". -/
def NetworkSpec.populateIPInfo (ns : NetworkSpec) (ip netmask gateway : String) :
    NetworkSpec :=
  ⟨setField "gateway" (.str gateway)
    (setField "netmask" (.str netmask) (setField "ip" (.str ip) ns.Fields))⟩

/-- Modelled from the spec: `V1ApplySpec` is declared outside the sources;
`Deployment` and `NetworkSpecs` (a map from network name to `NetworkSpec`,
kept as its entries in the order in which a `range` loop meets them).  The
other metadata fields, "carried opaquely and not mutated", are left out. -/
structure V1ApplySpec where
  Deployment : String
  NetworkSpecs : List (String × NetworkSpec)
deriving DecidableEq, Repr

/-- The zero value `V1ApplySpec{}`. -/
def V1ApplySpec.zero : V1ApplySpec := ⟨"", []⟩

/-- Modelled from the spec: `boshsettings.Settings` is declared outside the
sources; the service reads its `Networks`. -/
structure Settings where
  Networks : Bosh.Networks
deriving DecidableEq, Repr

/-- Modelled from the spec: the loop of `PopulateDHCPNetworks` over the
networks of the spec.  A network that is not dynamic is passed on as it is;
for a dynamic one the same-named network is looked up in the settings; "if
absent, fail immediately with an error identifying the missing network
name"; if present its `IP`, `Netmask` and `Gateway` are written into the
fields. -/
def PopulateDHCPNetworks.eachNetwork (settings : Settings) :
    List (String × NetworkSpec) → Except Error (List (String × NetworkSpec))
  | [] => .ok []
  | (networkName, networkSpec) :: rest =>
    if networkSpec.isDynamic then
      match settings.Networks.lookup networkName with
      | none => .error (.New ("Network " ++ networkName ++ " is not found in settings"))
      | some network =>
        match PopulateDHCPNetworks.eachNetwork settings rest with
        | .error err => .error err
        | .ok resolved =>
          .ok ((networkName,
            networkSpec.populateIPInfo network.IP network.Netmask network.Gateway) :: resolved)
    else
      match PopulateDHCPNetworks.eachNetwork settings rest with
      | .error err => .error err
      | .ok resolved => .ok ((networkName, networkSpec) :: resolved)

/-- Modelled from the spec: `concreteV1Service.PopulateDHCPNetworks`, whose
source is not among the sources (only its test is).  On a missing network
it returns "the zero-value spec (not a partially-resolved one)" and the
error; otherwise the spec with its dynamic networks resolved and no error. -/
def PopulateDHCPNetworks (spec : V1ApplySpec) (settings : Settings) :
    V1ApplySpec × Option Error :=
  match PopulateDHCPNetworks.eachNetwork settings spec.NetworkSpecs with
  | .error err => (V1ApplySpec.zero, some err)
  | .ok resolved => ({ spec with NetworkSpecs := resolved }, none)

/-! ## Specification-side vocabulary for the job applier -/

section JobApplierSpec

variable {Bundle : Type}

/-- The call recorded in an event made again in the world `s`: the event
with the outcome the collaborator gives there, and the world it leaves. -/
def Event.redo {σ : Type} (c : Collaborators σ Bundle) : Event Bundle → σ → Event Bundle × σ
  | .jobsBcGet job _, s => (.jobsBcGet job (c.jobsBcGet job s).1, (c.jobsBcGet job s).2)
  | .jobsBcList _, s => (.jobsBcList (c.jobsBcList s).1, (c.jobsBcList s).2)
  | .Install b _, s => (.Install b (c.Install b s).1, (c.Install b s).2)
  | .GetInstallPath b _, s => (.GetInstallPath b (c.GetInstallPath b s).1, (c.GetInstallPath b s).2)
  | .Enable b _, s => (.Enable b (c.Enable b s).1, (c.Enable b s).2)
  | .Disable b _, s => (.Disable b (c.Disable b s).1, (c.Disable b s).2)
  | .Uninstall b _, s => (.Uninstall b (c.Uninstall b s).1, (c.Uninstall b s).2)
  | .blobstoreGet blobID sha1 _, s =>
    (.blobstoreGet blobID sha1 (c.blobstoreGet blobID sha1 s).1, (c.blobstoreGet blobID sha1 s).2)
  | .blobstoreCleanUp file, s => (.blobstoreCleanUp file, c.blobstoreCleanUp file s)
  | .TempDir pfx _, s => (.TempDir pfx (c.TempDir pfx s).1, (c.TempDir pfx s).2)
  | .RemoveAll path, s => (.RemoveAll path, c.RemoveAll path s)
  | .DecompressFileToDir file dir _, s =>
    (.DecompressFileToDir file dir (c.DecompressFileToDir file dir s).1,
      (c.DecompressFileToDir file dir s).2)
  | .CopyDirEntries src dst _, s =>
    (.CopyDirEntries src dst (c.CopyDirEntries src dst s).1, (c.CopyDirEntries src dst s).2)
  | .Glob pattern _, s => (.Glob pattern (c.Glob pattern s).1, (c.Glob pattern s).2)
  | .Chmod path mode _, s => (.Chmod path mode (c.Chmod path mode s).1, (c.Chmod path mode s).2)
  | .FileExists path _, s => (.FileExists path (c.FileExists path s).1, (c.FileExists path s).2)
  | .AddJob name index path _, s =>
    (.AddJob name index path (c.AddJob name index path s).1, (c.AddJob name index path s).2)

/-- Whether an event is a `Disable` or an `Uninstall` call. -/
def Event.isRemoval : Event Bundle → Bool
  | .Disable _ _ => true
  | .Uninstall _ _ => true
  | _ => false

/-- Whether an event records a call that reported an error. -/
def Event.failed : Event Bundle → Bool
  | .jobsBcGet _ (.error _) => true
  | .jobsBcList (.error _) => true
  | .Install _ (.error _) => true
  | .GetInstallPath _ (.error _) => true
  | .Enable _ (some _) => true
  | .Disable _ (some _) => true
  | .Uninstall _ (some _) => true
  | .blobstoreGet _ _ (.error _) => true
  | .TempDir _ (.error _) => true
  | .DecompressFileToDir _ _ (some _) => true
  | .CopyDirEntries _ _ (some _) => true
  | .Glob _ (.error _) => true
  | .Chmod _ _ (some _) => true
  | .AddJob _ _ _ (some _) => true
  | _ => false

/-- Whether an event is one of the deferred clean-up calls of `Apply`
(`fs.RemoveAll`, `blobstore.CleanUp`). -/
def Event.isCleanup : Event Bundle → Bool
  | .RemoveAll _ => true
  | .blobstoreCleanUp _ => true
  | _ => false

/-- Whether an event is an `Enable` call. -/
def Event.isEnable : Event Bundle → Bool
  | .Enable _ _ => true
  | _ => false

/-- The calls of `Apply` up to the glob of `bin/*` when each of them
succeeds: bundle lookup, install, fetch, scratch directory, decompression,
copy, glob. -/
def Apply.prepared (job : Job) (b : Bundle) (jobDir file tmpDir : String)
    (files : List String) : List (Event Bundle) :=
  [.jobsBcGet job (.ok b), .Install b (.ok jobDir),
    .blobstoreGet job.Source.BlobstoreID job.Source.Sha1 (.ok file),
    .TempDir "bosh-agent-applier-jobapplier-RenderedJobApplier-Apply" (.ok tmpDir),
    .DecompressFileToDir file tmpDir none,
    .CopyDirEntries (filepath.Join [tmpDir, job.Source.PathInArchive]) jobDir none,
    .Glob (filepath.Join [jobDir, "bin", "*"]) (.ok files)]

/-- The calls of `Apply` in front of `Enable` when each of them succeeds:
those of `Apply.prepared`, then one `Chmod` (mode `0755`) per file found. -/
def Apply.steps (job : Job) (b : Bundle) (jobDir file tmpDir : String)
    (files : List String) : List (Event Bundle) :=
  Apply.prepared job b jobDir file tmpDir files ++
    files.map (fun f => .Chmod f 0o755 none)

/-- The runs `Apply` can have: the trace and the returned error, by the
step at which it stopped. -/
inductive Apply.Outcome (job : Job) : List (Event Bundle) → Option Error → Prop
  | bundleFails (e : Error) :
    Apply.Outcome job [.jobsBcGet job (.error e)]
      (some (WrapError e "Getting job bundle"))
  | installFails (b : Bundle) (e : Error) :
    Apply.Outcome job [.jobsBcGet job (.ok b), .Install b (.error e)]
      (some (WrapError e "Installing jobs bundle collection"))
  | fetchFails (b : Bundle) (jobDir : String) (e : Error) :
    Apply.Outcome job
      [.jobsBcGet job (.ok b), .Install b (.ok jobDir),
        .blobstoreGet job.Source.BlobstoreID job.Source.Sha1 (.error e)]
      (some (WrapError e "Getting job source from blobstore"))
  | tempDirFails (b : Bundle) (jobDir file : String) (e : Error) :
    Apply.Outcome job
      [.jobsBcGet job (.ok b), .Install b (.ok jobDir),
        .blobstoreGet job.Source.BlobstoreID job.Source.Sha1 (.ok file),
        .TempDir "bosh-agent-applier-jobapplier-RenderedJobApplier-Apply" (.error e),
        .blobstoreCleanUp file]
      (some (WrapError e "Getting temp dir"))
  | decompressFails (b : Bundle) (jobDir file tmpDir : String) (e : Error) :
    Apply.Outcome job
      [.jobsBcGet job (.ok b), .Install b (.ok jobDir),
        .blobstoreGet job.Source.BlobstoreID job.Source.Sha1 (.ok file),
        .TempDir "bosh-agent-applier-jobapplier-RenderedJobApplier-Apply" (.ok tmpDir),
        .DecompressFileToDir file tmpDir (some e),
        .RemoveAll tmpDir, .blobstoreCleanUp file]
      (some (WrapError e "Decompressing files to temp dir"))
  | copyFails (b : Bundle) (jobDir file tmpDir : String) (e : Error) :
    Apply.Outcome job
      [.jobsBcGet job (.ok b), .Install b (.ok jobDir),
        .blobstoreGet job.Source.BlobstoreID job.Source.Sha1 (.ok file),
        .TempDir "bosh-agent-applier-jobapplier-RenderedJobApplier-Apply" (.ok tmpDir),
        .DecompressFileToDir file tmpDir none,
        .CopyDirEntries (filepath.Join [tmpDir, job.Source.PathInArchive]) jobDir (some e),
        .RemoveAll tmpDir, .blobstoreCleanUp file]
      (some (WrapError e "Copying job files to install dir"))
  | globFails (b : Bundle) (jobDir file tmpDir : String) (e : Error) :
    Apply.Outcome job
      [.jobsBcGet job (.ok b), .Install b (.ok jobDir),
        .blobstoreGet job.Source.BlobstoreID job.Source.Sha1 (.ok file),
        .TempDir "bosh-agent-applier-jobapplier-RenderedJobApplier-Apply" (.ok tmpDir),
        .DecompressFileToDir file tmpDir none,
        .CopyDirEntries (filepath.Join [tmpDir, job.Source.PathInArchive]) jobDir none,
        .Glob (filepath.Join [jobDir, "bin", "*"]) (.error e),
        .RemoveAll tmpDir, .blobstoreCleanUp file]
      (some (WrapError e "Finding job binary files"))
  | chmodFails (b : Bundle) (jobDir file tmpDir : String) (pre : List String)
      (f : String) (post : List String) (e : Error) :
    Apply.Outcome job
      (Apply.prepared job b jobDir file tmpDir (pre ++ f :: post) ++
        pre.map (fun f => .Chmod f 0o755 none) ++
        [.Chmod f 0o755 (some e), .RemoveAll tmpDir, .blobstoreCleanUp file])
      (some (WrapError e ("Making " ++ f ++ " executable")))
  | enabled (b : Bundle) (jobDir file tmpDir : String) (files : List String)
      (err : Option Error) :
    Apply.Outcome job
      (Apply.steps job b jobDir file tmpDir files ++
        [.Enable b err, .RemoveAll tmpDir, .blobstoreCleanUp file])
      (err.map (fun e => WrapError e "Enabling job"))

/-- The calls `KeepOnly` makes for one installed bundle `b` when none of them
fails: the lookups of the desired jobs, in order, which obtained the bundles
`got`; then, unless one of the obtained bundles is `b`, `Disable b` and
`Uninstall b`. -/
def KeepOnly.round [DecidableEq Bundle] (jobs : List Job) (b : Bundle) (got : List Bundle) :
    List (Event Bundle) :=
  List.zipWith (fun job g => Event.jobsBcGet job (.ok g)) jobs got ++
    if b ∈ got then [] else [.Disable b none, .Uninstall b none]

end JobApplierSpec

/-! ## Specification-side vocabulary for the network manager -/

/-- The call recorded in an event made again in the world `s`: the event
with the outcome the collaborator gives there, and the world it leaves.
Starting the broadcast goroutine leaves the world as it is. -/
def NetEvent.redo {σ : Type} (c : NetCollaborators σ) : NetEvent → σ → NetEvent × σ
  | .ConvergeFileContents path content _, s =>
    (.ConvergeFileContents path content (c.ConvergeFileContents path content s).1,
      (c.ConvergeFileContents path content s).2)
  | .WriteFile path content _, s =>
    (.WriteFile path content (c.WriteFile path content s).1, (c.WriteFile path content s).2)
  | .Glob pattern _, s => (.Glob pattern (c.Glob pattern s).1, (c.Glob pattern s).2)
  | .ReadFileString path _, s =>
    (.ReadFileString path (c.ReadFileString path s).1, (c.ReadFileString path s).2)
  | .RunCommand cmd args _, s =>
    (.RunCommand cmd args (c.RunCommand cmd args s).1, (c.RunCommand cmd args s).2)
  | .GoBroadcastMACAddresses addresses errCh, s =>
    (.GoBroadcastMACAddresses addresses errCh, s)

/-- Whether an event is the restart of the network service,
`service network restart`. -/
def NetEvent.isRestart : NetEvent → Bool
  | .RunCommand cmd args _ => decide (cmd = "service" ∧ args = ["network", "restart"])
  | _ => false

/-- Whether an event only reads the file system (`Glob`, `ReadFileString`). -/
def NetEvent.isRead : NetEvent → Bool
  | .Glob _ _ => true
  | .ReadFileString _ _ => true
  | _ => false

/-! ## Sample worlds -/

/-- A job-applier world in which every call succeeds: two bundles, `web` and
`db`, are installed, the bundle of a job is named after the job, and the
`*.monit` glob of `web` finds the fragment `x.monitor.monit`. -/
def sampleCollaborators : Collaborators Unit String where
  jobsBcGet job s := (.ok job.Name, s)
  jobsBcList s := (.ok ["web", "db"], s)
  Install b s := (.ok ("/jobs/" ++ b), s)
  GetInstallPath b s := (.ok ("/jobs/" ++ b), s)
  Enable _ s := (none, s)
  Disable _ s := (none, s)
  Uninstall _ s := (none, s)
  blobstoreGet _ _ s := (.ok "/tmp/blob", s)
  blobstoreCleanUp _ s := s
  TempDir _ s := (.ok "/tmp/scratch", s)
  RemoveAll _ s := s
  DecompressFileToDir _ _ s := (none, s)
  CopyDirEntries _ _ s := (none, s)
  Glob pattern s :=
    (.ok (if pattern = "/jobs/web/*.monit" then ["/jobs/web/x.monitor.monit"]
      else if pattern = "/jobs/web/bin/*" then ["/jobs/web/bin/ctl"] else []), s)
  Chmod _ _ s := (none, s)
  FileExists _ s := (true, s)
  AddJob _ _ _ s := (none, s)

/-- The sample world, except that disabling the bundle `web` fails. -/
def disableFails : Collaborators Unit String :=
  { sampleCollaborators with
    Disable := fun b s => (if b = "web" then some (.New "disable failed") else none, s) }

/-- The sample world, except that the blobstore has no blob. -/
def fetchFails : Collaborators Unit String :=
  { sampleCollaborators with
    blobstoreGet := fun _ _ s => (.error (.New "blob not found"), s) }

/-- The sample world, except that every registration with the job supervisor
fails. -/
def addJobFails : Collaborators Unit String :=
  { sampleCollaborators with
    AddJob := fun _ _ _ s => (some (.New "monit is down"), s) }

/-- A job-applier world that keeps a journal: the world is the list of the
changes the collaborators have made, oldest first.  Lookups leave it alone.
The answers are those of the sample world. -/
def journalCollaborators : Collaborators (List String) String where
  jobsBcGet job s := (.ok job.Name, s)
  jobsBcList s := (.ok ["web", "db"], s)
  Install b s := (.ok ("/jobs/" ++ b), s ++ ["install " ++ b])
  GetInstallPath b s := (.ok ("/jobs/" ++ b), s)
  Enable b s := (none, s ++ ["enable " ++ b])
  Disable b s := (none, s ++ ["disable " ++ b])
  Uninstall b s := (none, s ++ ["uninstall " ++ b])
  blobstoreGet blobID _ s := (.ok "/tmp/blob", s ++ ["fetch " ++ blobID])
  blobstoreCleanUp file s := s ++ ["clean up " ++ file]
  TempDir _ s := (.ok "/tmp/scratch", s ++ ["make /tmp/scratch"])
  RemoveAll path s := s ++ ["remove " ++ path]
  DecompressFileToDir file dir s := (none, s ++ ["decompress " ++ file ++ " into " ++ dir])
  CopyDirEntries src dst s := (none, s ++ ["copy " ++ src ++ " into " ++ dst])
  Glob pattern s :=
    (.ok (if pattern = "/jobs/web/*.monit" then ["/jobs/web/x.monitor.monit"]
      else if pattern = "/jobs/web/bin/*" then ["/jobs/web/bin/ctl"] else []), s)
  Chmod path _ s := (none, s ++ ["chmod " ++ path])
  FileExists _ s := (true, s)
  AddJob name _ _ s := (none, s ++ ["add job " ++ name])

/-- The journal world, except that decompression fails. -/
def decompressFails : Collaborators (List String) String :=
  { journalCollaborators with
    DecompressFileToDir := fun _ _ s => (some (.New "bad archive"), s) }

/-- The journal world, except that a bundle can be disabled only while the
journal is empty: the second `Disable` of a run fails. -/
def disableOnce : Collaborators (List String) String :=
  { journalCollaborators with
    Disable := fun b s =>
      if s = [] then (none, s ++ ["disable " ++ b]) else (some (.New "busy"), s) }

/-- The job `web`. -/
def webJob : Job := ⟨"web", "1", ⟨"sha1-of-web", "blob-of-web", "web"⟩⟩

/-- A machine whose world is the content of `/etc/dhcp/dhclient.conf`
(`none` while the file is missing).  `ConvergeFileContents` writes and
reports `true` exactly when the new content differs; the default network of
any role is the first network of the mapping, and none is found in an empty
mapping. -/
def sampleNetCollaborators : NetCollaborators (Option String) where
  WrapNilError msg := some (.New msg)
  DefaultNetworkFor networks _ :=
    match networks with
    | [] => (Network.zero, false)
    | (_, network) :: _ => (network, true)
  CalculateNetworkAndBroadcast _ _ := .ok ("10.0.0.0", "10.0.0.255")
  ConvergeFileContents _ content s := (.ok (decide (s ≠ some content)), some content)
  WriteFile _ _ s := (none, s)
  Glob _ s := (.ok ["/sys/class/net/eth0"], s)
  ReadFileString _ s := (.ok "aa:bb:cc:dd:ee:ff\n", s)
  RunCommand _ _ s := (none, s)

/-- A network mapping whose only network lists a single, empty DNS server. -/
def emptyDnsNameNetworks : Networks :=
  [("default", ⟨"dynamic", "10.0.0.5", "255.255.255.0", "10.0.0.1", [""], "aa:bb:cc:dd:ee:ff"⟩)]

/-- A network mapping whose only network lists two DNS servers. -/
def twoDnsNetworks : Networks :=
  [("default", ⟨"dynamic", "10.0.0.5", "255.255.255.0", "10.0.0.1",
    ["8.8.8.8", "10.0.0.2"], "aa:bb:cc:dd:ee:ff"⟩)]

/-- The spec of the service's test: `fake-net1` is static, `fake-net2` and
`fake-net3` are dynamic. -/
def unresolvedSpec : V1ApplySpec :=
  ⟨"fake-deployment",
    [("fake-net1", ⟨[("ip", .str "fake-net1-ip"), ("netmask", .str "fake-net1-netmask"),
        ("gateway", .str "fake-net1-gateway")]⟩),
      ("fake-net2", ⟨[("type", .str "dynamic"), ("ip", .str "fake-net2-ip"),
        ("netmask", .str "fake-net2-netmask"), ("gateway", .str "fake-net2-gateway")]⟩),
      ("fake-net3", ⟨[("type", .str "dynamic"), ("ip", .str "fake-net3-ip"),
        ("netmask", .str "fake-net3-netmask"), ("gateway", .str "fake-net3-gateway")]⟩)]⟩

/-- The settings of the service's test, with a network for each of the three
names. -/
def resolvingSettings : Settings :=
  ⟨[("fake-net1", ⟨"", "fake-unresolved2-ip", "fake-unresolved2-netmask",
        "fake-unresolved2-gateway", [], ""⟩),
      ("fake-net2", ⟨"dynamic", "fake-resolved2-ip", "fake-resolved2-netmask",
        "fake-resolved2-gateway", [], ""⟩),
      ("fake-net3", ⟨"dynamic", "fake-resolved3-ip", "fake-resolved3-netmask",
        "fake-resolved3-gateway", [], ""⟩)]⟩

/-- A spec whose only network is dynamic and has no `ip`, `netmask` or
`gateway` key yet. -/
def bareDynamicSpec : V1ApplySpec :=
  ⟨"fake-deployment", [("fake-net", ⟨[("type", .str "dynamic")]⟩)]⟩

/-- Settings with a network for `fake-net`. -/
def bareDynamicSettings : Settings :=
  ⟨[("fake-net", ⟨"dynamic", "10.0.0.5", "255.255.255.0", "10.0.0.1", [], ""⟩)]⟩

/-- A machine with two interfaces that keeps a journal: `eth0` has the MAC
address `aa:bb:cc:dd:ee:ff`, `eth1` has `11:22:33:44:55:66`; the world is
the list of the files written and the commands run, oldest first.  The
default network of any role is the first network of the mapping. -/
def twoInterfaces : NetCollaborators (List String) where
  WrapNilError msg := some (.New msg)
  DefaultNetworkFor networks _ :=
    match networks with
    | [] => (Network.zero, false)
    | (_, network) :: _ => (network, true)
  CalculateNetworkAndBroadcast _ _ := .ok ("10.0.0.0", "10.0.0.255")
  ConvergeFileContents path _ s := (.ok true, s ++ ["write " ++ path])
  WriteFile path _ s := (none, s ++ ["write " ++ path])
  Glob _ s := (.ok ["/sys/class/net/eth0", "/sys/class/net/eth1"], s)
  ReadFileString path s :=
    (.ok (if path = "/sys/class/net/eth0/address" then "aa:bb:cc:dd:ee:ff\n"
      else "11:22:33:44:55:66\n"), s)
  RunCommand cmd args s := (none, s ++ ["run " ++ strings.Join (cmd :: args) " "])

/-- The machine with two interfaces, with settings in which no network is
the default for the `gateway` role; wrapping a `nil` error gives an error
with the description. -/
def noGatewayNetwork : NetCollaborators (List String) :=
  { twoInterfaces with
    DefaultNetworkFor := fun networks role =>
      if role = "gateway" then (Network.zero, false)
      else twoInterfaces.DefaultNetworkFor networks role }

/-- The machine without a gateway network, with a `WrapError` that hands a
`nil` cause back as `nil`. -/
def noGatewayNetworkNilWrap : NetCollaborators (List String) :=
  { noGatewayNetwork with WrapNilError := fun _ => none }

/-- A network mapping with two manual networks, one per interface of
`twoInterfaces`; the first is the default network. -/
def manualNetworks : Networks :=
  [("default", ⟨"manual", "10.0.0.5", "255.255.255.0", "10.0.0.1", [], "aa:bb:cc:dd:ee:ff"⟩),
    ("private", ⟨"manual", "10.0.1.5", "255.255.255.0", "10.0.1.1", [], "11:22:33:44:55:66"⟩)]

/-! # Theorems -/

/-! ## Running programs -/

section ProgLemmas

variable {σ ε α β : Type}

@[simp] theorem Prog.pure_run (a : α) (s : σ) :
    (pure a : Prog σ ε α) s = ⟨a, s, []⟩ := rfl

@[simp] theorem Prog.bind_run (p : Prog σ ε α) (f : α → Prog σ ε β) (s : σ) :
    (p >>= f) s =
      ⟨(f (p s).ret (p s).world).ret, (f (p s).ret (p s).world).world,
        (p s).trace ++ (f (p s).ret (p s).world).trace⟩ := rfl

@[simp] theorem Prog.call_run (op : σ → α × σ) (ev : α → ε) (s : σ) :
    Prog.call op ev s = ⟨(op s).1, (op s).2, [ev (op s).1]⟩ := rfl

@[simp] theorem Prog.callVoid_run (op : σ → σ) (ev : ε) (s : σ) :
    Prog.callVoid op ev s = ⟨(), op s, [ev]⟩ := rfl

@[simp] theorem Prog.defer_run (cleanup : Prog σ ε Unit) (body : Prog σ ε α) (s : σ) :
    Prog.defer cleanup body s =
      ⟨(body s).ret, (cleanup (body s).world).world,
        (body s).trace ++ (cleanup (body s).world).trace⟩ := by
  simp [Prog.defer]

theorem Replays.append {redo : ε → σ → ε × σ} {s w s2 : σ} {t1 t2 : List ε}
    (h1 : Replays redo s t1 w) (h2 : Replays redo w t2 s2) :
    Replays redo s (t1 ++ t2) s2 := by
  induction t1 generalizing s with
  | nil =>
    simp only [Replays] at h1
    subst h1
    exact h2
  | cons ev rest ih =>
    simp only [Replays] at h1
    exact ⟨h1.1, ih h1.2⟩

theorem Replays.split {redo : ε → σ → ε × σ} {s s2 : σ} {t1 t2 : List ε}
    (h : Replays redo s (t1 ++ t2) s2) :
    ∃ w, Replays redo s t1 w ∧ Replays redo w t2 s2 := by
  induction t1 generalizing s with
  | nil => exact ⟨s, rfl, h⟩
  | cons ev rest ih =>
    simp only [List.cons_append, Replays] at h
    obtain ⟨w, h1, h2⟩ := ih h.2
    exact ⟨w, ⟨h.1, h1⟩, h2⟩

/-- The world a true record leads to is the starting world acted on by the
recorded calls, one after the other. -/
theorem Replays.world_eq {redo : ε → σ → ε × σ} {s s2 : σ} {t : List ε}
    (h : Replays redo s t s2) : s2 = t.foldl (fun w ev => (redo ev w).2) s := by
  induction t generalizing s with
  | nil => exact h
  | cons ev rest ih => exact ih h.2

theorem Prog.Faithful.pure (redo : ε → σ → ε × σ) (a : α) :
    Prog.Faithful redo (pure a : Prog σ ε α) := fun _ => rfl

theorem Prog.Faithful.bind {redo : ε → σ → ε × σ} {p : Prog σ ε α} {f : α → Prog σ ε β}
    (hp : Prog.Faithful redo p) (hf : ∀ a, Prog.Faithful redo (f a)) :
    Prog.Faithful redo (p >>= f) := fun s =>
  Replays.append (hp s) (hf (p s).ret (p s).world)

theorem Prog.Faithful.call {redo : ε → σ → ε × σ} (op : σ → α × σ) (ev : α → ε)
    (h : ∀ s, redo (ev (op s).1) s = (ev (op s).1, (op s).2)) :
    Prog.Faithful redo (Prog.call op ev) := fun s => by
  simp only [Prog.call_run, Replays, h s, and_self]

theorem Prog.Faithful.callVoid {redo : ε → σ → ε × σ} (op : σ → σ) (ev : ε)
    (h : ∀ s, redo ev s = (ev, op s)) :
    Prog.Faithful redo (Prog.callVoid op ev) := fun s => by
  simp only [Prog.callVoid_run, Replays, h s, and_self]

theorem Prog.Faithful.emit {redo : ε → σ → ε × σ} (ev : ε)
    (h : ∀ s, redo ev s = (ev, s)) :
    Prog.Faithful redo (Prog.emit ev : Prog σ ε Unit) := fun s => by
  simp only [Prog.emit, Replays, h s, and_self]

theorem Prog.Faithful.defer {redo : ε → σ → ε × σ} {cleanup : Prog σ ε Unit}
    {body : Prog σ ε α} (hc : Prog.Faithful redo cleanup) (hb : Prog.Faithful redo body) :
    Prog.Faithful redo (Prog.defer cleanup body) := fun s => by
  rw [Prog.defer_run]
  exact Replays.append (hb s) (hc (body s).world)

end ProgLemmas

/-! ## The job applier keeps a true record -/

section JobApplierFaithful

variable {σ Bundle : Type}

theorem Apply.chmodFiles_faithful (c : Collaborators σ Bundle) (files : List String) :
    Prog.Faithful (Event.redo c) (Apply.chmodFiles c files) := by
  induction files with
  | nil => exact Prog.Faithful.pure _ _
  | cons f rest ih =>
    unfold Apply.chmodFiles
    refine Prog.Faithful.bind (Prog.Faithful.call _ _ (fun _ => rfl)) ?_
    intro err
    cases err with
    | some e => exact Prog.Faithful.pure _ _
    | none => exact ih

theorem Apply_faithful (c : Collaborators σ Bundle) (job : Job) :
    Prog.Faithful (Event.redo c) (Apply c job) := by
  unfold Apply
  refine Prog.Faithful.bind (Prog.Faithful.call _ _ (fun _ => rfl)) ?_
  intro r
  cases r with
  | error e => exact Prog.Faithful.pure _ _
  | ok jobBundle =>
  refine Prog.Faithful.bind (Prog.Faithful.call _ _ (fun _ => rfl)) ?_
  intro r
  cases r with
  | error e => exact Prog.Faithful.pure _ _
  | ok jobDir =>
  refine Prog.Faithful.bind (Prog.Faithful.call _ _ (fun _ => rfl)) ?_
  intro r
  cases r with
  | error e => exact Prog.Faithful.pure _ _
  | ok file =>
  refine Prog.Faithful.defer (Prog.Faithful.callVoid _ _ (fun _ => rfl)) ?_
  refine Prog.Faithful.bind (Prog.Faithful.call _ _ (fun _ => rfl)) ?_
  intro r
  cases r with
  | error e => exact Prog.Faithful.pure _ _
  | ok tmpDir =>
  refine Prog.Faithful.defer (Prog.Faithful.callVoid _ _ (fun _ => rfl)) ?_
  refine Prog.Faithful.bind (Prog.Faithful.call _ _ (fun _ => rfl)) ?_
  intro err
  cases err with
  | some e => exact Prog.Faithful.pure _ _
  | none =>
  refine Prog.Faithful.bind (Prog.Faithful.call _ _ (fun _ => rfl)) ?_
  intro err
  cases err with
  | some e => exact Prog.Faithful.pure _ _
  | none =>
  refine Prog.Faithful.bind (Prog.Faithful.call _ _ (fun _ => rfl)) ?_
  intro r
  cases r with
  | error e => exact Prog.Faithful.pure _ _
  | ok files =>
  refine Prog.Faithful.bind (Apply.chmodFiles_faithful c files) ?_
  intro err
  cases err with
  | some e => exact Prog.Faithful.pure _ _
  | none =>
  refine Prog.Faithful.bind (Prog.Faithful.call _ _ (fun _ => rfl)) ?_
  intro err
  cases err with
  | some e => exact Prog.Faithful.pure _ _
  | none => exact Prog.Faithful.pure _ _

theorem Configure.addFragments_faithful (c : Collaborators σ Bundle) (job : Job)
    (jobIndex : Int) (paths : List String) :
    Prog.Faithful (Event.redo c) (Configure.addFragments c job jobIndex paths) := by
  induction paths with
  | nil => exact Prog.Faithful.pure _ _
  | cons p rest ih =>
    unfold Configure.addFragments
    refine Prog.Faithful.bind (Prog.Faithful.call _ _ (fun _ => rfl)) ?_
    intro err
    cases err with
    | some e => exact Prog.Faithful.pure _ _
    | none => exact ih

theorem Configure.fragments_faithful (c : Collaborators σ Bundle) (job : Job)
    (jobIndex : Int) (jobDir : String) :
    Prog.Faithful (Event.redo c) (Configure.fragments c job jobIndex jobDir) := by
  unfold Configure.fragments
  refine Prog.Faithful.bind (Prog.Faithful.call _ _ (fun _ => rfl)) ?_
  intro r
  cases r with
  | error e => exact Prog.Faithful.pure _ _
  | ok paths => exact Configure.addFragments_faithful c job jobIndex paths

theorem Configure_faithful (c : Collaborators σ Bundle) (job : Job) (jobIndex : Int) :
    Prog.Faithful (Event.redo c) (Configure c job jobIndex) := by
  unfold Configure
  refine Prog.Faithful.bind (Prog.Faithful.call _ _ (fun _ => rfl)) ?_
  intro r
  cases r with
  | error e => exact Prog.Faithful.pure _ _
  | ok jobBundle =>
  refine Prog.Faithful.bind (Prog.Faithful.call _ _ (fun _ => rfl)) ?_
  intro r
  cases r with
  | error e => exact Prog.Faithful.pure _ _
  | ok jobDir =>
  refine Prog.Faithful.bind (Prog.Faithful.call _ _ (fun _ => rfl)) ?_
  intro found
  cases found with
  | false => exact Configure.fragments_faithful c job jobIndex jobDir
  | true =>
    refine Prog.Faithful.bind (Prog.Faithful.call _ _ (fun _ => rfl)) ?_
    intro err
    cases err with
    | some e => exact Prog.Faithful.pure _ _
    | none => exact Configure.fragments_faithful c job jobIndex jobDir

theorem KeepOnly.shouldKeep_faithful [DecidableEq Bundle] (c : Collaborators σ Bundle)
    (b : Bundle) (jobs : List Job) :
    Prog.Faithful (Event.redo c) (KeepOnly.shouldKeep c b jobs) := by
  induction jobs with
  | nil => exact Prog.Faithful.pure _ _
  | cons job rest ih =>
    unfold KeepOnly.shouldKeep
    refine Prog.Faithful.bind (Prog.Faithful.call _ _ (fun _ => rfl)) ?_
    intro r
    cases r with
    | error e => exact Prog.Faithful.pure _ _
    | ok jobBundle =>
      by_cases h : jobBundle = b
      · simp only [h, if_true]
        exact Prog.Faithful.pure _ _
      · simp only [h, if_false]
        exact ih

theorem KeepOnly.eachInstalled_faithful [DecidableEq Bundle] (c : Collaborators σ Bundle)
    (jobs : List Job) (installed : List Bundle) :
    Prog.Faithful (Event.redo c) (KeepOnly.eachInstalled c jobs installed) := by
  induction installed with
  | nil => exact Prog.Faithful.pure _ _
  | cons b rest ih =>
    unfold KeepOnly.eachInstalled
    refine Prog.Faithful.bind (KeepOnly.shouldKeep_faithful c b jobs) ?_
    intro keep
    cases keep with
    | error e => exact Prog.Faithful.pure _ _
    | ok k =>
      cases k with
      | true => exact ih
      | false =>
        refine Prog.Faithful.bind (Prog.Faithful.call _ _ (fun _ => rfl)) ?_
        intro err
        cases err with
        | some e => exact Prog.Faithful.pure _ _
        | none =>
          refine Prog.Faithful.bind (Prog.Faithful.call _ _ (fun _ => rfl)) ?_
          intro err
          cases err with
          | some e => exact Prog.Faithful.pure _ _
          | none => exact ih

theorem KeepOnly_faithful [DecidableEq Bundle] (c : Collaborators σ Bundle)
    (jobs : List Job) : Prog.Faithful (Event.redo c) (KeepOnly c jobs) := by
  unfold KeepOnly
  refine Prog.Faithful.bind (Prog.Faithful.call _ _ (fun _ => rfl)) ?_
  intro r
  cases r with
  | error e => exact Prog.Faithful.pure _ _
  | ok installed => exact KeepOnly.eachInstalled_faithful c jobs installed

end JobApplierFaithful

/-! ## KeepOnly -/

section KeepOnlyTheorems

variable {σ Bundle : Type} [DecidableEq Bundle]

theorem KeepOnly.shouldKeep_ok (c : Collaborators σ Bundle) (b : Bundle) (jobs : List Job)
    (s : σ) (hok : ∀ ev ∈ (KeepOnly.shouldKeep c b jobs s).trace, ev.failed = false) :
    ∃ got : List Bundle,
      (KeepOnly.shouldKeep c b jobs s).trace =
        List.zipWith (fun job g => Event.jobsBcGet job (.ok g)) jobs got ∧
      (KeepOnly.shouldKeep c b jobs s).ret = .ok (decide (b ∈ got)) ∧
      got.length ≤ jobs.length ∧
      (b ∈ got → ∃ pre, got = pre ++ [b] ∧ b ∉ pre) ∧
      (b ∉ got → got.length = jobs.length) := by
  induction jobs generalizing s with
  | nil => exact ⟨[], by simp [KeepOnly.shouldKeep], by simp [KeepOnly.shouldKeep], by simp,
      by simp, by simp⟩
  | cons job rest ih =>
    cases hg : (c.jobsBcGet job s).1 with
    | error e =>
      have := hok (.jobsBcGet job (.error e)) (by simp [KeepOnly.shouldKeep, hg])
      simp [Event.failed] at this
    | ok jb =>
      by_cases hb : jb = b
      · subst hb
        exact ⟨[jb], by simp [KeepOnly.shouldKeep, hg], by simp [KeepOnly.shouldKeep, hg],
          by simp, fun _ => ⟨[], by simp, by simp⟩, by simp⟩
      · have htr : (KeepOnly.shouldKeep c b (job :: rest) s).trace =
            .jobsBcGet job (.ok jb) ::
              (KeepOnly.shouldKeep c b rest (c.jobsBcGet job s).2).trace := by
          simp [KeepOnly.shouldKeep, hg, hb]
        have hret : (KeepOnly.shouldKeep c b (job :: rest) s).ret =
            (KeepOnly.shouldKeep c b rest (c.jobsBcGet job s).2).ret := by
          simp [KeepOnly.shouldKeep, hg, hb]
        obtain ⟨got, ht, hr, hlen, hin, hout⟩ := ih (c.jobsBcGet job s).2
          (fun ev hev => hok ev (by rw [htr]; exact List.mem_cons_of_mem _ hev))
        have hne : b ≠ jb := fun h => hb h.symm
        refine ⟨jb :: got, by rw [htr, ht]; rfl, ?_, by simpa using hlen, ?_, ?_⟩
        · rw [hret, hr]
          simp [hne]
        · intro hmem
          have hmem2 : b ∈ got := by
            rcases List.mem_cons.mp hmem with h | h
            · exact absurd h hne
            · exact h
          obtain ⟨pre, hpre, hnot⟩ := hin hmem2
          exact ⟨jb :: pre, by simp [hpre], by simp [hne, hnot]⟩
        · intro hnot
          have hnot2 : b ∉ got := fun h => hnot (List.mem_cons_of_mem _ h)
          simp [hout hnot2]

theorem KeepOnly.eachInstalled_ok (c : Collaborators σ Bundle) (jobs : List Job)
    (installed : List Bundle) (s : σ)
    (hok : ∀ ev ∈ (KeepOnly.eachInstalled c jobs installed s).trace, ev.failed = false) :
    (KeepOnly.eachInstalled c jobs installed s).ret = none ∧
    ∃ gots : List (List Bundle),
      List.Forall₂ (fun (b : Bundle) (got : List Bundle) =>
        got.length ≤ jobs.length ∧
        (b ∈ got → ∃ pre, got = pre ++ [b] ∧ b ∉ pre) ∧
        (b ∉ got → got.length = jobs.length)) installed gots ∧
      (KeepOnly.eachInstalled c jobs installed s).trace =
        (List.zipWith (KeepOnly.round jobs) installed gots).flatten := by
  induction installed generalizing s with
  | nil => exact ⟨by simp [KeepOnly.eachInstalled], [], List.Forall₂.nil,
      by simp [KeepOnly.eachInstalled]⟩
  | cons b rest ih =>
    have hpre : ∀ ev ∈ (KeepOnly.shouldKeep c b jobs s).trace, ev.failed = false := by
      intro ev hev
      apply hok
      simp only [KeepOnly.eachInstalled, Prog.bind_run]
      exact List.mem_append_left _ hev
    obtain ⟨got, ht, hr, hlen, hin, hout⟩ := KeepOnly.shouldKeep_ok c b jobs s hpre
    by_cases hmem : b ∈ got
    · have hr2 : (KeepOnly.shouldKeep c b jobs s).ret = .ok true := by
        rw [hr]; simp [hmem]
      have htr : (KeepOnly.eachInstalled c jobs (b :: rest) s).trace =
          (KeepOnly.shouldKeep c b jobs s).trace ++
            (KeepOnly.eachInstalled c jobs rest (KeepOnly.shouldKeep c b jobs s).world).trace := by
        simp [KeepOnly.eachInstalled, hr2]
      have hret : (KeepOnly.eachInstalled c jobs (b :: rest) s).ret =
          (KeepOnly.eachInstalled c jobs rest (KeepOnly.shouldKeep c b jobs s).world).ret := by
        simp [KeepOnly.eachInstalled, hr2]
      obtain ⟨hnone, gots, hrel, hrest⟩ := ih (KeepOnly.shouldKeep c b jobs s).world
        (fun ev hev => hok ev (by rw [htr]; exact List.mem_append_right _ hev))
      refine ⟨by rw [hret, hnone], got :: gots, List.Forall₂.cons ⟨hlen, hin, hout⟩ hrel, ?_⟩
      rw [htr, ht, hrest]
      simp [KeepOnly.round, hmem]
    · have hr2 : (KeepOnly.shouldKeep c b jobs s).ret = .ok false := by
        rw [hr]; simp [hmem]
      cases hd : (c.Disable b (KeepOnly.shouldKeep c b jobs s).world).1 with
      | some e =>
        have := hok (.Disable b (some e)) (by simp [KeepOnly.eachInstalled, hr2, hd])
        simp [Event.failed] at this
      | none =>
        cases hu : (c.Uninstall b
            (c.Disable b (KeepOnly.shouldKeep c b jobs s).world).2).1 with
        | some e =>
          have := hok (.Uninstall b (some e)) (by simp [KeepOnly.eachInstalled, hr2, hd, hu])
          simp [Event.failed] at this
        | none =>
          have htr : (KeepOnly.eachInstalled c jobs (b :: rest) s).trace =
              (KeepOnly.shouldKeep c b jobs s).trace ++
                [.Disable b none, .Uninstall b none] ++
                (KeepOnly.eachInstalled c jobs rest
                  (c.Uninstall b
                    (c.Disable b (KeepOnly.shouldKeep c b jobs s).world).2).2).trace := by
            simp [KeepOnly.eachInstalled, hr2, hd, hu]
          have hret : (KeepOnly.eachInstalled c jobs (b :: rest) s).ret =
              (KeepOnly.eachInstalled c jobs rest
                (c.Uninstall b
                  (c.Disable b (KeepOnly.shouldKeep c b jobs s).world).2).2).ret := by
            simp [KeepOnly.eachInstalled, hr2, hd, hu]
          obtain ⟨hnone, gots, hrel, hrest⟩ := ih _
            (fun ev hev => hok ev (by rw [htr]; exact List.mem_append_right _ hev))
          refine ⟨by rw [hret, hnone], got :: gots,
            List.Forall₂.cons ⟨hlen, hin, hout⟩ hrel, ?_⟩
          rw [htr, ht, hrest]
          simp [KeepOnly.round, hmem]

theorem KeepOnly.round_removals (jobs : List Job) (installed : List Bundle)
    (gots : List (List Bundle)) :
    ((List.zipWith (KeepOnly.round jobs) installed gots).flatten).filter Event.isRemoval =
      ((List.zip installed gots).filter (fun bg => decide (bg.1 ∉ bg.2))).flatMap
        (fun bg => [Event.Disable bg.1 none, Event.Uninstall bg.1 none]) := by
  have hget : ∀ (js : List Job) (got : List Bundle),
      (List.zipWith (fun job g => Event.jobsBcGet job (.ok g)) js got).filter
        Event.isRemoval = [] := by
    intro js
    induction js with
    | nil => intro got; simp
    | cons j js ihj =>
      intro got
      cases got with
      | nil => simp
      | cons g got => simp [Event.isRemoval, ihj got]
  induction installed generalizing gots with
  | nil => simp
  | cons b rest ih =>
    cases gots with
    | nil => simp
    | cons got gots =>
      simp only [List.zipWith_cons_cons, List.flatten_cons, List.filter_append, ih,
        List.zip_cons_cons, List.filter_cons]
      by_cases hmem : b ∈ got
      · simp [KeepOnly.round, hmem, hget]
      · simp [KeepOnly.round, hmem, hget, Event.isRemoval]

theorem KeepOnly.round_no_jobs (installed : List Bundle) (gots : List (List Bundle))
    (h : List.Forall₂ (fun (_ : Bundle) (got : List Bundle) => got.length ≤ 0)
      installed gots) :
    (List.zipWith (KeepOnly.round ([] : List Job)) installed gots).flatten =
      installed.flatMap (fun b => [Event.Disable b none, Event.Uninstall b none]) := by
  induction installed generalizing gots with
  | nil => simp
  | cons b rest ih =>
    cases h with
    | cons hb hrest =>
      rename_i got gots
      have hgot : got = [] := List.length_eq_zero.mp (Nat.le_zero.mp hb)
      subst hgot
      simp [KeepOnly.round, ih gots hrest]

/-- C1.  In a run of `KeepOnly` in which no collaborator call fails,
`KeepOnly` returns no error, and the run is the listing of the installed
bundles followed, for each installed bundle `b` in list order, by the round
of `b`: the lookups of desired jobs, then `Disable b` immediately followed
by `Uninstall b` if `b` equals none of the bundles `got` those lookups
obtained (all desired jobs were then looked up), and nothing more if it
equals one (the lookups stop at the first such bundle).  So the
`Disable`/`Uninstall` calls of the run are exactly `Disable b`,
`Uninstall b` for the installed bundles equal to no obtained bundle, in
installed-list order; with no desired job every installed bundle is
disabled and then uninstalled.  The world returned is the starting world
acted on by exactly these calls, in this order. -/
theorem KeepOnly_removes_exactly_the_undesired (c : Collaborators σ Bundle)
    (jobs : List Job) (s : σ)
    (hok : ∀ ev ∈ (KeepOnly c jobs s).trace, ev.failed = false) :
    (KeepOnly c jobs s).ret = none ∧
    (∃ installed gots,
      List.Forall₂ (fun (b : Bundle) (got : List Bundle) =>
        got.length ≤ jobs.length ∧
        (b ∈ got → ∃ pre, got = pre ++ [b] ∧ b ∉ pre) ∧
        (b ∉ got → got.length = jobs.length)) installed gots ∧
      (KeepOnly c jobs s).trace =
        .jobsBcList (.ok installed) ::
          (List.zipWith (KeepOnly.round jobs) installed gots).flatten ∧
      (KeepOnly c jobs s).trace.filter Event.isRemoval =
        ((List.zip installed gots).filter (fun bg => decide (bg.1 ∉ bg.2))).flatMap
          (fun bg => [Event.Disable bg.1 none, Event.Uninstall bg.1 none]) ∧
      (jobs = [] → (KeepOnly c jobs s).trace =
        .jobsBcList (.ok installed) ::
          installed.flatMap (fun b => [Event.Disable b none, Event.Uninstall b none]))) ∧
    Replays (Event.redo c) s (KeepOnly c jobs s).trace (KeepOnly c jobs s).world ∧
    (KeepOnly c jobs s).world =
      (KeepOnly c jobs s).trace.foldl (fun w ev => (Event.redo c ev w).2) s := by
  have hfaith := KeepOnly_faithful c jobs s
  refine ⟨?_, ?_, hfaith, hfaith.world_eq⟩
  · cases hl : (c.jobsBcList s).1 with
    | error e =>
      have := hok (.jobsBcList (.error e)) (by simp [KeepOnly, hl])
      simp [Event.failed] at this
    | ok installed =>
      have htr : (KeepOnly c jobs s).trace = .jobsBcList (.ok installed) ::
          (KeepOnly.eachInstalled c jobs installed (c.jobsBcList s).2).trace := by
        simp [KeepOnly, hl]
      obtain ⟨hnone, -⟩ := KeepOnly.eachInstalled_ok c jobs installed (c.jobsBcList s).2
        (fun ev hev => hok ev (by rw [htr]; exact List.mem_cons_of_mem _ hev))
      simp [KeepOnly, hl, hnone]
  · cases hl : (c.jobsBcList s).1 with
    | error e =>
      have := hok (.jobsBcList (.error e)) (by simp [KeepOnly, hl])
      simp [Event.failed] at this
    | ok installed =>
      have htr : (KeepOnly c jobs s).trace = .jobsBcList (.ok installed) ::
          (KeepOnly.eachInstalled c jobs installed (c.jobsBcList s).2).trace := by
        simp [KeepOnly, hl]
      obtain ⟨-, gots, hrel, hrest⟩ :=
        KeepOnly.eachInstalled_ok c jobs installed (c.jobsBcList s).2
          (fun ev hev => hok ev (by rw [htr]; exact List.mem_cons_of_mem _ hev))
      refine ⟨installed, gots, hrel, by rw [htr, hrest], ?_, ?_⟩
      · rw [htr, hrest, List.filter_cons]
        simp only [Event.isRemoval, Bool.false_eq_true, if_false]
        exact KeepOnly.round_removals jobs installed gots
      · intro hjobs
        subst hjobs
        rw [htr, hrest, KeepOnly.round_no_jobs installed gots
          (hrel.imp (fun _ _ h => by simpa using h.1))]

/-- Witness for C1: in the journal world `KeepOnly []` disables and then
uninstalls `web`, then `db`, and the journal shows just that;
`KeepOnly [webJob]` keeps `web` and removes `db` only.  The run need only be
free of failures itself: in the world `disableOnce`, where `Disable` fails in
every state but the first, `KeepOnly [webJob]` still runs without a failure
and removes `db`. -/
theorem KeepOnly_removes_exactly_the_undesired_witness :
    (∀ ev ∈ (KeepOnly disableOnce [webJob] []).trace, ev.failed = false) ∧
    (disableOnce.Disable "db" ["disable web"]).1 = some (.New "busy") ∧
    (KeepOnly disableOnce [webJob] []).ret = none ∧
    (KeepOnly disableOnce [webJob] []).world = ["disable db", "uninstall db"] ∧
    (KeepOnly journalCollaborators [] []).ret = none ∧
    (KeepOnly journalCollaborators [] []).trace =
      [.jobsBcList (.ok ["web", "db"]), .Disable "web" none, .Uninstall "web" none,
        .Disable "db" none, .Uninstall "db" none] ∧
    (KeepOnly journalCollaborators [] []).world =
      ["disable web", "uninstall web", "disable db", "uninstall db"] ∧
    (KeepOnly journalCollaborators [webJob] []).trace =
      [.jobsBcList (.ok ["web", "db"]), .jobsBcGet webJob (.ok "web"),
        .jobsBcGet webJob (.ok "web"), .Disable "db" none, .Uninstall "db" none] ∧
    (KeepOnly journalCollaborators [webJob] []).world = ["disable db", "uninstall db"] :=
  ⟨by decide, by decide,
    (KeepOnly_removes_exactly_the_undesired disableOnce [webJob] [] (by decide)).1,
    by decide, by decide, by decide, by decide, by decide, by decide⟩

theorem KeepOnly.shouldKeep_no_removal (c : Collaborators σ Bundle) (b : Bundle)
    (jobs : List Job) (s : σ) :
    ∀ ev ∈ (KeepOnly.shouldKeep c b jobs s).trace, ev.isRemoval = false := by
  induction jobs generalizing s with
  | nil => simp [KeepOnly.shouldKeep]
  | cons job jobs ih =>
    intro ev hev
    simp only [KeepOnly.shouldKeep, Prog.bind_run, Prog.call_run] at hev
    cases hg : (c.jobsBcGet job s).1 with
    | error err =>
      simp [hg] at hev
      subst hev; rfl
    | ok jb =>
      by_cases hb : jb = b
      · simp [hg, hb] at hev
        subst hev; rfl
      · simp [hg, hb] at hev
        rcases hev with hev | hev
        · subst hev; rfl
        · exact ih _ ev hev

theorem KeepOnly.eachInstalled_fail_fast (c : Collaborators σ Bundle) (jobs : List Job)
    (b : Bundle) (e : Error) (ev : Event Bundle)
    (hev : ev = .Disable b (some e) ∨ ev = .Uninstall b (some e))
    (installed : List Bundle) (s : σ)
    (hmem : ev ∈ (KeepOnly.eachInstalled c jobs installed s).trace) :
    (∃ msg, (KeepOnly.eachInstalled c jobs installed s).ret = some (WrapError e msg)) ∧
    ∃ pre post before, installed = pre ++ b :: post ∧
      (KeepOnly.eachInstalled c jobs installed s).trace = before ++ [ev] ∧
      ∀ ev2 ∈ before, ev2.isRemoval = true →
        (∃ b2 ∈ pre, ev2 = .Disable b2 none ∨ ev2 = .Uninstall b2 none) ∨
        (ev = .Uninstall b (some e) ∧ ev2 = .Disable b none) := by
  have hrem : ev.isRemoval = true := by rcases hev with h | h <;> (subst h; rfl)
  induction installed generalizing s with
  | nil => simp [KeepOnly.eachInstalled] at hmem
  | cons b0 rest ih =>
    have hk := KeepOnly.shouldKeep_no_removal c b0 jobs s
    have hnotk : ev ∉ (KeepOnly.shouldKeep c b0 jobs s).trace := by
      intro h
      rw [hk ev h] at hrem
      exact Bool.noConfusion hrem
    simp only [KeepOnly.eachInstalled, Prog.bind_run] at hmem ⊢
    cases hret : (KeepOnly.shouldKeep c b0 jobs s).ret with
    | error err =>
      simp only [hret, Prog.pure_run, List.append_nil] at hmem
      exact absurd hmem hnotk
    | ok keep =>
      cases keep with
      | true =>
        simp only [hret, List.mem_append] at hmem ⊢
        rcases hmem with hmem | hmem
        · exact absurd hmem hnotk
        · obtain ⟨hmsg, pre, post, before, hsplit, htr, hprop⟩ := ih _ hmem
          refine ⟨hmsg, b0 :: pre, post, (KeepOnly.shouldKeep c b0 jobs s).trace ++ before,
            by simp [hsplit], by simp [htr], ?_⟩
          intro ev2 hev2 hrem2
          rcases List.mem_append.mp hev2 with h | h
          · rw [hk ev2 h] at hrem2
            exact Bool.noConfusion hrem2
          · rcases hprop ev2 h hrem2 with ⟨b2, hb2, hd⟩ | hd
            · exact Or.inl ⟨b2, List.mem_cons_of_mem _ hb2, hd⟩
            · exact Or.inr hd
      | false =>
        simp only [hret, Prog.bind_run, Prog.call_run] at hmem ⊢
        cases hd : (c.Disable b0 (KeepOnly.shouldKeep c b0 jobs s).world).1 with
        | some e0 =>
          simp only [hd, Prog.pure_run, List.append_nil, List.mem_append,
            List.mem_singleton] at hmem ⊢
          rcases hmem with hmem | hmem
          · exact absurd hmem hnotk
          · rcases hev with h | h
            · rw [h] at hmem
              injection hmem with hb he
              injection he with he
              subst hb; subst he
              refine ⟨⟨_, rfl⟩, [], rest, (KeepOnly.shouldKeep c b jobs s).trace,
                by simp, by simp [h], ?_⟩
              intro ev2 hev2 hrem2
              rw [hk ev2 hev2] at hrem2
              exact Bool.noConfusion hrem2
            · rw [h] at hmem
              cases hmem
        | none =>
          simp only [hd, Prog.bind_run, Prog.call_run] at hmem ⊢
          cases hu : (c.Uninstall b0
              (c.Disable b0 (KeepOnly.shouldKeep c b0 jobs s).world).2).1 with
          | some e0 =>
            simp only [hu, Prog.pure_run, List.append_nil, List.mem_append,
              List.mem_singleton] at hmem ⊢
            rcases hmem with hmem | hmem | hmem
            · exact absurd hmem hnotk
            · rcases hev with h | h
              · rw [h] at hmem
                injection hmem with _ he
                cases he
              · rw [h] at hmem
                cases hmem
            · rcases hev with h | h
              · rw [h] at hmem
                cases hmem
              · rw [h] at hmem
                injection hmem with hb he
                injection he with he
                subst hb; subst he
                refine ⟨⟨_, rfl⟩, [], rest,
                  (KeepOnly.shouldKeep c b jobs s).trace ++ [.Disable b none],
                  by simp, by simp [h], ?_⟩
                intro ev2 hev2 hrem2
                rcases List.mem_append.mp hev2 with h2 | h2
                · rw [hk ev2 h2] at hrem2
                  exact Bool.noConfusion hrem2
                · exact Or.inr ⟨h, List.mem_singleton.mp h2⟩
          | none =>
            simp only [hu, List.mem_append, List.mem_singleton] at hmem ⊢
            rcases hmem with hmem | hmem | hmem | hmem
            · exact absurd hmem hnotk
            · rcases hev with h | h
              · rw [h] at hmem
                injection hmem with _ he
                cases he
              · rw [h] at hmem
                cases hmem
            · rcases hev with h | h
              · rw [h] at hmem
                cases hmem
              · rw [h] at hmem
                injection hmem with _ he
                cases he
            · obtain ⟨hmsg, pre, post, before, hsplit, htr, hprop⟩ := ih _ hmem
              refine ⟨hmsg, b0 :: pre, post,
                (KeepOnly.shouldKeep c b0 jobs s).trace ++
                  [.Disable b0 none, .Uninstall b0 none] ++ before,
                by simp [hsplit], by simp [htr], ?_⟩
              intro ev2 hev2 hrem2
              rcases List.mem_append.mp hev2 with h | h
              · rcases List.mem_append.mp h with h | h
                · rw [hk ev2 h] at hrem2
                  exact Bool.noConfusion hrem2
                · refine Or.inl ⟨b0, List.mem_cons_self _ _, ?_⟩
                  simpa using h
              · rcases hprop ev2 h hrem2 with ⟨b2, hb2, hd2⟩ | hd2
                · exact Or.inl ⟨b2, List.mem_cons_of_mem _ hb2, hd2⟩
                · exact Or.inr hd2

/-- C2. `KeepOnly` is fail-fast.  If a run contains a failing `Disable b`
or a failing `Uninstall b` (the event `ev`, with error `e`), then `KeepOnly`
returns an error wrapping `e`, the failing call is the last call of the run,
and `b` sits at a position `pre ++ b :: post` of the installed list such
that every `Disable`/`Uninstall` made before the failure succeeded and was
made on a bundle of `pre` (or is the successful `Disable b` in front of a
failing `Uninstall b`).  So after a failing `Disable b` no `Uninstall b`
follows, and the bundles after `b` in the installed list are neither
disabled nor uninstalled. -/
theorem KeepOnly_fail_fast (c : Collaborators σ Bundle) (jobs : List Job) (s : σ)
    (b : Bundle) (e : Error) (ev : Event Bundle)
    (hev : ev = .Disable b (some e) ∨ ev = .Uninstall b (some e))
    (hmem : ev ∈ (KeepOnly c jobs s).trace) :
    (∃ msg, (KeepOnly c jobs s).ret = some (WrapError e msg)) ∧
    ∃ installed pre post before,
      (c.jobsBcList s).1 = .ok installed ∧ installed = pre ++ b :: post ∧
      (KeepOnly c jobs s).trace = .jobsBcList (.ok installed) :: before ++ [ev] ∧
      (∀ ev2 ∈ before, ev2.isRemoval = true →
        (∃ b2 ∈ pre, ev2 = .Disable b2 none ∨ ev2 = .Uninstall b2 none) ∨
        (ev = .Uninstall b (some e) ∧ ev2 = .Disable b none)) ∧
      (ev = .Disable b (some e) → b ∉ pre →
        ∀ err, Event.Uninstall b err ∉ (KeepOnly c jobs s).trace) ∧
      (∀ b2, b2 ∉ pre → b2 ≠ b → ∀ err,
        Event.Disable b2 err ∉ (KeepOnly c jobs s).trace ∧
        Event.Uninstall b2 err ∉ (KeepOnly c jobs s).trace) := by
  have hrem : ev.isRemoval = true := by rcases hev with h | h <;> (subst h; rfl)
  simp only [KeepOnly, Prog.bind_run, Prog.call_run] at hmem ⊢
  cases hl : (c.jobsBcList s).1 with
  | error err =>
    simp only [hl, Prog.pure_run, List.append_nil, List.mem_singleton] at hmem
    rw [hmem] at hrem
    exact Bool.noConfusion hrem
  | ok installed =>
    simp only [hl, List.singleton_append, List.mem_cons] at hmem ⊢
    rcases hmem with hmem | hmem
    · rw [hmem] at hrem
      exact Bool.noConfusion hrem
    · obtain ⟨hmsg, pre, post, before, hsplit, htr, hprop⟩ :=
        KeepOnly.eachInstalled_fail_fast c jobs b e ev hev installed _ hmem
      have hcases : ∀ ev2,
          ev2 ∈ Event.jobsBcList (.ok installed) :: (before ++ [ev]) →
          ev2.isRemoval = true →
          ev2 = ev ∨ (∃ b2 ∈ pre, ev2 = .Disable b2 none ∨ ev2 = .Uninstall b2 none) ∨
            (ev = .Uninstall b (some e) ∧ ev2 = .Disable b none) := by
        intro ev2 h2 hrem2
        rcases List.mem_cons.mp h2 with h2 | h2
        · rw [h2] at hrem2
          exact Bool.noConfusion hrem2
        · rcases List.mem_append.mp h2 with h2 | h2
          · exact Or.inr (hprop ev2 h2 hrem2)
          · exact Or.inl (List.mem_singleton.mp h2)
      refine ⟨hmsg, installed, pre, post, before, rfl, hsplit, ?_, hprop, ?_, ?_⟩
      · rw [htr]; simp
      · intro hd hpre err hin
        rw [htr] at hin
        rcases hcases (.Uninstall b err) (List.mem_cons.mpr hin) rfl with h | ⟨b2, hb2, h | h⟩ | ⟨h, _⟩
        · rw [hd] at h; cases h
        · cases h
        · injection h with h1 _
          exact hpre (h1 ▸ hb2)
        · rw [hd] at h; cases h
      · intro b2 hpre hne err
        rw [htr]
        constructor
        · intro hin
          rcases hcases (.Disable b2 err) (List.mem_cons.mpr hin) rfl with
            h | ⟨b3, hb3, h | h⟩ | ⟨_, h⟩
          · rcases hev with h2 | h2
            · rw [h2] at h
              injection h with h1 _
              exact hne h1
            · rw [h2] at h; cases h
          · injection h with h1 _
            exact hpre (h1 ▸ hb3)
          · cases h
          · injection h with h1 _
            exact hne h1
        · intro hin
          rcases hcases (.Uninstall b2 err) (List.mem_cons.mpr hin) rfl with
            h | ⟨b3, hb3, h | h⟩ | ⟨_, h⟩
          · rcases hev with h2 | h2
            · rw [h2] at h; cases h
            · rw [h2] at h
              injection h with h1 _
              exact hne h1
          · cases h
          · injection h with h1 _
            exact hpre (h1 ▸ hb3)
          · cases h

/-- Witness for C2: when disabling `web` fails, `KeepOnly []` stops right
there: `web` is not uninstalled and `db` is not touched. -/
theorem KeepOnly_fail_fast_witness :
    Event.Disable "web" (some (Error.New "disable failed")) ∈
      (KeepOnly disableFails [] ()).trace ∧
    (∃ msg, (KeepOnly disableFails [] ()).ret =
      some (WrapError (Error.New "disable failed") msg)) ∧
    (KeepOnly disableFails [] ()).trace =
      [.jobsBcList (.ok ["web", "db"]), .Disable "web" (some (Error.New "disable failed"))] :=
  ⟨by decide,
    (KeepOnly_fail_fast disableFails [] () "web" (Error.New "disable failed")
      (.Disable "web" (some (Error.New "disable failed"))) (Or.inl rfl) (by decide)).1,
    by decide⟩

end KeepOnlyTheorems


/-! ## Configure -/

section ConfigureTheorems

variable {σ Bundle : Type}

theorem Configure.addFragments_run (c : Collaborators σ Bundle) (job : Job) (jobIndex : Int)
    (paths : List String) (s : σ) :
    ((Configure.addFragments c job jobIndex paths s).ret = none ∧
      (Configure.addFragments c job jobIndex paths s).trace =
        paths.map (fun p => .AddJob (Configure.subJobName job p) jobIndex p none)) ∨
    (∃ pre p post e, paths = pre ++ p :: post ∧
      (Configure.addFragments c job jobIndex paths s).ret =
        some (WrapError e
          ("Adding additional monit configuration " ++ Configure.label p)) ∧
      (Configure.addFragments c job jobIndex paths s).trace =
        pre.map (fun p => .AddJob (Configure.subJobName job p) jobIndex p none) ++
          [.AddJob (Configure.subJobName job p) jobIndex p (some e)]) := by
  induction paths generalizing s with
  | nil => left; simp [Configure.addFragments]
  | cons p rest ih =>
    cases h : (c.AddJob (Configure.subJobName job p) jobIndex p s).1 with
    | some e =>
      right
      exact ⟨[], p, rest, e, by simp, by simp [Configure.addFragments, h],
        by simp [Configure.addFragments, h]⟩
    | none =>
      rcases ih (c.AddJob (Configure.subJobName job p) jobIndex p s).2 with
        ⟨hr, ht⟩ | ⟨pre, q, post, e, hsplit, hr, ht⟩
      · left
        simp [Configure.addFragments, h, hr, ht]
      · right
        exact ⟨p :: pre, q, post, e, by simp [hsplit],
          by simp [Configure.addFragments, h, hr], by simp [Configure.addFragments, h, ht]⟩

theorem Configure.fragments_run (c : Collaborators σ Bundle) (job : Job) (jobIndex : Int)
    (jobDir : String) (s : σ) :
    ((∀ ev ∈ (Configure.fragments c job jobIndex jobDir s).trace, ev.failed = false) →
      ∃ paths, (Configure.fragments c job jobIndex jobDir s).ret = none ∧
        (Configure.fragments c job jobIndex jobDir s).trace =
          .Glob (filepath.Join [jobDir, "*.monit"]) (.ok paths) ::
            paths.map (fun p => .AddJob (Configure.subJobName job p) jobIndex p none)) ∧
    (∀ name index path e,
      Event.AddJob name index path (some e) ∈
          (Configure.fragments c job jobIndex jobDir s).trace →
        (∃ msg, (Configure.fragments c job jobIndex jobDir s).ret =
          some (WrapError e msg)) ∧
        ∃ before, (Configure.fragments c job jobIndex jobDir s).trace =
          before ++ [.AddJob name index path (some e)]) := by
  cases hg : (c.Glob (filepath.Join [jobDir, "*.monit"]) s).1 with
  | error err =>
    constructor
    · intro hok
      have := hok (.Glob (filepath.Join [jobDir, "*.monit"]) (.error err))
        (by simp [Configure.fragments, hg])
      simp [Event.failed] at this
    · intro name index path e hmem
      simp [Configure.fragments, hg] at hmem
  | ok paths =>
    have hrun := Configure.addFragments_run c job jobIndex paths
      (c.Glob (filepath.Join [jobDir, "*.monit"]) s).2
    have htr : (Configure.fragments c job jobIndex jobDir s).trace =
        .Glob (filepath.Join [jobDir, "*.monit"]) (.ok paths) ::
          (Configure.addFragments c job jobIndex paths
            (c.Glob (filepath.Join [jobDir, "*.monit"]) s).2).trace := by
      simp [Configure.fragments, hg]
    have hret : (Configure.fragments c job jobIndex jobDir s).ret =
        (Configure.addFragments c job jobIndex paths
          (c.Glob (filepath.Join [jobDir, "*.monit"]) s).2).ret := by
      simp [Configure.fragments, hg]
    rcases hrun with ⟨hr, ht⟩ | ⟨pre, q, post, e0, _, hr, ht⟩
    · constructor
      · intro _
        exact ⟨paths, by rw [hret, hr], by rw [htr, ht]⟩
      · intro name index path e hmem
        rw [htr, ht] at hmem
        simp at hmem
    · constructor
      · intro hok
        have := hok (.AddJob (Configure.subJobName job q) jobIndex q (some e0))
          (by rw [htr, ht]; simp)
        simp [Event.failed] at this
      · intro name index path e hmem
        rw [htr, ht] at hmem
        simp at hmem
        obtain ⟨h1, h2, h3, h4⟩ := hmem
        subst name index path e
        refine ⟨⟨_, by rw [hret, hr]⟩, ?_⟩
        exact ⟨.Glob (filepath.Join [jobDir, "*.monit"]) (.ok paths) ::
          pre.map (fun p => .AddJob (Configure.subJobName job p) jobIndex p none),
          by rw [htr, ht]; simp⟩

/-- The calls of `Configure`.  In a run in which no call
fails, the calls are: the bundle lookup, the install-path lookup, the test
for `<installDir>/monit`, then one `AddJob (job.Name, jobIndex,
<installDir>/monit)` exactly when that file exists, then the `*.monit`
glob, then one `AddJob` per path the glob found, in the glob's order, each
with index `jobIndex` and that path as config path; `Configure` returns no
error.  In any run, a failing `AddJob` is the last call made and
`Configure` returns an error wrapping its cause. -/
theorem Configure_run (c : Collaborators σ Bundle) (job : Job)
    (jobIndex : Int) (s : σ) :
    ((∀ ev ∈ (Configure c job jobIndex s).trace, ev.failed = false) →
      ∃ jobBundle jobDir found paths,
        (Configure c job jobIndex s).ret = none ∧
        (Configure c job jobIndex s).trace =
          [.jobsBcGet job (.ok jobBundle), .GetInstallPath jobBundle (.ok jobDir),
            .FileExists (filepath.Join [jobDir, "monit"]) found] ++
          (if found = true then
            [.AddJob job.Name jobIndex (filepath.Join [jobDir, "monit"]) none] else []) ++
          [.Glob (filepath.Join [jobDir, "*.monit"]) (.ok paths)] ++
          paths.map (fun p => .AddJob (Configure.subJobName job p) jobIndex p none)) ∧
    (∀ name index path e,
      Event.AddJob name index path (some e) ∈ (Configure c job jobIndex s).trace →
        (∃ msg, (Configure c job jobIndex s).ret = some (WrapError e msg)) ∧
        ∃ before, (Configure c job jobIndex s).trace =
          before ++ [.AddJob name index path (some e)]) := by
  cases hget : (c.jobsBcGet job s).1 with
  | error err =>
    constructor
    · intro hok
      have := hok (.jobsBcGet job (.error err)) (by simp [Configure, hget])
      simp [Event.failed] at this
    · intro name index path e hmem
      simp [Configure, hget] at hmem
  | ok jobBundle =>
    cases hpath : (c.GetInstallPath jobBundle (c.jobsBcGet job s).2).1 with
    | error err =>
      constructor
      · intro hok
        have := hok (.GetInstallPath jobBundle (.error err))
          (by simp [Configure, hget, hpath])
        simp [Event.failed] at this
      · intro name index path e hmem
        simp [Configure, hget, hpath] at hmem
    | ok jobDir =>
      cases hfound : (c.FileExists (filepath.Join [jobDir, "monit"])
          (c.GetInstallPath jobBundle (c.jobsBcGet job s).2).2).1 with
      | false =>
        obtain ⟨hA, hB⟩ := Configure.fragments_run c job jobIndex jobDir
          (c.FileExists (filepath.Join [jobDir, "monit"])
            (c.GetInstallPath jobBundle (c.jobsBcGet job s).2).2).2
        have htr : (Configure c job jobIndex s).trace =
            [.jobsBcGet job (.ok jobBundle), .GetInstallPath jobBundle (.ok jobDir),
              .FileExists (filepath.Join [jobDir, "monit"]) false] ++
            (Configure.fragments c job jobIndex jobDir
              (c.FileExists (filepath.Join [jobDir, "monit"])
                (c.GetInstallPath jobBundle (c.jobsBcGet job s).2).2).2).trace := by
          simp [Configure, hget, hpath, hfound]
        have hret : (Configure c job jobIndex s).ret =
            (Configure.fragments c job jobIndex jobDir
              (c.FileExists (filepath.Join [jobDir, "monit"])
                (c.GetInstallPath jobBundle (c.jobsBcGet job s).2).2).2).ret := by
          simp [Configure, hget, hpath, hfound]
        constructor
        · intro hok
          obtain ⟨paths, hr, ht⟩ := hA (fun ev hev => hok ev (by rw [htr]; simp [hev]))
          exact ⟨jobBundle, jobDir, false, paths, by rw [hret, hr], by rw [htr, ht]; simp⟩
        · intro name index path e hmem
          rw [htr] at hmem
          simp only [List.mem_append, List.mem_cons, List.mem_singleton,
            List.not_mem_nil, or_false, false_or, reduceCtorEq] at hmem
          obtain ⟨hmsg, before, hb⟩ := hB name index path e hmem
          exact ⟨by rw [hret]; exact hmsg, _, by rw [htr, hb, ← List.append_assoc]⟩
      | true =>
        cases hadd : (c.AddJob job.Name jobIndex (filepath.Join [jobDir, "monit"])
            (c.FileExists (filepath.Join [jobDir, "monit"])
              (c.GetInstallPath jobBundle (c.jobsBcGet job s).2).2).2).1 with
        | some e0 =>
          constructor
          · intro hok
            have := hok (.AddJob job.Name jobIndex (filepath.Join [jobDir, "monit"]) (some e0))
              (by simp [Configure, hget, hpath, hfound, hadd])
            simp [Event.failed] at this
          · intro name index path e hmem
            simp [Configure, hget, hpath, hfound, hadd] at hmem
            obtain ⟨h1, h2, h3, h4⟩ := hmem
            subst name index path e
            refine ⟨⟨"Adding monit configuration", by simp [Configure, hget, hpath, hfound, hadd]⟩,
              [.jobsBcGet job (.ok jobBundle), .GetInstallPath jobBundle (.ok jobDir),
                .FileExists (filepath.Join [jobDir, "monit"]) true], ?_⟩
            simp [Configure, hget, hpath, hfound, hadd]
        | none =>
          obtain ⟨hA, hB⟩ := Configure.fragments_run c job jobIndex jobDir
            (c.AddJob job.Name jobIndex (filepath.Join [jobDir, "monit"])
              (c.FileExists (filepath.Join [jobDir, "monit"])
                (c.GetInstallPath jobBundle (c.jobsBcGet job s).2).2).2).2
          have htr : (Configure c job jobIndex s).trace =
              [.jobsBcGet job (.ok jobBundle), .GetInstallPath jobBundle (.ok jobDir),
                .FileExists (filepath.Join [jobDir, "monit"]) true,
                .AddJob job.Name jobIndex (filepath.Join [jobDir, "monit"]) none] ++
              (Configure.fragments c job jobIndex jobDir
                (c.AddJob job.Name jobIndex (filepath.Join [jobDir, "monit"])
                  (c.FileExists (filepath.Join [jobDir, "monit"])
                    (c.GetInstallPath jobBundle (c.jobsBcGet job s).2).2).2).2).trace := by
            simp [Configure, hget, hpath, hfound, hadd]
          have hret : (Configure c job jobIndex s).ret =
              (Configure.fragments c job jobIndex jobDir
                (c.AddJob job.Name jobIndex (filepath.Join [jobDir, "monit"])
                  (c.FileExists (filepath.Join [jobDir, "monit"])
                    (c.GetInstallPath jobBundle (c.jobsBcGet job s).2).2).2).2).ret := by
            simp [Configure, hget, hpath, hfound, hadd]
          constructor
          · intro hok
            obtain ⟨paths, hr, ht⟩ := hA (fun ev hev => hok ev (by rw [htr]; simp [hev]))
            exact ⟨jobBundle, jobDir, true, paths, by rw [hret, hr], by rw [htr, ht]; simp⟩
          · intro name index path e hmem
            rw [htr] at hmem
            simp only [List.mem_append, List.mem_cons, List.mem_singleton,
              List.not_mem_nil, or_false, false_or, reduceCtorEq, Event.AddJob.injEq,
              and_false] at hmem
            obtain ⟨hmsg, before, hb⟩ := hB name index path e hmem
            exact ⟨by rw [hret]; exact hmsg, _, by rw [htr, hb, ← List.append_assoc]⟩

/-- C3, the code at the failing input.  For the fragment
`/jobs/web/x.monitor.monit` the base name is `x.monitor.monit`, and
`strings.Replace(…, ".monit", "", 1)` removes the first `.monit`, the one
inside `x.monitor`: the label is `xor.monit`, not `x.monitor`, and the
sub-job is registered as `web_xor.monit`. -/
theorem Configure_label_removes_first_monit_occurrence :
    filepath.Base "/jobs/web/x.monitor.monit" = "x.monitor.monit" ∧
    Configure.label "/jobs/web/x.monitor.monit" = "xor.monit" ∧
    Configure.label "/jobs/web/x.monitor.monit" ≠ "x.monitor" ∧
    (Configure sampleCollaborators webJob 0 ()).trace =
      [.jobsBcGet webJob (.ok "web"), .GetInstallPath "web" (.ok "/jobs/web"),
        .FileExists "/jobs/web/monit" true, .AddJob "web" 0 "/jobs/web/monit" none,
        .Glob "/jobs/web/*.monit" (.ok ["/jobs/web/x.monitor.monit"]),
        .AddJob "web_xor.monit" 0 "/jobs/web/x.monitor.monit" none] := by
  decide

/-- C4. The registrations of `Configure`.  In a run in which no call
fails, the calls are: the bundle lookup, the install-path lookup, the test
for `<installDir>/monit`, then one `AddJob (job.Name, jobIndex,
<installDir>/monit)` exactly when that file exists, then the `*.monit`
glob, then one `AddJob` per path the glob found, in the glob's order, each
with index `jobIndex` and that path as config path; `Configure` returns no
error.  In any run, a failing `AddJob` is the last call made and
`Configure` returns an error wrapping its cause.  In any run, the world
`Configure` returns is the starting world acted on by the recorded calls and
no others, in the recorded order, each call having had the recorded
outcome in the world it was made in. -/
theorem Configure_registers_in_order (c : Collaborators σ Bundle) (job : Job)
    (jobIndex : Int) (s : σ) :
    ((∀ ev ∈ (Configure c job jobIndex s).trace, ev.failed = false) →
      ∃ jobBundle jobDir found paths,
        (Configure c job jobIndex s).ret = none ∧
        (Configure c job jobIndex s).trace =
          [.jobsBcGet job (.ok jobBundle), .GetInstallPath jobBundle (.ok jobDir),
            .FileExists (filepath.Join [jobDir, "monit"]) found] ++
          (if found = true then
            [.AddJob job.Name jobIndex (filepath.Join [jobDir, "monit"]) none] else []) ++
          [.Glob (filepath.Join [jobDir, "*.monit"]) (.ok paths)] ++
          paths.map (fun p => .AddJob (Configure.subJobName job p) jobIndex p none)) ∧
    (∀ name index path e,
      Event.AddJob name index path (some e) ∈ (Configure c job jobIndex s).trace →
        (∃ msg, (Configure c job jobIndex s).ret = some (WrapError e msg)) ∧
        ∃ before, (Configure c job jobIndex s).trace =
          before ++ [.AddJob name index path (some e)]) ∧
    Replays (Event.redo c) s (Configure c job jobIndex s).trace
      (Configure c job jobIndex s).world ∧
    (Configure c job jobIndex s).world =
      (Configure c job jobIndex s).trace.foldl (fun w ev => (Event.redo c ev w).2) s :=
  ⟨(Configure_run c job jobIndex s).1, (Configure_run c job jobIndex s).2,
    Configure_faithful c job jobIndex s, (Configure_faithful c job jobIndex s).world_eq⟩

/-- Witness for C4: a run of `Configure` without failure in the journal
world, where the journal returned holds the two registrations and nothing
else, and a run in which the first registration fails. -/
theorem Configure_registers_in_order_witness :
    (∀ ev ∈ (Configure journalCollaborators webJob 0 []).trace, ev.failed = false) ∧
    (∃ jobBundle jobDir found paths,
      (Configure journalCollaborators webJob 0 []).ret = none ∧
      (Configure journalCollaborators webJob 0 []).trace =
        [.jobsBcGet webJob (.ok jobBundle), .GetInstallPath jobBundle (.ok jobDir),
          .FileExists (filepath.Join [jobDir, "monit"]) found] ++
        (if found = true then
          [.AddJob webJob.Name 0 (filepath.Join [jobDir, "monit"]) none] else []) ++
        [.Glob (filepath.Join [jobDir, "*.monit"]) (.ok paths)] ++
        paths.map (fun p => .AddJob (Configure.subJobName webJob p) 0 p none)) ∧
    (Configure journalCollaborators webJob 0 []).world =
      ["add job web", "add job web_xor.monit"] ∧
    Event.AddJob "web" 0 "/jobs/web/monit" (some (Error.New "monit is down")) ∈
      (Configure addJobFails webJob 0 ()).trace ∧
    (∃ before, (Configure addJobFails webJob 0 ()).trace =
      before ++ [.AddJob "web" 0 "/jobs/web/monit" (some (Error.New "monit is down"))]) :=
  ⟨by decide,
    (Configure_registers_in_order journalCollaborators webJob 0 []).1 (by decide),
    by decide, by decide,
    ((Configure_run addJobFails webJob 0 ()).2 "web" 0 "/jobs/web/monit"
      (Error.New "monit is down") (by decide)).2⟩

end ConfigureTheorems

/-! ## Apply -/

section ApplyTheorems

variable {σ Bundle : Type}

theorem Apply.chmodFiles_run (c : Collaborators σ Bundle) (files : List String) (s : σ) :
    ((Apply.chmodFiles c files s).ret = none ∧
      (Apply.chmodFiles c files s).trace = files.map (fun f => .Chmod f 0o755 none)) ∨
    (∃ pre f post e, files = pre ++ f :: post ∧
      (Apply.chmodFiles c files s).ret =
        some (WrapError e ("Making " ++ f ++ " executable")) ∧
      (Apply.chmodFiles c files s).trace =
        pre.map (fun f => .Chmod f 0o755 none) ++ [.Chmod f 0o755 (some e)]) := by
  induction files generalizing s with
  | nil => left; simp [Apply.chmodFiles]
  | cons f rest ih =>
    cases h : (c.Chmod f 0o755 s).1 with
    | some e =>
      right
      exact ⟨[], f, rest, e, by simp, by simp [Apply.chmodFiles, h],
        by simp [Apply.chmodFiles, h]⟩
    | none =>
      rcases ih (c.Chmod f 0o755 s).2 with ⟨hr, ht⟩ | ⟨pre, g, post, e, hsplit, hr, ht⟩
      · left
        simp [Apply.chmodFiles, h, hr, ht]
      · right
        exact ⟨f :: pre, g, post, e, by simp [hsplit],
          by simp [Apply.chmodFiles, h, hr], by simp [Apply.chmodFiles, h, ht]⟩

/-- Every run of `Apply` is one of the runs of `Apply.Outcome`. -/
theorem Apply_run (c : Collaborators σ Bundle) (job : Job) (s : σ) :
    Apply.Outcome job (Apply c job s).trace (Apply c job s).ret := by
  simp only [Apply, Prog.bind_run, Prog.call_run]
  rcases h1 : c.jobsBcGet job s with ⟨r1, s1⟩
  cases r1 with
  | error e => exact Apply.Outcome.bundleFails e
  | ok b =>
    simp only [Prog.bind_run, Prog.call_run]
    rcases h2 : c.Install b s1 with ⟨r2, s2⟩
    cases r2 with
    | error e => exact Apply.Outcome.installFails b e
    | ok jobDir =>
      simp only [Prog.bind_run, Prog.call_run]
      rcases h3 : c.blobstoreGet job.Source.BlobstoreID job.Source.Sha1 s2 with ⟨r3, s3⟩
      cases r3 with
      | error e => exact Apply.Outcome.fetchFails b jobDir e
      | ok file =>
        simp only [Prog.defer_run, Prog.bind_run, Prog.call_run, Prog.callVoid_run]
        rcases h4 : c.TempDir "bosh-agent-applier-jobapplier-RenderedJobApplier-Apply" s3
          with ⟨r4, s4⟩
        cases r4 with
        | error e => exact Apply.Outcome.tempDirFails b jobDir file e
        | ok tmpDir =>
          simp only [Prog.defer_run, Prog.bind_run, Prog.call_run, Prog.callVoid_run]
          rcases h5 : c.DecompressFileToDir file tmpDir s4 with ⟨r5, s5⟩
          cases r5 with
          | some e => exact Apply.Outcome.decompressFails b jobDir file tmpDir e
          | none =>
            simp only [Prog.bind_run, Prog.call_run]
            rcases h6 : c.CopyDirEntries
              (filepath.Join [tmpDir, job.Source.PathInArchive]) jobDir s5 with ⟨r6, s6⟩
            cases r6 with
            | some e => exact Apply.Outcome.copyFails b jobDir file tmpDir e
            | none =>
              simp only [Prog.bind_run, Prog.call_run]
              rcases h7 : c.Glob (filepath.Join [jobDir, "bin", "*"]) s6 with ⟨r7, s7⟩
              cases r7 with
              | error e => exact Apply.Outcome.globFails b jobDir file tmpDir e
              | ok files =>
                simp only [Prog.bind_run, Prog.call_run]
                rcases Apply.chmodFiles_run c files s7 with
                  ⟨hr, ht⟩ | ⟨pre, f, post, e, hsplit, hr, ht⟩
                · simp only [hr, ht, Prog.bind_run, Prog.call_run]
                  rcases h8 : c.Enable b (Apply.chmodFiles c files s7).world with ⟨r8, s8⟩
                  have := @Apply.Outcome.enabled Bundle job b jobDir file tmpDir files r8
                  cases r8 with
                  | some e => simpa [Apply.steps, Apply.prepared] using this
                  | none => simpa [Apply.steps, Apply.prepared] using this
                · have := @Apply.Outcome.chmodFails Bundle job b jobDir file tmpDir
                    pre f post e
                  subst hsplit
                  simp only [hr, ht]
                  simpa [Apply.prepared] using this

theorem Apply.steps_quiet (job : Job) (b : Bundle) (jobDir file tmpDir : String)
    (files : List String) :
    ∀ ev ∈ Apply.steps job b jobDir file tmpDir files,
      ev.failed = false ∧ ev.isCleanup = false ∧ ev.isEnable = false := by
  intro ev hev
  simp only [Apply.steps, Apply.prepared, List.mem_append, List.mem_cons, List.mem_map,
    List.not_mem_nil, or_false] at hev
  rcases hev with (h | h | h | h | h | h | h) | ⟨f, _, h⟩ <;> subst h <;>
    simp [Event.failed, Event.isCleanup, Event.isEnable]

theorem Apply.prepared_quiet (job : Job) (b : Bundle) (jobDir file tmpDir : String)
    (files pre : List String) :
    ∀ ev ∈ Apply.prepared job b jobDir file tmpDir files ++
        pre.map (fun f => Event.Chmod f 0o755 none),
      ev.failed = false ∧ ev.isCleanup = false ∧ ev.isEnable = false := by
  intro ev hev
  simp only [Apply.prepared, List.mem_append, List.mem_cons, List.mem_map,
    List.not_mem_nil, or_false] at hev
  rcases hev with (h | h | h | h | h | h | h) | ⟨f, _, h⟩ <;> subst h <;>
    simp [Event.failed, Event.isCleanup, Event.isEnable]

theorem Error.message_wrap (e : Error) (msg : String) :
    (WrapError e msg).message = msg ++ ": " ++ e.message := rfl

theorem Error.message_contains_cause (e : Error) (msg : String) :
    e.message.data <:+: (WrapError e msg).message.data := by
  refine ⟨(msg ++ ": ").data, [], ?_⟩
  simp [Error.message_wrap, String.data_append]

/-- C5. A run of `Apply` in which the fetch from the blobstore fails with
cause `e` consists of exactly three calls: the bundle lookup and `Install`,
both successful, and the failing `blobstore.Get`; nothing is called
afterwards (no scratch directory, no decompression, no copy, no `Chmod`, no
`Enable`, no clean-up), so the world is the one the failing fetch left.
`Apply` returns the error `Getting job source from blobstore: <text of e>`,
whose text contains the text of `e`. -/
theorem Apply_fetch_failure_stops (c : Collaborators σ Bundle) (job : Job) (s : σ)
    (blobID sha1 : String) (e : Error)
    (h : Event.blobstoreGet blobID sha1 (.error e) ∈ (Apply c job s).trace) :
    ∃ b jobDir err,
      (Apply c job s).trace =
        [.jobsBcGet job (.ok b), .Install b (.ok jobDir),
          .blobstoreGet job.Source.BlobstoreID job.Source.Sha1 (.error e)] ∧
      (Apply c job s).world =
        (c.blobstoreGet job.Source.BlobstoreID job.Source.Sha1
          (c.Install b (c.jobsBcGet job s).2).2).2 ∧
      (Apply c job s).ret = some err ∧
      err.message = "Getting job source from blobstore: " ++ e.message ∧
      e.message.data <:+: err.message.data := by
  have hrun := Apply_run c job s
  have hshape : ∃ b jobDir, (Apply c job s).trace =
      [.jobsBcGet job (.ok b), .Install b (.ok jobDir),
        .blobstoreGet job.Source.BlobstoreID job.Source.Sha1 (.error e)] := by
    generalize (Apply c job s).trace = tr at h hrun
    generalize (Apply c job s).ret = r at hrun
    cases hrun with
    | fetchFails b jobDir e2 =>
      simp at h
      exact ⟨b, jobDir, by rw [h.2.2]⟩
    | chmodFails b jobDir file tmpDir pre f post e2 =>
      simp [Apply.prepared] at h
    | enabled b jobDir file tmpDir files err =>
      simp [Apply.steps, Apply.prepared] at h
    | _ => simp at h
  obtain ⟨b, jobDir, htr⟩ := hshape
  rcases h1 : c.jobsBcGet job s with ⟨r1, s1⟩
  cases r1 with
  | error e1 => simp [Apply, h1] at htr
  | ok b1 =>
    rcases h2 : c.Install b1 s1 with ⟨r2, s2⟩
    cases r2 with
    | error e2 => simp [Apply, h1, h2] at htr
    | ok jobDir1 =>
      rcases h3 : c.blobstoreGet job.Source.BlobstoreID job.Source.Sha1 s2 with ⟨r3, s3⟩
      cases r3 with
      | ok file => simp [Apply, h1, h2, h3] at htr
      | error e3 =>
        simp [Apply, h1, h2, h3] at htr
        obtain ⟨hb, ⟨_, hd⟩, he⟩ := htr
        subst hb; subst hd; subst he
        refine ⟨b1, jobDir1, WrapError e3 "Getting job source from blobstore",
          ?_, ?_, ?_, rfl, Error.message_contains_cause _ _⟩
        · simp [Apply, h1, h2, h3]
        · simp [Apply, h1, h2, h3]
        · simp [Apply, h1, h2, h3]

/-- The clean-up calls of `Apply`.  In a run in which the fetch
returned the local file `file`, the last call of the run is
`blobstore.CleanUp file` and no other `CleanUp` call is made.  In a run in
which the scratch directory `tmpDir` was created, the run ends with
`RemoveAll tmpDir` followed by `blobstore.CleanUp` of the fetched file, and
no `RemoveAll` or `CleanUp` call is made before these two. -/
theorem Apply_cleanup_calls (c : Collaborators σ Bundle) (job : Job) (s : σ) :
    (∀ blobID sha1 file,
      Event.blobstoreGet blobID sha1 (.ok file) ∈ (Apply c job s).trace →
      ∃ before, (Apply c job s).trace = before ++ [.blobstoreCleanUp file] ∧
        ∀ ev ∈ before, ∀ f, ev ≠ Event.blobstoreCleanUp f) ∧
    (∀ pfx tmpDir,
      Event.TempDir pfx (.ok tmpDir) ∈ (Apply c job s).trace →
      ∃ before file,
        Event.blobstoreGet job.Source.BlobstoreID job.Source.Sha1 (.ok file) ∈ before ∧
        (Apply c job s).trace = before ++ [.RemoveAll tmpDir, .blobstoreCleanUp file] ∧
        ∀ ev ∈ before, ev.isCleanup = false) := by
  have hrun := Apply_run c job s
  generalize (Apply c job s).trace = tr at hrun ⊢
  generalize (Apply c job s).ret = r at hrun
  cases hrun with
  | bundleFails e => simp
  | installFails b e => simp
  | fetchFails b jobDir e => simp
  | tempDirFails b jobDir file e =>
    constructor
    · intro blobID sha1 file2 h
      simp at h
      obtain ⟨_, _, hf⟩ := h
      subst hf
      exact ⟨[.jobsBcGet job (.ok b), .Install b (.ok jobDir),
        .blobstoreGet job.Source.BlobstoreID job.Source.Sha1 (.ok file2),
        .TempDir "bosh-agent-applier-jobapplier-RenderedJobApplier-Apply" (.error e)],
        by simp, by simp⟩
    · intro pfx tmpDir h
      simp at h
  | decompressFails b jobDir file tmpDir e =>
    constructor
    · intro blobID sha1 file2 h
      simp at h
      obtain ⟨_, _, hf⟩ := h
      subst hf
      exact ⟨[.jobsBcGet job (.ok b), .Install b (.ok jobDir),
        .blobstoreGet job.Source.BlobstoreID job.Source.Sha1 (.ok file2),
        .TempDir "bosh-agent-applier-jobapplier-RenderedJobApplier-Apply" (.ok tmpDir),
        .DecompressFileToDir file2 tmpDir (some e), .RemoveAll tmpDir],
        by simp, by simp⟩
    · intro pfx tmpDir2 h
      simp at h
      obtain ⟨_, hd⟩ := h
      subst hd
      exact ⟨[.jobsBcGet job (.ok b), .Install b (.ok jobDir),
        .blobstoreGet job.Source.BlobstoreID job.Source.Sha1 (.ok file),
        .TempDir "bosh-agent-applier-jobapplier-RenderedJobApplier-Apply" (.ok tmpDir2),
        .DecompressFileToDir file tmpDir2 (some e)], file,
        by simp, by simp, by simp [Event.isCleanup]⟩
  | copyFails b jobDir file tmpDir e =>
    constructor
    · intro blobID sha1 file2 h
      simp at h
      obtain ⟨_, _, hf⟩ := h
      subst hf
      exact ⟨[.jobsBcGet job (.ok b), .Install b (.ok jobDir),
        .blobstoreGet job.Source.BlobstoreID job.Source.Sha1 (.ok file2),
        .TempDir "bosh-agent-applier-jobapplier-RenderedJobApplier-Apply" (.ok tmpDir),
        .DecompressFileToDir file2 tmpDir none,
        .CopyDirEntries (filepath.Join [tmpDir, job.Source.PathInArchive]) jobDir (some e),
        .RemoveAll tmpDir],
        by simp, by simp⟩
    · intro pfx tmpDir2 h
      simp at h
      obtain ⟨_, hd⟩ := h
      subst hd
      exact ⟨[.jobsBcGet job (.ok b), .Install b (.ok jobDir),
        .blobstoreGet job.Source.BlobstoreID job.Source.Sha1 (.ok file),
        .TempDir "bosh-agent-applier-jobapplier-RenderedJobApplier-Apply" (.ok tmpDir2),
        .DecompressFileToDir file tmpDir2 none,
        .CopyDirEntries (filepath.Join [tmpDir2, job.Source.PathInArchive]) jobDir (some e)],
        file, by simp, by simp, by simp [Event.isCleanup]⟩
  | globFails b jobDir file tmpDir e =>
    constructor
    · intro blobID sha1 file2 h
      simp at h
      obtain ⟨_, _, hf⟩ := h
      subst hf
      exact ⟨[.jobsBcGet job (.ok b), .Install b (.ok jobDir),
        .blobstoreGet job.Source.BlobstoreID job.Source.Sha1 (.ok file2),
        .TempDir "bosh-agent-applier-jobapplier-RenderedJobApplier-Apply" (.ok tmpDir),
        .DecompressFileToDir file2 tmpDir none,
        .CopyDirEntries (filepath.Join [tmpDir, job.Source.PathInArchive]) jobDir none,
        .Glob (filepath.Join [jobDir, "bin", "*"]) (.error e),
        .RemoveAll tmpDir],
        by simp, by simp⟩
    · intro pfx tmpDir2 h
      simp at h
      obtain ⟨_, hd⟩ := h
      subst hd
      exact ⟨[.jobsBcGet job (.ok b), .Install b (.ok jobDir),
        .blobstoreGet job.Source.BlobstoreID job.Source.Sha1 (.ok file),
        .TempDir "bosh-agent-applier-jobapplier-RenderedJobApplier-Apply" (.ok tmpDir2),
        .DecompressFileToDir file tmpDir2 none,
        .CopyDirEntries (filepath.Join [tmpDir2, job.Source.PathInArchive]) jobDir none,
        .Glob (filepath.Join [jobDir, "bin", "*"]) (.error e)],
        file, by simp, by simp, by simp [Event.isCleanup]⟩
  | chmodFails b jobDir file tmpDir pre f post e =>
    have hq := Apply.prepared_quiet job b jobDir file tmpDir (pre ++ f :: post) pre
    constructor
    · intro blobID sha1 file2 h
      simp [Apply.prepared] at h
      obtain ⟨_, _, hf⟩ := h
      subst hf
      refine ⟨Apply.prepared job b jobDir file2 tmpDir (pre ++ f :: post) ++
        pre.map (fun f => .Chmod f 0o755 none) ++
        [.Chmod f 0o755 (some e), .RemoveAll tmpDir], by simp, ?_⟩
      intro ev hev g hg
      subst hg
      rcases List.mem_append.mp hev with h | h
      · have := (hq _ h).2.1
        simp [Event.isCleanup] at this
      · simp at h
    · intro pfx tmpDir2 h
      simp [Apply.prepared] at h
      obtain ⟨_, hd⟩ := h
      subst hd
      refine ⟨Apply.prepared job b jobDir file tmpDir2 (pre ++ f :: post) ++
        pre.map (fun f => .Chmod f 0o755 none) ++ [.Chmod f 0o755 (some e)], file,
        by simp [Apply.prepared], by simp, ?_⟩
      intro ev hev
      rcases List.mem_append.mp hev with h | h
      · exact (hq _ h).2.1
      · simp at h
        subst h
        rfl
  | enabled b jobDir file tmpDir files err =>
    have hq := Apply.steps_quiet job b jobDir file tmpDir files
    constructor
    · intro blobID sha1 file2 h
      simp [Apply.steps, Apply.prepared] at h
      obtain ⟨_, _, hf⟩ := h
      subst hf
      refine ⟨Apply.steps job b jobDir file2 tmpDir files ++
        [.Enable b err, .RemoveAll tmpDir], by simp, ?_⟩
      intro ev hev g hg
      subst hg
      rcases List.mem_append.mp hev with h | h
      · have := (hq _ h).2.1
        simp [Event.isCleanup] at this
      · simp at h
    · intro pfx tmpDir2 h
      simp [Apply.steps, Apply.prepared] at h
      obtain ⟨_, hd⟩ := h
      subst hd
      refine ⟨Apply.steps job b jobDir file tmpDir2 files ++ [.Enable b err], file,
        by simp [Apply.steps, Apply.prepared], by simp, ?_⟩
      intro ev hev
      rcases List.mem_append.mp hev with h | h
      · exact (hq _ h).2.1
      · simp at h
        subst h
        rfl

theorem Event.cleanup_quiet (ev : Event Bundle) (h : ev.isCleanup = true) :
    ev.failed = false ∧ ev.isEnable = false := by
  cases ev <;> simp [Event.isCleanup, Event.failed, Event.isEnable] at h ⊢

theorem Event.isEnable_iff (ev : Event Bundle) :
    ev.isEnable = true ↔ ∃ b err, ev = .Enable b err := by
  cases ev <;> simp [Event.isEnable]

/-- A trace made of successful steps, one decisive step `x` (a failed step,
or `Enable`), and clean-up calls: the facts about it that C7 needs. -/
theorem Apply.decisive_step (before after : List (Event Bundle)) (x : Event Bundle)
    (hb : ∀ y ∈ before, y.failed = false ∧ y.isCleanup = false ∧ y.isEnable = false)
    (ha : ∀ y ∈ after, y.isCleanup = true)
    (hx : x.failed = true ∨ x.isEnable = true) :
    (((∃ b err, Event.Enable b err ∈ before ++ x :: after) ↔
      ∀ ev ∈ before ++ x :: after, ev.failed = true → ev.isEnable = true) ∧
    ((∀ ev ∈ before ++ x :: after, ev.failed = false) ↔ x.failed = false)) ∧
    (x.isEnable = true ↔ ∃ b err, Event.Enable b err ∈ before ++ x :: after) ∧
    (∀ ev ∈ before ++ x :: after, ev.failed = true →
      ∃ pre post, before ++ x :: after = pre ++ ev :: post ∧
        (∀ y ∈ pre, y.failed = false) ∧ (∀ y ∈ post, y.isCleanup = true)) := by
  have henable : (∃ b err, Event.Enable b err ∈ before ++ x :: after) ↔
      x.isEnable = true := by
    constructor
    · rintro ⟨b, err, hmem⟩
      rcases List.mem_append.mp hmem with h | h
      · have := (hb _ h).2.2
        simp [Event.isEnable] at this
      · rcases List.mem_cons.mp h with h | h
        · rw [← h]; rfl
        · have := (Event.cleanup_quiet _ (ha _ h)).2
          simp [Event.isEnable] at this
    · intro h
      obtain ⟨b, err, hx2⟩ := (Event.isEnable_iff x).mp h
      exact ⟨b, err, by rw [hx2]; simp⟩
  have hfailed : ∀ ev ∈ before ++ x :: after, ev.failed = true → ev = x := by
    intro ev hev hf
    rcases List.mem_append.mp hev with h | h
    · rw [(hb _ h).1] at hf
      exact Bool.noConfusion hf
    · rcases List.mem_cons.mp h with h | h
      · exact h
      · rw [(Event.cleanup_quiet _ (ha _ h)).1] at hf
        exact Bool.noConfusion hf
  refine ⟨⟨?_, ?_⟩, henable.symm, ?_⟩
  · rw [henable]
    constructor
    · intro h ev hev hf
      rw [hfailed ev hev hf]
      exact h
    · intro h
      rcases hx with hx | hx
      · exact h x (by simp) hx
      · exact hx
  · constructor
    · intro h
      exact h x (by simp)
    · intro h ev hev
      cases hf : ev.failed with
      | false => rfl
      | true =>
        rw [hfailed ev hev hf] at hf
        rw [h] at hf
        exact Bool.noConfusion hf
  · intro ev hev hf
    have := hfailed ev hev hf
    subst this
    exact ⟨before, after, rfl, fun y hy => (hb y hy).1, ha⟩

theorem Apply.finish (job : Job) (tr : List (Event Bundle)) (r : Option Error)
    (before after : List (Event Bundle)) (x : Event Bundle)
    (htr : tr = before ++ x :: after)
    (hb : ∀ y ∈ before, y.failed = false ∧ y.isCleanup = false ∧ y.isEnable = false)
    (ha : ∀ y ∈ after, y.isCleanup = true)
    (hx : x.failed = true ∨ x.isEnable = true)
    (hr : r = none ↔ x.failed = false)
    (hshape : ∀ b err, x = .Enable b err → ∃ jobDir file tmpDir files,
      tr = Apply.steps job b jobDir file tmpDir files ++
        [.Enable b err, .RemoveAll tmpDir, .blobstoreCleanUp file]) :
    ((∃ b err, Event.Enable b err ∈ tr) ↔
      ∀ ev ∈ tr, ev.failed = true → ev.isEnable = true) ∧
    (∀ b err, Event.Enable b err ∈ tr → ∃ jobDir file tmpDir files,
      tr = Apply.steps job b jobDir file tmpDir files ++
        [.Enable b err, .RemoveAll tmpDir, .blobstoreCleanUp file]) ∧
    (r = none ↔ ∀ ev ∈ tr, ev.failed = false) ∧
    (∀ ev ∈ tr, ev.failed = true →
      r ≠ none ∧ ∃ pre post, tr = pre ++ ev :: post ∧
        (∀ y ∈ pre, y.failed = false) ∧ (∀ y ∈ post, y.isCleanup = true)) := by
  obtain ⟨⟨hA, hC⟩, _, hD⟩ := Apply.decisive_step before after x hb ha hx
  subst htr
  refine ⟨hA, ?_, ?_, ?_⟩
  · intro b err hmem
    apply hshape
    rcases List.mem_append.mp hmem with h | h
    · have := (hb _ h).2.2
      simp [Event.isEnable] at this
    · rcases List.mem_cons.mp h with h | h
      · exact h.symm
      · have := (Event.cleanup_quiet _ (ha _ h)).2
        simp [Event.isEnable] at this
  · rw [hr, hC]
  · intro ev hev hf
    refine ⟨?_, hD ev hev hf⟩
    intro hnone
    have h1 := hC.mpr (hr.mp hnone) ev hev
    rw [h1] at hf
    exact Bool.noConfusion hf

/-- The decisive call of `Apply`.
`Enable` is called exactly when no other step of the run failed; when it is
called, everything before it is the full sequence of successful steps
(bundle lookup, install, fetch, scratch directory, decompression, copy,
glob of `bin/*`, `Chmod` of every file found) and only the two deferred
clean-up calls follow it.  `Apply` returns no error exactly when no call of
the run failed.  A failing call makes `Apply` return an error; every call
before it succeeded and only deferred clean-up calls follow it. -/
theorem Apply_decisive_calls (c : Collaborators σ Bundle)
    (job : Job) (s : σ) :
    ((∃ b err, Event.Enable b err ∈ (Apply c job s).trace) ↔
      ∀ ev ∈ (Apply c job s).trace, ev.failed = true → ev.isEnable = true) ∧
    (∀ b err, Event.Enable b err ∈ (Apply c job s).trace →
      ∃ jobDir file tmpDir files,
        (Apply c job s).trace = Apply.steps job b jobDir file tmpDir files ++
          [.Enable b err, .RemoveAll tmpDir, .blobstoreCleanUp file]) ∧
    ((Apply c job s).ret = none ↔ ∀ ev ∈ (Apply c job s).trace, ev.failed = false) ∧
    (∀ ev ∈ (Apply c job s).trace, ev.failed = true →
      (Apply c job s).ret ≠ none ∧ ∃ pre post,
        (Apply c job s).trace = pre ++ ev :: post ∧
        (∀ y ∈ pre, y.failed = false) ∧ (∀ y ∈ post, y.isCleanup = true)) := by
  have hrun := Apply_run c job s
  generalize (Apply c job s).trace = tr at hrun ⊢
  generalize (Apply c job s).ret = r at hrun ⊢
  cases hrun with
  | bundleFails e =>
    exact Apply.finish job _ _ [] [] (.jobsBcGet job (.error e)) rfl (by simp) (by simp)
      (Or.inl rfl) (by simp [Event.failed]) (by simp)
  | installFails b e =>
    exact Apply.finish job _ _ [.jobsBcGet job (.ok b)] [] (.Install b (.error e)) rfl
      (by simp [Event.failed, Event.isCleanup, Event.isEnable]) (by simp)
      (Or.inl rfl) (by simp [Event.failed]) (by simp)
  | fetchFails b jobDir e =>
    exact Apply.finish job _ _ [.jobsBcGet job (.ok b), .Install b (.ok jobDir)] []
      (.blobstoreGet job.Source.BlobstoreID job.Source.Sha1 (.error e)) rfl
      (by simp [Event.failed, Event.isCleanup, Event.isEnable]) (by simp)
      (Or.inl rfl) (by simp [Event.failed]) (by simp)
  | tempDirFails b jobDir file e =>
    exact Apply.finish job _ _
      [.jobsBcGet job (.ok b), .Install b (.ok jobDir),
        .blobstoreGet job.Source.BlobstoreID job.Source.Sha1 (.ok file)]
      [.blobstoreCleanUp file]
      (.TempDir "bosh-agent-applier-jobapplier-RenderedJobApplier-Apply" (.error e)) rfl
      (by simp [Event.failed, Event.isCleanup, Event.isEnable])
      (by simp [Event.isCleanup])
      (Or.inl rfl) (by simp [Event.failed]) (by simp)
  | decompressFails b jobDir file tmpDir e =>
    exact Apply.finish job _ _
      [.jobsBcGet job (.ok b), .Install b (.ok jobDir),
        .blobstoreGet job.Source.BlobstoreID job.Source.Sha1 (.ok file),
        .TempDir "bosh-agent-applier-jobapplier-RenderedJobApplier-Apply" (.ok tmpDir)]
      [.RemoveAll tmpDir, .blobstoreCleanUp file]
      (.DecompressFileToDir file tmpDir (some e)) rfl
      (by simp [Event.failed, Event.isCleanup, Event.isEnable])
      (by simp [Event.isCleanup])
      (Or.inl rfl) (by simp [Event.failed]) (by simp)
  | copyFails b jobDir file tmpDir e =>
    exact Apply.finish job _ _
      [.jobsBcGet job (.ok b), .Install b (.ok jobDir),
        .blobstoreGet job.Source.BlobstoreID job.Source.Sha1 (.ok file),
        .TempDir "bosh-agent-applier-jobapplier-RenderedJobApplier-Apply" (.ok tmpDir),
        .DecompressFileToDir file tmpDir none]
      [.RemoveAll tmpDir, .blobstoreCleanUp file]
      (.CopyDirEntries (filepath.Join [tmpDir, job.Source.PathInArchive]) jobDir (some e))
      rfl
      (by simp [Event.failed, Event.isCleanup, Event.isEnable])
      (by simp [Event.isCleanup])
      (Or.inl rfl) (by simp [Event.failed]) (by simp)
  | globFails b jobDir file tmpDir e =>
    exact Apply.finish job _ _
      [.jobsBcGet job (.ok b), .Install b (.ok jobDir),
        .blobstoreGet job.Source.BlobstoreID job.Source.Sha1 (.ok file),
        .TempDir "bosh-agent-applier-jobapplier-RenderedJobApplier-Apply" (.ok tmpDir),
        .DecompressFileToDir file tmpDir none,
        .CopyDirEntries (filepath.Join [tmpDir, job.Source.PathInArchive]) jobDir none]
      [.RemoveAll tmpDir, .blobstoreCleanUp file]
      (.Glob (filepath.Join [jobDir, "bin", "*"]) (.error e)) rfl
      (by simp [Event.failed, Event.isCleanup, Event.isEnable])
      (by simp [Event.isCleanup])
      (Or.inl rfl) (by simp [Event.failed]) (by simp)
  | chmodFails b jobDir file tmpDir pre f post e =>
    exact Apply.finish job _ _
      (Apply.prepared job b jobDir file tmpDir (pre ++ f :: post) ++
        pre.map (fun f => .Chmod f 0o755 none))
      [.RemoveAll tmpDir, .blobstoreCleanUp file]
      (.Chmod f 0o755 (some e)) rfl
      (Apply.prepared_quiet job b jobDir file tmpDir (pre ++ f :: post) pre)
      (by simp [Event.isCleanup])
      (Or.inl rfl) (by simp [Event.failed]) (by simp)
  | enabled b jobDir file tmpDir files err =>
    refine Apply.finish job _ _ (Apply.steps job b jobDir file tmpDir files)
      [.RemoveAll tmpDir, .blobstoreCleanUp file] (.Enable b err) rfl
      (Apply.steps_quiet job b jobDir file tmpDir files)
      (by simp [Event.isCleanup])
      (Or.inr rfl) ?_ ?_
    · cases err <;> simp [Event.failed]
    · intro b2 err2 h
      injection h with hb he
      subst hb; subst he
      exact ⟨jobDir, file, tmpDir, files, rfl⟩

/-- Witness for C5: in the world without the blob, `Apply webJob` stops
after the failed fetch. -/
theorem Apply_fetch_failure_stops_witness :
    Event.blobstoreGet "blob-of-web" "sha1-of-web" (.error (Error.New "blob not found")) ∈
      (Apply fetchFails webJob ()).trace ∧
    ∃ b jobDir err,
      (Apply fetchFails webJob ()).trace =
        [.jobsBcGet webJob (.ok b), .Install b (.ok jobDir),
          .blobstoreGet webJob.Source.BlobstoreID webJob.Source.Sha1
            (.error (Error.New "blob not found"))] ∧
      (Apply fetchFails webJob ()).world =
        (fetchFails.blobstoreGet webJob.Source.BlobstoreID webJob.Source.Sha1
          (fetchFails.Install b (fetchFails.jobsBcGet webJob ()).2).2).2 ∧
      (Apply fetchFails webJob ()).ret = some err ∧
      err.message =
        "Getting job source from blobstore: " ++ (Error.New "blob not found").message ∧
      (Error.New "blob not found").message.data <:+: err.message.data :=
  ⟨by decide,
    Apply_fetch_failure_stops fetchFails webJob () "blob-of-web" "sha1-of-web"
      (Error.New "blob not found") (by decide)⟩

/-- C6. `Apply` cleans up on every exit path.  In a run in which the fetch
returned the local file `file`, the last call of the run is
`blobstore.CleanUp file` and no other `CleanUp` call is made; the world
`Apply` returns is the world `w` the earlier calls led to, acted on by
`blobstore.CleanUp file`.  In a run in which the scratch directory `tmpDir`
was created, the run ends with `RemoveAll tmpDir` followed by
`blobstore.CleanUp` of the fetched file, no `RemoveAll` or `CleanUp` call is
made before these two, and the world `Apply` returns is the world `w` the
earlier calls led to, acted on by `RemoveAll tmpDir` and then by
`blobstore.CleanUp file`. -/
theorem Apply_cleans_up_on_every_path (c : Collaborators σ Bundle) (job : Job) (s : σ) :
    (∀ blobID sha1 file,
      Event.blobstoreGet blobID sha1 (.ok file) ∈ (Apply c job s).trace →
      ∃ before w, (Apply c job s).trace = before ++ [.blobstoreCleanUp file] ∧
        (∀ ev ∈ before, ∀ f, ev ≠ Event.blobstoreCleanUp f) ∧
        Replays (Event.redo c) s before w ∧
        (Apply c job s).world = c.blobstoreCleanUp file w) ∧
    (∀ pfx tmpDir,
      Event.TempDir pfx (.ok tmpDir) ∈ (Apply c job s).trace →
      ∃ before file w,
        Event.blobstoreGet job.Source.BlobstoreID job.Source.Sha1 (.ok file) ∈ before ∧
        (Apply c job s).trace = before ++ [.RemoveAll tmpDir, .blobstoreCleanUp file] ∧
        (∀ ev ∈ before, ev.isCleanup = false) ∧
        Replays (Event.redo c) s before w ∧
        (Apply c job s).world = c.blobstoreCleanUp file (c.RemoveAll tmpDir w)) := by
  have hf := Apply_faithful c job s
  obtain ⟨h1, h2⟩ := Apply_cleanup_calls c job s
  constructor
  · intro blobID sha1 file hmem
    obtain ⟨before, htr, hno⟩ := h1 blobID sha1 file hmem
    rw [htr] at hf
    obtain ⟨w, hw, hrest⟩ := hf.split
    simp only [Replays, Event.redo] at hrest
    exact ⟨before, w, htr, hno, hw, hrest.2⟩
  · intro pfx tmpDir hmem
    obtain ⟨before, file, hget, htr, hno⟩ := h2 pfx tmpDir hmem
    rw [htr] at hf
    obtain ⟨w, hw, hrest⟩ := hf.split
    simp only [Replays, Event.redo] at hrest
    exact ⟨before, file, w, hget, htr, hno, hw, hrest.2.2⟩

/-- C7 (as amended).  `Apply` publishes the bundle only after a complete
install.  `Enable` is called exactly when no other step of the run failed;
when it is called, everything before it is the full sequence of successful
steps (bundle lookup, install, fetch, scratch directory, decompression,
copy, glob of `bin/*`, `Chmod` of every file found), only the two deferred
clean-up calls follow it, and the world `Apply` returns is the world `w`
those steps led to, acted on by `Enable`, then `RemoveAll` of the scratch
directory, then `blobstore.CleanUp` of the fetched file.  `Apply` returns no
error exactly when no call of the run failed.  A failing call makes `Apply`
return an error; every call before it succeeded, only deferred clean-up
calls follow it, and the world returned is the one the calls before it led
to, acted on by the failing call and then by those clean-up calls.  In any
run the world returned is the starting world acted on by the recorded calls
and no others. -/
theorem Apply_enables_only_after_complete_install (c : Collaborators σ Bundle)
    (job : Job) (s : σ) :
    ((∃ b err, Event.Enable b err ∈ (Apply c job s).trace) ↔
      ∀ ev ∈ (Apply c job s).trace, ev.failed = true → ev.isEnable = true) ∧
    (∀ b err, Event.Enable b err ∈ (Apply c job s).trace →
      ∃ jobDir file tmpDir files w,
        (Apply c job s).trace = Apply.steps job b jobDir file tmpDir files ++
          [.Enable b err, .RemoveAll tmpDir, .blobstoreCleanUp file] ∧
        Replays (Event.redo c) s (Apply.steps job b jobDir file tmpDir files) w ∧
        (c.Enable b w).1 = err ∧
        (Apply c job s).world =
          c.blobstoreCleanUp file (c.RemoveAll tmpDir (c.Enable b w).2)) ∧
    ((Apply c job s).ret = none ↔ ∀ ev ∈ (Apply c job s).trace, ev.failed = false) ∧
    (∀ ev ∈ (Apply c job s).trace, ev.failed = true →
      (Apply c job s).ret ≠ none ∧ ∃ pre post w,
        (Apply c job s).trace = pre ++ ev :: post ∧
        (∀ y ∈ pre, y.failed = false) ∧ (∀ y ∈ post, y.isCleanup = true) ∧
        Replays (Event.redo c) s pre w ∧
        (Apply c job s).world =
          post.foldl (fun w y => (Event.redo c y w).2) (Event.redo c ev w).2) ∧
    Replays (Event.redo c) s (Apply c job s).trace (Apply c job s).world := by
  have hf := Apply_faithful c job s
  obtain ⟨h1, h2, h3, h4⟩ := Apply_decisive_calls c job s
  refine ⟨h1, ?_, h3, ?_, hf⟩
  · intro b err hmem
    obtain ⟨jobDir, file, tmpDir, files, htr⟩ := h2 b err hmem
    rw [htr] at hf
    obtain ⟨w, hw, hrest⟩ := hf.split
    simp only [Replays, Event.redo, Event.Enable.injEq, true_and] at hrest
    exact ⟨jobDir, file, tmpDir, files, w, htr, hw, hrest.1, hrest.2⟩
  · intro ev hev hfail
    obtain ⟨hne, pre, post, htr, hpre, hpost⟩ := h4 ev hev hfail
    rw [htr] at hf
    obtain ⟨w, hw, hrest⟩ := hf.split
    simp only [Replays] at hrest
    exact ⟨hne, pre, post, w, htr, hpre, hpost, hw, hrest.2.world_eq⟩

/-- Witness for C6: the successful run of `Apply webJob` in the journal
world ends with `RemoveAll` of the scratch directory and `CleanUp` of the
blob, and the journal returned ends with these two changes. -/
theorem Apply_cleans_up_on_every_path_witness :
    Event.TempDir "bosh-agent-applier-jobapplier-RenderedJobApplier-Apply"
        (.ok "/tmp/scratch") ∈ (Apply journalCollaborators webJob []).trace ∧
    (∃ before file w,
      Event.blobstoreGet webJob.Source.BlobstoreID webJob.Source.Sha1 (.ok file) ∈ before ∧
      (Apply journalCollaborators webJob []).trace =
        before ++ [.RemoveAll "/tmp/scratch", .blobstoreCleanUp file] ∧
      (∀ ev ∈ before, ev.isCleanup = false) ∧
      Replays (Event.redo journalCollaborators) [] before w ∧
      (Apply journalCollaborators webJob []).world =
        journalCollaborators.blobstoreCleanUp file
          (journalCollaborators.RemoveAll "/tmp/scratch" w)) ∧
    (Apply journalCollaborators webJob []).world =
      ["install web", "fetch blob-of-web", "make /tmp/scratch",
        "decompress /tmp/blob into /tmp/scratch", "copy /tmp/scratch/web into /jobs/web",
        "chmod /jobs/web/bin/ctl", "enable web", "remove /tmp/scratch",
        "clean up /tmp/blob"] ∧
    (Apply decompressFails webJob []).world =
      ["install web", "fetch blob-of-web", "make /tmp/scratch", "remove /tmp/scratch",
        "clean up /tmp/blob"] :=
  ⟨by decide,
    (Apply_cleans_up_on_every_path journalCollaborators webJob []).2
      "bosh-agent-applier-jobapplier-RenderedJobApplier-Apply" "/tmp/scratch" (by decide),
    by decide, by decide⟩

/-- C7, the claim as stated fails.  In the successful run of
`Apply webJob` in the journal world `Enable` is not the last call that
changes the file system: `RemoveAll` of the scratch directory and the
blobstore `CleanUp` are made after it, and the journal shows their changes
after `enable web`.  In the world where decompression fails, the same two
calls are made after the failing step and change the world. -/
theorem Apply_cleans_up_after_enable_and_after_failure :
    (Apply journalCollaborators webJob []).ret = none ∧
    (Apply journalCollaborators webJob []).trace.drop 8 =
      [.Enable "web" none, .RemoveAll "/tmp/scratch", .blobstoreCleanUp "/tmp/blob"] ∧
    (Apply journalCollaborators webJob []).world =
      ["install web", "fetch blob-of-web", "make /tmp/scratch",
        "decompress /tmp/blob into /tmp/scratch", "copy /tmp/scratch/web into /jobs/web",
        "chmod /jobs/web/bin/ctl", "enable web", "remove /tmp/scratch",
        "clean up /tmp/blob"] ∧
    (Apply decompressFails webJob []).ret ≠ none ∧
    (Apply decompressFails webJob []).trace =
      [.jobsBcGet webJob (.ok "web"), .Install "web" (.ok "/jobs/web"),
        .blobstoreGet "blob-of-web" "sha1-of-web" (.ok "/tmp/blob"),
        .TempDir "bosh-agent-applier-jobapplier-RenderedJobApplier-Apply"
          (.ok "/tmp/scratch"),
        .DecompressFileToDir "/tmp/blob" "/tmp/scratch" (some (.New "bad archive")),
        .RemoveAll "/tmp/scratch", .blobstoreCleanUp "/tmp/blob"] ∧
    (Apply decompressFails webJob []).world =
      (decompressFails.DecompressFileToDir "/tmp/blob" "/tmp/scratch"
        ["install web", "fetch blob-of-web", "make /tmp/scratch"]).2 ++
      ["remove /tmp/scratch", "clean up /tmp/blob"] := by
  decide

/-- Witness for C7: the successful run of `Apply webJob` in the journal
world. -/
theorem Apply_enables_only_after_complete_install_witness :
    Event.Enable "web" none ∈ (Apply journalCollaborators webJob []).trace ∧
    (Apply journalCollaborators webJob []).ret = none ∧
    ∃ jobDir file tmpDir files w,
      (Apply journalCollaborators webJob []).trace =
        Apply.steps webJob "web" jobDir file tmpDir files ++
          [.Enable "web" none, .RemoveAll tmpDir, .blobstoreCleanUp file] ∧
      Replays (Event.redo journalCollaborators) []
        (Apply.steps webJob "web" jobDir file tmpDir files) w ∧
      (journalCollaborators.Enable "web" w).1 = none ∧
      (Apply journalCollaborators webJob []).world =
        journalCollaborators.blobstoreCleanUp file
          (journalCollaborators.RemoveAll tmpDir (journalCollaborators.Enable "web" w).2) :=
  ⟨by decide, by decide,
    (Apply_enables_only_after_complete_install journalCollaborators webJob []).2.1 "web" none
      (by decide)⟩

end ApplyTheorems

/-! ## The network manager keeps a true record -/

section NetManagerFaithful

variable {σ : Type}

theorem restartNetwork_faithful (c : NetCollaborators σ) :
    Prog.Faithful (NetEvent.redo c) (restartNetwork c) := by
  unfold restartNetwork
  refine Prog.Faithful.bind (Prog.Faithful.call _ _ (fun _ => rfl)) ?_
  intro _
  exact Prog.Faithful.pure _ _

theorem detectMacAddresses.eachPath_faithful (c : NetCollaborators σ) (paths : List String)
    (addresses : List (String × String)) :
    Prog.Faithful (NetEvent.redo c) (detectMacAddresses.eachPath c paths addresses) := by
  induction paths generalizing addresses with
  | nil => exact Prog.Faithful.pure _ _
  | cons p rest ih =>
    unfold detectMacAddresses.eachPath
    refine Prog.Faithful.bind (Prog.Faithful.call _ _ (fun _ => rfl)) ?_
    intro r
    cases r with
    | error e => exact Prog.Faithful.pure _ _
    | ok mac => exact ih _

theorem detectMacAddresses_faithful (c : NetCollaborators σ) :
    Prog.Faithful (NetEvent.redo c) (detectMacAddresses c) := by
  unfold detectMacAddresses
  refine Prog.Faithful.bind (Prog.Faithful.call _ _ (fun _ => rfl)) ?_
  intro r
  cases r with
  | error e => exact Prog.Faithful.pure _ _
  | ok paths => exact detectMacAddresses.eachPath_faithful c paths []

theorem writeIfcfgs.eachNetwork_faithful (c : NetCollaborators σ)
    (macAddresses : List (String × String)) (gatewayNetwork : Network)
    (nets : List Network) (modifiedNetworks : List customNetwork) :
    Prog.Faithful (NetEvent.redo c)
      (writeIfcfgs.eachNetwork c macAddresses gatewayNetwork nets modifiedNetworks) := by
  induction nets generalizing modifiedNetworks with
  | nil => exact Prog.Faithful.pure _ _
  | cons aNet rest ih =>
    unfold writeIfcfgs.eachNetwork
    rcases c.CalculateNetworkAndBroadcast aNet.IP aNet.Netmask with e | ⟨network, broadcast⟩
    · exact Prog.Faithful.pure _ _
    · refine Prog.Faithful.bind (Prog.Faithful.call _ _ (fun _ => rfl)) ?_
      intro err
      cases err with
      | some e => exact Prog.Faithful.pure _ _
      | none => exact ih _

theorem writeIfcfgs_faithful (c : NetCollaborators σ) (networks : Networks) :
    Prog.Faithful (NetEvent.redo c) (writeIfcfgs c networks) := by
  unfold writeIfcfgs
  refine Prog.Faithful.bind (detectMacAddresses_faithful c) ?_
  intro r
  obtain ⟨macAddresses, err⟩ := r
  cases err with
  | some e => exact Prog.Faithful.pure _ _
  | none =>
    cases hfound : (c.DefaultNetworkFor networks "gateway").2 with
    | false =>
      simp only [hfound, Bool.not_false, if_true]
      exact Prog.Faithful.pure _ _
    | true =>
      simp only [hfound, Bool.not_true, Bool.false_eq_true, if_false]
      exact writeIfcfgs.eachNetwork_faithful c _ _ _ _

theorem writeResolvConf_faithful (c : NetCollaborators σ) (networks : Networks) :
    Prog.Faithful (NetEvent.redo c) (writeResolvConf c networks) := by
  unfold writeResolvConf
  refine Prog.Faithful.bind (Prog.Faithful.call _ _ (fun _ => rfl)) ?_
  intro err
  cases err with
  | some e => exact Prog.Faithful.pure _ _
  | none => exact Prog.Faithful.pure _ _

theorem SetupManualNetworking_faithful (c : NetCollaborators σ) (networks : Networks)
    (errCh : Option Nat) :
    Prog.Faithful (NetEvent.redo c) (SetupManualNetworking c networks errCh) := by
  unfold SetupManualNetworking
  refine Prog.Faithful.bind (writeIfcfgs_faithful c networks) ?_
  intro r
  obtain ⟨modifiedNetworks, err⟩ := r
  cases err with
  | some e => exact Prog.Faithful.pure _ _
  | none =>
    refine Prog.Faithful.bind (restartNetwork_faithful c) ?_
    intro _
    refine Prog.Faithful.bind (writeResolvConf_faithful c networks) ?_
    intro err
    cases err with
    | some e => exact Prog.Faithful.pure _ _
    | none =>
      refine Prog.Faithful.bind (Prog.Faithful.emit _ (fun _ => rfl)) ?_
      intro _
      exact Prog.Faithful.pure _ _

end NetManagerFaithful

/-! ## The network manager -/

section NetManagerTheorems

variable {σ : Type}

theorem strings.Join_eq_empty (elems : List String) :
    strings.Join elems ", " = "" ↔ elems = [] ∨ elems = [""] := by
  match elems with
  | [] => simp [strings.Join]
  | [a] => simp [strings.Join]
  | a :: b :: rest =>
    simp only [strings.Join, List.cons_ne_nil, false_or]
    constructor
    · intro h
      have h2 := congrArg String.length h
      simp only [String.length_append] at h2
      have h3 : ", ".length = 2 := by decide
      have h4 : "".length = 0 := by decide
      omega
    · intro h
      simp at h

theorem SetupDhcp_run (c : NetCollaborators σ) (networks : Networks) (errCh : Option Nat)
    (s : σ) :
    (SetupDhcp c networks errCh s).trace =
      .ConvergeFileContents "/etc/dhcp/dhclient.conf"
          (centosDHCPConfigTemplate (strings.Join (c.DefaultNetworkFor networks "dns").1.DNS ", "))
          (c.ConvergeFileContents "/etc/dhcp/dhclient.conf"
            (centosDHCPConfigTemplate
              (strings.Join (c.DefaultNetworkFor networks "dns").1.DNS ", ")) s).1 ::
        (match (c.ConvergeFileContents "/etc/dhcp/dhclient.conf"
            (centosDHCPConfigTemplate
              (strings.Join (c.DefaultNetworkFor networks "dns").1.DNS ", ")) s).1 with
        | .error _ => []
        | .ok true =>
          [.RunCommand "service" ["network", "restart"]
              (c.RunCommand "service" ["network", "restart"]
                (c.ConvergeFileContents "/etc/dhcp/dhclient.conf"
                  (centosDHCPConfigTemplate
                    (strings.Join (c.DefaultNetworkFor networks "dns").1.DNS ", ")) s).2).1,
            .GoBroadcastMACAddresses [.resolving "eth0"] errCh]
        | .ok false => [.GoBroadcastMACAddresses [.resolving "eth0"] errCh]) := by
  simp only [SetupDhcp, Prog.bind_run, Prog.call_run]
  cases h : (c.ConvergeFileContents "/etc/dhcp/dhclient.conf"
      (centosDHCPConfigTemplate
        (strings.Join (c.DefaultNetworkFor networks "dns").1.DNS ", ")) s).1 with
  | error e => simp
  | ok written =>
    cases written <;> simp [restartNetwork, Prog.emit]

theorem SetupDhcp_world (c : NetCollaborators σ) (networks : Networks) (errCh : Option Nat)
    (s : σ) :
    (SetupDhcp c networks errCh s).world =
      (match (c.ConvergeFileContents "/etc/dhcp/dhclient.conf"
            (centosDHCPConfigTemplate
              (strings.Join (c.DefaultNetworkFor networks "dns").1.DNS ", ")) s).1 with
        | .ok true =>
          (c.RunCommand "service" ["network", "restart"]
            (c.ConvergeFileContents "/etc/dhcp/dhclient.conf"
              (centosDHCPConfigTemplate
                (strings.Join (c.DefaultNetworkFor networks "dns").1.DNS ", ")) s).2).2
        | _ =>
          (c.ConvergeFileContents "/etc/dhcp/dhclient.conf"
            (centosDHCPConfigTemplate
              (strings.Join (c.DefaultNetworkFor networks "dns").1.DNS ", ")) s).2) := by
  simp only [SetupDhcp, Prog.bind_run, Prog.call_run]
  cases h : (c.ConvergeFileContents "/etc/dhcp/dhclient.conf"
      (centosDHCPConfigTemplate
        (strings.Join (c.DefaultNetworkFor networks "dns").1.DNS ", ")) s).1 with
  | error e => simp
  | ok written =>
    cases written <;> simp [restartNetwork, Prog.emit]

/-- C8. Let `stored` read the content of `/etc/dhcp/dhclient.conf` off the
world, let `ConvergeFileContents` on that path report `true` exactly when
the new content differs from the stored one and leave the new content
stored, and let running a command leave the file alone.  Then one call of
`SetupDhcp` runs `service network restart` once if the rendered config
differs from the stored file and not at all otherwise; a second call with
the same networks runs no restart; so two calls in a row, starting from a
file that differs, run the restart exactly once in total. -/
theorem SetupDhcp_restarts_iff_config_changed (c : NetCollaborators σ)
    (stored : σ → Option String) (networks : Networks) (errCh errCh2 : Option Nat) (s : σ)
    (hconverge : ∀ content s,
      (c.ConvergeFileContents "/etc/dhcp/dhclient.conf" content s).1 =
        .ok (decide (stored s ≠ some content)) ∧
      stored (c.ConvergeFileContents "/etc/dhcp/dhclient.conf" content s).2 = some content)
    (hcommand : ∀ cmd args s, stored (c.RunCommand cmd args s).2 = stored s) :
    (SetupDhcp c networks errCh s).trace.countP NetEvent.isRestart =
      (if stored s =
          some (centosDHCPConfigTemplate
            (strings.Join (c.DefaultNetworkFor networks "dns").1.DNS ", "))
        then 0 else 1) ∧
    (SetupDhcp c networks errCh2 (SetupDhcp c networks errCh s).world).trace.countP
      NetEvent.isRestart = 0 ∧
    (stored s ≠
        some (centosDHCPConfigTemplate
          (strings.Join (c.DefaultNetworkFor networks "dns").1.DNS ", ")) →
      ((SetupDhcp c networks errCh s).trace ++
        (SetupDhcp c networks errCh2 (SetupDhcp c networks errCh s).world).trace).countP
          NetEvent.isRestart = 1) := by
  have hcount : ∀ (e : Option Nat) (t : σ),
      (SetupDhcp c networks e t).trace.countP NetEvent.isRestart =
        (if stored t =
            some (centosDHCPConfigTemplate
              (strings.Join (c.DefaultNetworkFor networks "dns").1.DNS ", "))
          then 0 else 1) := by
    intro e t
    rw [SetupDhcp_run, (hconverge _ t).1]
    by_cases hs : stored t = some (centosDHCPConfigTemplate
        (strings.Join (c.DefaultNetworkFor networks "dns").1.DNS ", "))
    · simp [hs, NetEvent.isRestart]
    · simp [hs, NetEvent.isRestart]
  have hstored : stored (SetupDhcp c networks errCh s).world =
      some (centosDHCPConfigTemplate
        (strings.Join (c.DefaultNetworkFor networks "dns").1.DNS ", ")) := by
    rw [SetupDhcp_world, (hconverge _ s).1]
    by_cases hs : stored s = some (centosDHCPConfigTemplate
        (strings.Join (c.DefaultNetworkFor networks "dns").1.DNS ", "))
    · simp [hs, (hconverge _ s).2]
    · simp [hs, (hconverge _ s).2, hcommand]
  have hsecond : (SetupDhcp c networks errCh2
      (SetupDhcp c networks errCh s).world).trace.countP NetEvent.isRestart = 0 := by
    rw [hcount, if_pos hstored]
  refine ⟨hcount errCh s, hsecond, ?_⟩
  intro hs
  rw [List.countP_append, hsecond, hcount, if_neg hs]

set_option maxRecDepth 100000 in
theorem centosDHCPConfigRequest_has_no_prepend :
    ¬ ("prepend domain-name-servers".data <:+: (centosDHCPConfigRequest ++ "\n").data) := by
  decide

theorem centosDHCPConfigTemplate_of_servers (servers : List String) :
    centosDHCPConfigTemplate (strings.Join servers ", ") =
      centosDHCPConfigRequest ++
        (if servers = [] ∨ servers = [""] then ""
          else "\nprepend domain-name-servers " ++ strings.Join servers ", " ++ ";") ++
        "\n" := by
  unfold centosDHCPConfigTemplate
  by_cases h : servers = [] ∨ servers = [""]
  · rw [if_pos h, if_neg (by simpa using (strings.Join_eq_empty _).mpr h)]
  · rw [if_neg h, if_pos (fun h2 => h ((strings.Join_eq_empty _).mp h2))]

/-- C9 (as amended).  The content `SetupDhcp` hands to `ConvergeFileContents`
for `/etc/dhcp/dhclient.conf`, its first call, is the fixed request text,
then, unless the DNS list of the DNS-role network is empty or holds a single
empty string, a line break and the line
`prepend domain-name-servers s1, s2, ..., sn;` with the servers in their
given order, then a line break.  When the DNS list is empty or holds a
single empty string, the content is the request text and a line break, and
`prepend domain-name-servers` occurs nowhere in it. -/
theorem SetupDhcp_config_prepends_dns_servers (c : NetCollaborators σ)
    (networks : Networks) (errCh : Option Nat) (s : σ) :
    ∃ content res rest,
      (SetupDhcp c networks errCh s).trace =
        .ConvergeFileContents "/etc/dhcp/dhclient.conf" content res :: rest ∧
      content =
        centosDHCPConfigRequest ++
          (if (c.DefaultNetworkFor networks "dns").1.DNS = [] ∨
              (c.DefaultNetworkFor networks "dns").1.DNS = [""] then ""
            else "\nprepend domain-name-servers " ++
              strings.Join (c.DefaultNetworkFor networks "dns").1.DNS ", " ++ ";") ++
          "\n" ∧
      ((c.DefaultNetworkFor networks "dns").1.DNS = [] ∨
          (c.DefaultNetworkFor networks "dns").1.DNS = [""] →
        content = centosDHCPConfigRequest ++ "\n" ∧
        ¬ ("prepend domain-name-servers".data <:+: content.data)) := by
  refine ⟨_, _, _, SetupDhcp_run c networks errCh s,
    centosDHCPConfigTemplate_of_servers _, ?_⟩
  intro h
  have hc : centosDHCPConfigTemplate
      (strings.Join (c.DefaultNetworkFor networks "dns").1.DNS ", ") =
      centosDHCPConfigRequest ++ "\n" := by
    rw [centosDHCPConfigTemplate_of_servers, if_pos h]
    simp
  rw [hc]
  exact ⟨rfl, centosDHCPConfigRequest_has_no_prepend⟩

set_option maxRecDepth 100000 in
/-- Witness for C9: with two DNS servers the rendered config ends with the
`prepend` line listing both, in order; with none it is the request text. -/
theorem SetupDhcp_config_prepends_dns_servers_witness :
    (∃ res rest,
      (SetupDhcp sampleNetCollaborators twoDnsNetworks none none).trace =
        .ConvergeFileContents "/etc/dhcp/dhclient.conf"
          (centosDHCPConfigRequest ++
            "\nprepend domain-name-servers 8.8.8.8, 10.0.0.2;\n") res :: rest) ∧
    (∃ res rest,
      (SetupDhcp sampleNetCollaborators [] none none).trace =
        .ConvergeFileContents "/etc/dhcp/dhclient.conf"
          (centosDHCPConfigRequest ++ "\n") res :: rest) := by
  obtain ⟨content, res, rest, htr, hc, _⟩ :=
    SetupDhcp_config_prepends_dns_servers sampleNetCollaborators twoDnsNetworks none none
  obtain ⟨content2, res2, rest2, htr2, _, hc2⟩ :=
    SetupDhcp_config_prepends_dns_servers sampleNetCollaborators [] none none
  refine ⟨⟨res, rest, ?_⟩, ⟨res2, rest2, ?_⟩⟩
  · have hstr : content =
        centosDHCPConfigRequest ++ "\nprepend domain-name-servers 8.8.8.8, 10.0.0.2;\n" := by
      rw [hc]
      decide
    rw [htr, hstr]
  · rw [htr2, (hc2 (Or.inl rfl)).1]

theorem detectMacAddresses.eachPath_reads (c : NetCollaborators σ) (paths : List String)
    (addresses : List (String × String)) (s : σ) :
    ∀ ev ∈ (detectMacAddresses.eachPath c paths addresses s).trace, ev.isRead = true := by
  induction paths generalizing addresses s with
  | nil => simp [detectMacAddresses.eachPath]
  | cons p rest ih =>
    intro ev hev
    simp only [detectMacAddresses.eachPath, Prog.bind_run, Prog.call_run] at hev
    cases h : (c.ReadFileString (filepath.Join [p, "address"]) s).1 with
    | error e =>
      simp [h] at hev
      subst hev; rfl
    | ok mac =>
      simp [h] at hev
      rcases hev with hev | hev
      · subst hev; rfl
      · exact ih _ _ ev hev

theorem detectMacAddresses_reads (c : NetCollaborators σ) (s : σ) :
    ∀ ev ∈ (detectMacAddresses c s).trace, ev.isRead = true := by
  intro ev hev
  simp only [detectMacAddresses, Prog.bind_run, Prog.call_run] at hev
  cases h : (c.Glob "/sys/class/net/*" s).1 with
  | error e =>
    simp [h] at hev
    subst hev; rfl
  | ok paths =>
    simp [h] at hev
    rcases hev with hev | hev
    · subst hev; rfl
    · exact detectMacAddresses.eachPath_reads c paths [] _ ev hev

/-- Witness for C8: on the sample machine without a `dhclient.conf`, two
calls of `SetupDhcp` in a row run the restart once. -/
theorem SetupDhcp_restarts_iff_config_changed_witness :
    (none : Option String) ≠
      some (centosDHCPConfigTemplate
        (strings.Join (sampleNetCollaborators.DefaultNetworkFor twoDnsNetworks "dns").1.DNS
          ", ")) ∧
    ((SetupDhcp sampleNetCollaborators twoDnsNetworks none none).trace ++
      (SetupDhcp sampleNetCollaborators twoDnsNetworks none
        (SetupDhcp sampleNetCollaborators twoDnsNetworks none none).world).trace).countP
        NetEvent.isRestart = 1 :=
  ⟨by simp,
    (SetupDhcp_restarts_iff_config_changed sampleNetCollaborators id twoDnsNetworks none none
      none (fun _ _ => ⟨rfl, rfl⟩) (fun _ _ _ => rfl)).2.2 (by simp)⟩

set_option maxRecDepth 100000 in
/-- C9, the claim as stated fails.  The DNS-role network of
`emptyDnsNameNetworks` lists one DNS server, the empty string; the list is
not empty, yet the config `SetupDhcp` renders has no
`prepend domain-name-servers` line. -/
theorem SetupDhcp_config_lacks_prepend_for_nonempty_dns_list :
    (sampleNetCollaborators.DefaultNetworkFor emptyDnsNameNetworks "dns").1.DNS ≠ [] ∧
    ∃ content res rest,
      (SetupDhcp sampleNetCollaborators emptyDnsNameNetworks none none).trace =
        .ConvergeFileContents "/etc/dhcp/dhclient.conf" content res :: rest ∧
      ¬ ("prepend domain-name-servers".data <:+: content.data) :=
  ⟨by decide, centosDHCPConfigRequest ++ "\n", .ok true,
    [.RunCommand "service" ["network", "restart"] none,
      .GoBroadcastMACAddresses [.resolving "eth0"] none],
    by decide, centosDHCPConfigRequest_has_no_prepend⟩

theorem filepath.splitSlash_of_no_slash (l : List Char) (h : '/' ∉ l) :
    filepath.splitSlash l = [l] := by
  induction l with
  | nil => rfl
  | cons c cs ih =>
    have hc : c ≠ '/' := fun hc => h (by simp [hc])
    have hcs : '/' ∉ cs := fun hcs => h (List.mem_cons_of_mem _ hcs)
    simp [filepath.splitSlash, hc, ih hcs]

theorem filepath.splitSlash_append_slash (a rest : List Char) (h : '/' ∉ a) :
    filepath.splitSlash (a ++ '/' :: rest) = a :: filepath.splitSlash rest := by
  induction a with
  | nil => simp [filepath.splitSlash]
  | cons c cs ih =>
    have hc : c ≠ '/' := fun hc => h (by simp [hc])
    have hcs : '/' ∉ cs := fun hcs => h (List.mem_cons_of_mem _ hcs)
    simp [filepath.splitSlash, hc, ih hcs]

theorem filepath.Join_ifcfg (iface : String) (h : '/' ∉ iface.data) :
    filepath.Join ["/etc/sysconfig/network-scripts", "ifcfg-" ++ iface] =
      "/etc/sysconfig/network-scripts/ifcfg-" ++ iface := by
  have hne : ("ifcfg-" ++ iface) ≠ "" := by
    intro h2
    have := congrArg String.length h2
    simp [String.length_append] at this
    have h3 : "ifcfg-".length = 6 := by decide
    omega
  have hdata : ("/".intercalate ["/etc/sysconfig/network-scripts", "ifcfg-" ++ iface]).data =
      [] ++ '/' :: (['e', 't', 'c'] ++ '/' :: (['s', 'y', 's', 'c', 'o', 'n', 'f', 'i', 'g'] ++
        '/' :: (['n', 'e', 't', 'w', 'o', 'r', 'k', '-', 's', 'c', 'r', 'i', 'p', 't', 's'] ++
          '/' :: ('i' :: 'f' :: 'c' :: 'f' :: 'g' :: '-' :: iface.data)))) := by
    simp [String.intercalate, String.intercalate.go, String.data_append]
  have hparts : (["/etc/sysconfig/network-scripts", "ifcfg-" ++ iface].filter
      (fun e => decide (e ≠ ""))) = ["/etc/sysconfig/network-scripts", "ifcfg-" ++ iface] := by
    simp [hne]
  have hlast : '/' ∉ ('i' :: 'f' :: 'c' :: 'f' :: 'g' :: '-' :: iface.data) := by
    simp [h]
  unfold filepath.Join
  simp only [hparts]
  unfold filepath.Clean
  simp only [hdata]
  rw [filepath.splitSlash_append_slash _ _ (by simp),
    filepath.splitSlash_append_slash _ _ (by decide),
    filepath.splitSlash_append_slash _ _ (by decide),
    filepath.splitSlash_append_slash _ _ (by decide),
    filepath.splitSlash_of_no_slash _ hlast]
  apply String.ext
  simp [filepath.cleanStep, List.intercalate, String.data_append]
theorem filepath.Base_no_slash (path : String) :
    filepath.Base path = "/" ∨ '/' ∉ (filepath.Base path).data := by
  unfold filepath.Base
  by_cases h : path.data = []
  · right
    simp [h]
  · simp only [h, if_false]
    by_cases h2 : (List.takeWhile (fun c => decide (c ≠ '/'))
        (List.dropWhile (fun c => decide (c = '/')) path.data.reverse).reverse.reverse).reverse
        = []
    · left
      simp only [h2, if_true]
    · right
      simp only [h2, if_false]
      intro hmem
      have := List.mem_takeWhile_imp (List.mem_reverse.mp hmem)
      simp at this

theorem lookup_some_mem (key value : String) (l : List (String × String))
    (h : l.lookup key = some value) : ∃ k, (k, value) ∈ l := by
  induction l with
  | nil => simp [List.lookup] at h
  | cons entry rest ih =>
    obtain ⟨k, v⟩ := entry
    simp only [List.lookup] at h
    cases hk : (key == k) with
    | true =>
      rw [hk] at h
      injection h with h
      exact ⟨k, by simp [h]⟩
    | false =>
      rw [hk] at h
      obtain ⟨k2, hmem⟩ := ih h
      exact ⟨k2, List.mem_cons_of_mem _ hmem⟩

/-- The detected interface name is empty or the base name of a globbed path,
so it holds no `/` unless it is `/` itself. -/
theorem macLookup_detected (paths addrs : List String) (mac : String) :
    macLookup ((List.zip paths addrs).map
        (fun pm => (strings.Trim pm.2 "\n", filepath.Base pm.1))).reverse mac = "/" ∨
    '/' ∉ (macLookup ((List.zip paths addrs).map
        (fun pm => (strings.Trim pm.2 "\n", filepath.Base pm.1))).reverse mac).data := by
  unfold macLookup
  cases h : List.lookup mac ((List.zip paths addrs).map
      (fun pm => (strings.Trim pm.2 "\n", filepath.Base pm.1))).reverse with
  | none =>
    right
    simp
  | some name =>
    obtain ⟨k, hmem⟩ := lookup_some_mem _ _ _ h
    simp only [List.mem_reverse, List.mem_map, Prod.mk.injEq] at hmem
    obtain ⟨pm, _, _, hname⟩ := hmem
    simp only [Option.getD_some]
    rw [← hname]
    exact filepath.Base_no_slash pm.1

theorem detectMacAddresses.eachPath_run (c : NetCollaborators σ) (paths : List String)
    (addresses : List (String × String)) (s : σ)
    (hok : (detectMacAddresses.eachPath c paths addresses s).ret.2 = none) :
    ∃ addrs, addrs.length = paths.length ∧
      (detectMacAddresses.eachPath c paths addresses s).trace =
        List.zipWith (fun p m => NetEvent.ReadFileString (filepath.Join [p, "address"]) (.ok m))
          paths addrs ∧
      (detectMacAddresses.eachPath c paths addresses s).ret.1 =
        ((List.zip paths addrs).map
          (fun pm => (strings.Trim pm.2 "\n", filepath.Base pm.1))).reverse ++ addresses := by
  induction paths generalizing addresses s with
  | nil => exact ⟨[], rfl, by simp [detectMacAddresses.eachPath], by simp [detectMacAddresses.eachPath]⟩
  | cons p rest ih =>
    cases h : (c.ReadFileString (filepath.Join [p, "address"]) s).1 with
    | error e => simp [detectMacAddresses.eachPath, h] at hok
    | ok m =>
      have hok2 : (detectMacAddresses.eachPath c rest
          ((strings.Trim m "\n", filepath.Base p) :: addresses)
          (c.ReadFileString (filepath.Join [p, "address"]) s).2).ret.2 = none := by
        simpa [detectMacAddresses.eachPath, h] using hok
      obtain ⟨addrs, hlen, htr, hret⟩ := ih _ _ hok2
      refine ⟨m :: addrs, by simp [hlen], ?_, ?_⟩
      · simp [detectMacAddresses.eachPath, h, htr]
      · simp [detectMacAddresses.eachPath, h, hret]

theorem detectMacAddresses_run (c : NetCollaborators σ) (s : σ)
    (hok : (detectMacAddresses c s).ret.2 = none) :
    ∃ paths addrs, addrs.length = paths.length ∧
      (detectMacAddresses c s).trace =
        .Glob "/sys/class/net/*" (.ok paths) ::
          List.zipWith
            (fun p m => NetEvent.ReadFileString (filepath.Join [p, "address"]) (.ok m))
            paths addrs ∧
      (detectMacAddresses c s).ret.1 =
        ((List.zip paths addrs).map
          (fun pm => (strings.Trim pm.2 "\n", filepath.Base pm.1))).reverse := by
  cases h : (c.Glob "/sys/class/net/*" s).1 with
  | error e => simp [detectMacAddresses, h] at hok
  | ok paths =>
    have hok2 : (detectMacAddresses.eachPath c paths [] (c.Glob "/sys/class/net/*" s).2).ret.2
        = none := by
      simpa [detectMacAddresses, h] using hok
    obtain ⟨addrs, hlen, htr, hret⟩ := detectMacAddresses.eachPath_run c paths [] _ hok2
    refine ⟨paths, addrs, hlen, ?_, ?_⟩
    · simp [detectMacAddresses, h, htr]
    · simp [detectMacAddresses, h, hret]

theorem writeIfcfgs.eachNetwork_run (c : NetCollaborators σ)
    (macAddresses : List (String × String)) (gatewayNetwork : Network)
    (nets : List Network) (modifiedNetworks : List customNetwork) (s : σ)
    (hok : (writeIfcfgs.eachNetwork c macAddresses gatewayNetwork nets modifiedNetworks s).ret.2
      = none) :
    List.Forall₂ (fun (aNet : Network) (ev : NetEvent) =>
      ∃ network broadcast,
        c.CalculateNetworkAndBroadcast aNet.IP aNet.Netmask = .ok (network, broadcast) ∧
        ev = .WriteFile
          (filepath.Join ["/etc/sysconfig/network-scripts",
            "ifcfg-" ++ macLookup macAddresses aNet.Mac])
          (centosIfcgfTemplate ⟨aNet, macLookup macAddresses aNet.Mac, network, broadcast,
            decide (aNet.IP = gatewayNetwork.IP)⟩) none)
      nets
      (writeIfcfgs.eachNetwork c macAddresses gatewayNetwork nets modifiedNetworks s).trace := by
  induction nets generalizing modifiedNetworks s with
  | nil =>
    simp [writeIfcfgs.eachNetwork]
  | cons aNet rest ih =>
    rcases hcalc : c.CalculateNetworkAndBroadcast aNet.IP aNet.Netmask with e | ⟨network, broadcast⟩
    · simp [writeIfcfgs.eachNetwork, hcalc] at hok
    · cases hw : (c.WriteFile
          (filepath.Join ["/etc/sysconfig/network-scripts",
            "ifcfg-" ++ macLookup macAddresses aNet.Mac])
          (centosIfcgfTemplate ⟨aNet, macLookup macAddresses aNet.Mac, network, broadcast,
            decide (aNet.IP = gatewayNetwork.IP)⟩) s).1 with
      | some e => simp [writeIfcfgs.eachNetwork, hcalc, hw] at hok
      | none =>
        have hok2 : (writeIfcfgs.eachNetwork c macAddresses gatewayNetwork rest
            (modifiedNetworks ++
              [⟨aNet, macLookup macAddresses aNet.Mac, network, broadcast,
                decide (aNet.IP = gatewayNetwork.IP)⟩])
            (c.WriteFile
              (filepath.Join ["/etc/sysconfig/network-scripts",
                "ifcfg-" ++ macLookup macAddresses aNet.Mac])
              (centosIfcgfTemplate ⟨aNet, macLookup macAddresses aNet.Mac, network, broadcast,
                decide (aNet.IP = gatewayNetwork.IP)⟩) s).2).ret.2 = none := by
          simpa [writeIfcfgs.eachNetwork, hcalc, hw] using hok
        have hrest := ih _ _ hok2
        simp only [writeIfcfgs.eachNetwork, hcalc, Prog.bind_run, Prog.call_run, hw,
          List.singleton_append]
        exact List.Forall₂.cons ⟨network, broadcast, hcalc, rfl⟩ hrest

theorem centosIfcgfTemplate_text (aNet : Network) (iface network broadcast : String)
    (gatewayIP : String) :
    centosIfcgfTemplate ⟨aNet, iface, network, broadcast, decide (aNet.IP = gatewayIP)⟩ =
      "DEVICE=" ++ iface ++ "\nBOOTPROTO=static\nIPADDR=" ++ aNet.IP ++
        "\nNETMASK=" ++ aNet.Netmask ++ "\nBROADCAST=" ++ broadcast ++ "\n" ++
        (if aNet.IP = gatewayIP then "GATEWAY=" ++ aNet.Gateway else "") ++ "\nONBOOT=yes" := by
  by_cases h : aNet.IP = gatewayIP <;> simp [centosIfcgfTemplate, h]

/-- C13.  When `writeIfcfgs` returns no error and a default network for the
`gateway` role is designated, the MAC addresses were detected: the run is
the glob of `/sys/class/net/*`, one successful read of `<path>/address` per
globbed path, and then exactly one successful `WriteFile` per network of the
mapping, in the mapping's order.  The file of a network is
`filepath.Join("/etc/sysconfig/network-scripts", "ifcfg-" + iface)`, which is
`/etc/sysconfig/network-scripts/ifcfg-<iface>` (unless the name is `/`, which
only a globbed path made of slashes gives), where `iface` is the name
detected for the network's MAC: the base name of the last globbed path whose
address file, trimmed of line breaks, is that MAC, and empty when there is
none.  Its content has `IPADDR`, `NETMASK` and `BROADCAST` set to the
network's IP, its netmask and the broadcast address computed from them, and
has the entry `GATEWAY=<gateway>` exactly when the network's IP equals the
IP of the default network for the `gateway` role.  The world returned is
the starting world acted on by exactly these calls, in this order. -/
theorem writeIfcfgs_writes_one_config_per_network (c : NetCollaborators σ)
    (networks : Networks) (s : σ)
    (hfound : (c.DefaultNetworkFor networks "gateway").2 = true)
    (hok : (writeIfcfgs c networks s).ret.2 = none) :
    Replays (NetEvent.redo c) s (writeIfcfgs c networks s).trace
      (writeIfcfgs c networks s).world ∧
    (writeIfcfgs c networks s).world =
      (writeIfcfgs c networks s).trace.foldl (fun w ev => (NetEvent.redo c ev w).2) s ∧
    ∃ paths addrs writes,
      addrs.length = paths.length ∧
      (detectMacAddresses c s).ret =
        (((List.zip paths addrs).map
          (fun pm => (strings.Trim pm.2 "\n", filepath.Base pm.1))).reverse, none) ∧
      (writeIfcfgs c networks s).trace =
        .Glob "/sys/class/net/*" (.ok paths) ::
          List.zipWith
            (fun p m => NetEvent.ReadFileString (filepath.Join [p, "address"]) (.ok m))
            paths addrs ++ writes ∧
      List.Forall₂ (fun (entry : String × Network) (ev : NetEvent) =>
        ∃ iface network broadcast path,
          iface = macLookup (detectMacAddresses c s).ret.1 entry.2.Mac ∧
          c.CalculateNetworkAndBroadcast entry.2.IP entry.2.Netmask =
            .ok (network, broadcast) ∧
          path = filepath.Join ["/etc/sysconfig/network-scripts", "ifcfg-" ++ iface] ∧
          (iface ≠ "/" → path = "/etc/sysconfig/network-scripts/ifcfg-" ++ iface) ∧
          ev = .WriteFile path
            ("DEVICE=" ++ iface ++ "\nBOOTPROTO=static\nIPADDR=" ++ entry.2.IP ++
              "\nNETMASK=" ++ entry.2.Netmask ++ "\nBROADCAST=" ++ broadcast ++ "\n" ++
              (if entry.2.IP = (c.DefaultNetworkFor networks "gateway").1.IP
                then "GATEWAY=" ++ entry.2.Gateway else "") ++ "\nONBOOT=yes") none)
        networks writes := by
  have hfaith := writeIfcfgs_faithful c networks s
  rcases hd : (detectMacAddresses c s).ret with ⟨macs, err⟩
  cases err with
  | some e => simp [writeIfcfgs, hd] at hok
  | none =>
    · refine ⟨hfaith, hfaith.world_eq, ?_⟩
      have hdok : (detectMacAddresses c s).ret.2 = none := by rw [hd]
      obtain ⟨paths, addrs, hlen, hdtr, hmacs⟩ := detectMacAddresses_run c s hdok
      have hmacs2 : macs = ((List.zip paths addrs).map
          (fun pm => (strings.Trim pm.2 "\n", filepath.Base pm.1))).reverse := by
        rw [← hmacs, hd]
      have hloop : (writeIfcfgs.eachNetwork c macs (c.DefaultNetworkFor networks "gateway").1
          (networks.map (·.2)) [] (detectMacAddresses c s).world).ret.2 = none := by
        simpa [writeIfcfgs, hd, hfound] using hok
      have hrun := writeIfcfgs.eachNetwork_run c macs
        (c.DefaultNetworkFor networks "gateway").1 (networks.map (·.2)) []
        (detectMacAddresses c s).world hloop
      refine ⟨paths, addrs,
        (writeIfcfgs.eachNetwork c macs (c.DefaultNetworkFor networks "gateway").1
          (networks.map (·.2)) [] (detectMacAddresses c s).world).trace,
        hlen, by rw [hmacs2], ?_, ?_⟩
      · have : (writeIfcfgs c networks s).trace = (detectMacAddresses c s).trace ++
            (writeIfcfgs.eachNetwork c macs (c.DefaultNetworkFor networks "gateway").1
              (networks.map (·.2)) [] (detectMacAddresses c s).world).trace := by
          simp [writeIfcfgs, hd, hfound]
        rw [this, hdtr]
      · rw [List.forall₂_map_left_iff] at hrun
        refine List.Forall₂.imp ?_ hrun
        intro entry ev ⟨network, broadcast, hcalc, hev⟩
        refine ⟨macLookup macs entry.2.Mac, network, broadcast, _, rfl, hcalc, rfl, ?_, ?_⟩
        · intro hne
          apply filepath.Join_ifcfg
          rcases (hmacs2 ▸ macLookup_detected paths addrs entry.2.Mac :
              macLookup macs entry.2.Mac = "/" ∨ '/' ∉ (macLookup macs entry.2.Mac).data) with
            h | h
          · exact absurd h hne
          · exact h
        · rw [hev, centosIfcgfTemplate_text]

/-- Witness for C13: on the machine with two interfaces, `writeIfcfgs` writes
`ifcfg-eth0` with a `GATEWAY` entry for the default network and `ifcfg-eth1`
without one for the other network, and the journal returned holds these two
writes and nothing else. -/
theorem writeIfcfgs_writes_one_config_per_network_witness :
    (twoInterfaces.DefaultNetworkFor manualNetworks "gateway").2 = true ∧
    (writeIfcfgs twoInterfaces manualNetworks []).ret.2 = none ∧
    Replays (NetEvent.redo twoInterfaces) []
      (writeIfcfgs twoInterfaces manualNetworks []).trace
      (writeIfcfgs twoInterfaces manualNetworks []).world ∧
    (writeIfcfgs twoInterfaces manualNetworks []).trace =
      [.Glob "/sys/class/net/*" (.ok ["/sys/class/net/eth0", "/sys/class/net/eth1"]),
        .ReadFileString "/sys/class/net/eth0/address" (.ok "aa:bb:cc:dd:ee:ff\n"),
        .ReadFileString "/sys/class/net/eth1/address" (.ok "11:22:33:44:55:66\n"),
        .WriteFile "/etc/sysconfig/network-scripts/ifcfg-eth0"
          "DEVICE=eth0\nBOOTPROTO=static\nIPADDR=10.0.0.5\nNETMASK=255.255.255.0\nBROADCAST=10.0.0.255\nGATEWAY=10.0.0.1\nONBOOT=yes"
          none,
        .WriteFile "/etc/sysconfig/network-scripts/ifcfg-eth1"
          "DEVICE=eth1\nBOOTPROTO=static\nIPADDR=10.0.1.5\nNETMASK=255.255.255.0\nBROADCAST=10.0.0.255\n\nONBOOT=yes"
          none] ∧
    (writeIfcfgs twoInterfaces manualNetworks []).world =
      ["write /etc/sysconfig/network-scripts/ifcfg-eth0",
        "write /etc/sysconfig/network-scripts/ifcfg-eth1"] :=
  ⟨by decide, by decide,
    (writeIfcfgs_writes_one_config_per_network twoInterfaces manualNetworks [] (by decide)
      (by decide)).1,
    by decide, by decide⟩

/-- The run of `SetupManualNetworking` when the MAC addresses are detected
and the lookup of the default network for the `gateway` role reports "not
found".  `writeIfcfgs` then returns what `bosherr.WrapError` makes of the
`nil` error it is given.  When that is an error `e`, `SetupManualNetworking`
returns `e` wrapped, the only calls made are the reads of MAC detection and
the world is as MAC detection left it.  When that is `nil`,
`SetupManualNetworking` goes on: it restarts the network service and writes
`/etc/resolv.conf`, and when that write succeeds it starts the broadcast,
for no interface, and returns `nil`. -/
theorem SetupManualNetworking_without_gateway (c : NetCollaborators σ)
    (networks : Networks) (errCh : Option Nat) (s : σ)
    (hmac : (detectMacAddresses c s).ret.2 = none)
    (hgateway : (c.DefaultNetworkFor networks "gateway").2 = false) :
    (writeIfcfgs c networks s).ret =
      ([], c.WrapNilError "Finding network for default gateway") ∧
    (∀ e, c.WrapNilError "Finding network for default gateway" = some e →
      (SetupManualNetworking c networks errCh s).ret =
        some (WrapError e "Writing network interfaces") ∧
      (SetupManualNetworking c networks errCh s).trace = (detectMacAddresses c s).trace ∧
      (SetupManualNetworking c networks errCh s).world = (detectMacAddresses c s).world ∧
      ∀ ev ∈ (SetupManualNetworking c networks errCh s).trace, ev.isRead = true) ∧
    (c.WrapNilError "Finding network for default gateway" = none →
      ∃ restartErr writeErr,
        (SetupManualNetworking c networks errCh s).trace =
          (detectMacAddresses c s).trace ++
            [.RunCommand "service" ["network", "restart"] restartErr,
              .WriteFile "/etc/resolv.conf"
                (centosResolvConfTemplate (c.DefaultNetworkFor networks "dns").1.DNS)
                writeErr] ++
            (if writeErr = none then [.GoBroadcastMACAddresses [] errCh] else []) ∧
        (writeErr = none → (SetupManualNetworking c networks errCh s).ret = none)) := by
  have hw : (writeIfcfgs c networks s).ret =
        ([], c.WrapNilError "Finding network for default gateway") ∧
      (writeIfcfgs c networks s).trace = (detectMacAddresses c s).trace ∧
      (writeIfcfgs c networks s).world = (detectMacAddresses c s).world := by
    rcases hd : (detectMacAddresses c s).ret with ⟨macs, err⟩
    rw [hd] at hmac
    simp only at hmac
    subst hmac
    simp [writeIfcfgs, hd, hgateway]
  obtain ⟨hr, ht, hwd⟩ := hw
  refine ⟨hr, ?_, ?_⟩
  · intro e he
    rw [he] at hr
    have htrace : (SetupManualNetworking c networks errCh s).trace =
        (detectMacAddresses c s).trace := by
      simp [SetupManualNetworking, hr, ht]
    refine ⟨by simp [SetupManualNetworking, hr], htrace,
      by simp [SetupManualNetworking, hr, hwd], ?_⟩
    rw [htrace]
    exact detectMacAddresses_reads c s
  · intro hnone
    rw [hnone] at hr
    cases hwrite : (c.WriteFile "/etc/resolv.conf"
        (centosResolvConfTemplate (c.DefaultNetworkFor networks "dns").1.DNS)
        (c.RunCommand "service" ["network", "restart"] (writeIfcfgs c networks s).world).2).1 with
    | none =>
      refine ⟨(c.RunCommand "service" ["network", "restart"]
        (writeIfcfgs c networks s).world).1, none, ?_, fun _ => ?_⟩
      · simp [SetupManualNetworking, restartNetwork, writeResolvConf, hr, ht, hwrite,
          toInterfaceAddresses, Prog.emit]
      · simp [SetupManualNetworking, restartNetwork, writeResolvConf, hr, hwrite, Prog.emit]
    | some e =>
      refine ⟨(c.RunCommand "service" ["network", "restart"]
        (writeIfcfgs c networks s).world).1, some e, ?_, fun h => Option.noConfusion h⟩
      simp [SetupManualNetworking, restartNetwork, writeResolvConf, hr, ht, hwrite]

/-- C10, the code at the failing input.  On the machine with two interfaces
whose settings designate no network for the `gateway` role, MAC detection
succeeds and `writeIfcfgs` returns `bosherr.WrapError(err, …)` of the error
`err` of MAC detection, which is `nil`: there is no failure to wrap.  With a
`WrapError` that hands a `nil` cause back, `SetupManualNetworking` of two
manual networks returns `nil`, having written no interface config but
restarted the network service, written `/etc/resolv.conf` and started the
broadcast.  Only with a `WrapError` that makes an error out of a `nil`
cause does it return an error after the reads of MAC detection alone. -/
theorem SetupManualNetworking_wraps_nil_error_without_gateway_network :
    (detectMacAddresses noGatewayNetworkNilWrap []).ret.2 = none ∧
    (noGatewayNetworkNilWrap.DefaultNetworkFor manualNetworks "gateway").2 = false ∧
    (writeIfcfgs noGatewayNetworkNilWrap manualNetworks []).ret =
      ([], noGatewayNetworkNilWrap.WrapNilError "Finding network for default gateway") ∧
    (SetupManualNetworking noGatewayNetworkNilWrap manualNetworks none []).ret = none ∧
    (SetupManualNetworking noGatewayNetworkNilWrap manualNetworks none []).trace =
      [.Glob "/sys/class/net/*" (.ok ["/sys/class/net/eth0", "/sys/class/net/eth1"]),
        .ReadFileString "/sys/class/net/eth0/address" (.ok "aa:bb:cc:dd:ee:ff\n"),
        .ReadFileString "/sys/class/net/eth1/address" (.ok "11:22:33:44:55:66\n"),
        .RunCommand "service" ["network", "restart"] none,
        .WriteFile "/etc/resolv.conf" (centosResolvConfTemplate []) none,
        .GoBroadcastMACAddresses [] none] ∧
    (SetupManualNetworking noGatewayNetworkNilWrap manualNetworks none []).world =
      ["run service network restart", "write /etc/resolv.conf"] ∧
    (SetupManualNetworking noGatewayNetwork manualNetworks none []).ret =
      some (.Wrap "Writing network interfaces"
        (.New "Finding network for default gateway")) ∧
    (SetupManualNetworking noGatewayNetwork manualNetworks none []).trace =
      [.Glob "/sys/class/net/*" (.ok ["/sys/class/net/eth0", "/sys/class/net/eth1"]),
        .ReadFileString "/sys/class/net/eth0/address" (.ok "aa:bb:cc:dd:ee:ff\n"),
        .ReadFileString "/sys/class/net/eth1/address" (.ok "11:22:33:44:55:66\n")] ∧
    (SetupManualNetworking noGatewayNetwork manualNetworks none []).world = [] := by
  decide

end NetManagerTheorems

/-! ## The apply spec service -/

section ApplySpecTheorems

theorem lookup_setField_self (key : String) (value : FieldValue)
    (fields : List (String × FieldValue)) :
    (setField key value fields).lookup key =
      (fields.lookup key).map (fun _ => value) := by
  induction fields with
  | nil => simp [setField, List.lookup]
  | cons entry rest ih =>
    obtain ⟨k, v⟩ := entry
    by_cases h : k = key
    · simp [setField, h, List.lookup]
    · have h2 : (key == k) = false := by simpa using fun h3 => h h3.symm
      simp [setField, h, List.lookup, h2, ih]

theorem keys_setField (key : String) (value : FieldValue)
    (fields : List (String × FieldValue)) :
    (setField key value fields).map Prod.fst = fields.map Prod.fst := by
  induction fields with
  | nil => rfl
  | cons entry rest ih =>
    obtain ⟨k, v⟩ := entry
    by_cases h : k = key
    · simp [setField, h]
    · simp [setField, h, ih]

theorem lookup_setField_other (key other : String) (value : FieldValue)
    (fields : List (String × FieldValue)) (hne : other ≠ key) :
    (setField key value fields).lookup other = fields.lookup other := by
  induction fields with
  | nil =>
    have h2 : (other == key) = false := by simpa using hne
    simp [setField, List.lookup, h2]
  | cons entry rest ih =>
    obtain ⟨k, v⟩ := entry
    by_cases h : k = key
    · subst h
      have h2 : (other == k) = false := by simpa using hne
      simp [setField, List.lookup, h2]
    · by_cases h3 : other = k
      · subst h3
        simp [setField, h, List.lookup]
      · have h4 : (other == k) = false := by simpa using h3
        simp [setField, h, List.lookup, h4, ih]

theorem NetworkSpec.populateIPInfo_fields (ns : NetworkSpec) (ip netmask gateway : String) :
    (ns.populateIPInfo ip netmask gateway).Fields.map Prod.fst = ns.Fields.map Prod.fst ∧
    (ns.populateIPInfo ip netmask gateway).Fields.lookup "ip" =
      (ns.Fields.lookup "ip").map (fun _ => .str ip) ∧
    (ns.populateIPInfo ip netmask gateway).Fields.lookup "netmask" =
      (ns.Fields.lookup "netmask").map (fun _ => .str netmask) ∧
    (ns.populateIPInfo ip netmask gateway).Fields.lookup "gateway" =
      (ns.Fields.lookup "gateway").map (fun _ => .str gateway) ∧
    ∀ key, key ≠ "ip" → key ≠ "netmask" → key ≠ "gateway" →
      (ns.populateIPInfo ip netmask gateway).Fields.lookup key = ns.Fields.lookup key := by
  refine ⟨?_, ?_, ?_, ?_, ?_⟩
  · simp only [NetworkSpec.populateIPInfo, keys_setField]
  · simp only [NetworkSpec.populateIPInfo]
    rw [lookup_setField_other _ _ _ _ (by decide), lookup_setField_other _ _ _ _ (by decide),
      lookup_setField_self]
  · simp only [NetworkSpec.populateIPInfo]
    rw [lookup_setField_other _ _ _ _ (by decide), lookup_setField_self,
      lookup_setField_other _ _ _ _ (by decide)]
  · simp only [NetworkSpec.populateIPInfo]
    rw [lookup_setField_self, lookup_setField_other _ _ _ _ (by decide),
      lookup_setField_other _ _ _ _ (by decide)]
  · intro key h1 h2 h3
    simp only [NetworkSpec.populateIPInfo]
    rw [lookup_setField_other _ _ _ _ h3, lookup_setField_other _ _ _ _ h2,
      lookup_setField_other _ _ _ _ h1]

theorem PopulateDHCPNetworks.eachNetwork_resolves (settings : Settings)
    (specs : List (String × NetworkSpec))
    (h : ∀ name ns, (name, ns) ∈ specs → ns.isDynamic = true →
      ∃ network, settings.Networks.lookup name = some network) :
    ∃ resolved, PopulateDHCPNetworks.eachNetwork settings specs = .ok resolved ∧
      List.Forall₂ (fun (old new : String × NetworkSpec) =>
        new.1 = old.1 ∧
        (old.2.isDynamic = false → new.2 = old.2) ∧
        (old.2.isDynamic = true → ∃ network,
          settings.Networks.lookup old.1 = some network ∧
          new.2 = old.2.populateIPInfo network.IP network.Netmask network.Gateway))
        specs resolved := by
  induction specs with
  | nil => exact ⟨[], rfl, List.Forall₂.nil⟩
  | cons entry rest ih =>
    obtain ⟨name, ns⟩ := entry
    obtain ⟨resolved, hrest, hrel⟩ :=
      ih (fun n x hx hd => h n x (List.mem_cons_of_mem _ hx) hd)
    cases hd : ns.isDynamic with
    | false =>
      refine ⟨(name, ns) :: resolved, by simp [PopulateDHCPNetworks.eachNetwork, hd, hrest],
        List.Forall₂.cons ⟨rfl, fun _ => rfl, ?_⟩ hrel⟩
      intro h2
      rw [hd] at h2
      exact Bool.noConfusion h2
    | true =>
      obtain ⟨network, hnet⟩ := h name ns (List.mem_cons_self _ _) hd
      refine ⟨(name, ns.populateIPInfo network.IP network.Netmask network.Gateway) :: resolved,
        by simp [PopulateDHCPNetworks.eachNetwork, hd, hnet, hrest],
        List.Forall₂.cons ⟨rfl, ?_, fun _ => ⟨network, hnet, rfl⟩⟩ hrel⟩
      intro h2
      rw [hd] at h2
      exact Bool.noConfusion h2

theorem PopulateDHCPNetworks.eachNetwork_static (settings : Settings)
    (specs : List (String × NetworkSpec))
    (h : ∀ name ns, (name, ns) ∈ specs → ns.isDynamic = false) :
    PopulateDHCPNetworks.eachNetwork settings specs = .ok specs := by
  induction specs with
  | nil => rfl
  | cons entry rest ih =>
    obtain ⟨name, ns⟩ := entry
    have hd := h name ns (List.mem_cons_self _ _)
    have hrest := ih (fun n x hx => h n x (List.mem_cons_of_mem _ hx))
    simp [PopulateDHCPNetworks.eachNetwork, hd, hrest]

theorem PopulateDHCPNetworks.eachNetwork_missing (settings : Settings)
    (specs : List (String × NetworkSpec))
    (h : ∃ name ns, (name, ns) ∈ specs ∧ ns.isDynamic = true ∧
      settings.Networks.lookup name = none) :
    ∃ name ns, (name, ns) ∈ specs ∧ ns.isDynamic = true ∧
      settings.Networks.lookup name = none ∧
      PopulateDHCPNetworks.eachNetwork settings specs =
        .error (.New ("Network " ++ name ++ " is not found in settings")) := by
  induction specs with
  | nil =>
    obtain ⟨name, ns, hmem, _⟩ := h
    simp at hmem
  | cons entry rest ih =>
    obtain ⟨name, ns⟩ := entry
    have hrest : (¬ (ns.isDynamic = true ∧ settings.Networks.lookup name = none)) →
        ∃ n x, (n, x) ∈ rest ∧ x.isDynamic = true ∧ settings.Networks.lookup n = none ∧
          PopulateDHCPNetworks.eachNetwork settings rest =
            .error (.New ("Network " ++ n ++ " is not found in settings")) := by
      intro hnot
      apply ih
      obtain ⟨n, x, hmem, hd, hl⟩ := h
      rcases List.mem_cons.mp hmem with heq | hmem
      · injection heq with h1 h2
        subst h1; subst h2
        exact absurd ⟨hd, hl⟩ hnot
      · exact ⟨n, x, hmem, hd, hl⟩
    cases hd : ns.isDynamic with
    | false =>
      obtain ⟨n, x, hmem, hxd, hl, herr⟩ := hrest (by simp [hd])
      exact ⟨n, x, List.mem_cons_of_mem _ hmem, hxd, hl,
        by simp [PopulateDHCPNetworks.eachNetwork, hd, herr]⟩
    | true =>
      cases hl : settings.Networks.lookup name with
      | none =>
        exact ⟨name, ns, List.mem_cons_self _ _, hd, hl,
          by simp [PopulateDHCPNetworks.eachNetwork, hd, hl]⟩
      | some network =>
        obtain ⟨n, x, hmem, hxd, hl2, herr⟩ := hrest (by simp [hl])
        exact ⟨n, x, List.mem_cons_of_mem _ hmem, hxd, hl2,
          by simp [PopulateDHCPNetworks.eachNetwork, hd, hl, herr]⟩

/-- C11 (as amended).  When every dynamic network of the spec has a
same-named network in the settings, `PopulateDHCPNetworks` returns no error
and a spec with the same `Deployment` and the same networks, name by name:
a network that is not dynamic is unchanged; a dynamic one has the keys it
had, in the order it had them, and each of `ip`, `netmask` and `gateway`
that it had holds the settings' `IP`, `Netmask` and `Gateway` for that name,
while one it lacked is still absent; every other key (so also `type`) has
the value it had.  A spec without a dynamic network is returned
unchanged. -/
theorem PopulateDHCPNetworks_resolves_dynamic_networks (spec : V1ApplySpec)
    (settings : Settings)
    (h : ∀ name ns, (name, ns) ∈ spec.NetworkSpecs → ns.isDynamic = true →
      ∃ network, settings.Networks.lookup name = some network) :
    (PopulateDHCPNetworks spec settings).2 = none ∧
    (PopulateDHCPNetworks spec settings).1.Deployment = spec.Deployment ∧
    List.Forall₂ (fun (old new : String × NetworkSpec) =>
        new.1 = old.1 ∧
        (old.2.isDynamic = false → new.2 = old.2) ∧
        (old.2.isDynamic = true → ∃ network,
          settings.Networks.lookup old.1 = some network ∧
          new.2.Fields.map Prod.fst = old.2.Fields.map Prod.fst ∧
          new.2.Fields.lookup "ip" =
            (old.2.Fields.lookup "ip").map (fun _ => .str network.IP) ∧
          new.2.Fields.lookup "netmask" =
            (old.2.Fields.lookup "netmask").map (fun _ => .str network.Netmask) ∧
          new.2.Fields.lookup "gateway" =
            (old.2.Fields.lookup "gateway").map (fun _ => .str network.Gateway) ∧
          new.2.Fields.lookup "type" = old.2.Fields.lookup "type" ∧
          ∀ key, key ≠ "ip" → key ≠ "netmask" → key ≠ "gateway" →
            new.2.Fields.lookup key = old.2.Fields.lookup key))
      spec.NetworkSpecs (PopulateDHCPNetworks spec settings).1.NetworkSpecs ∧
    ((∀ name ns, (name, ns) ∈ spec.NetworkSpecs → ns.isDynamic = false) →
      (PopulateDHCPNetworks spec settings).1 = spec) := by
  obtain ⟨resolved, hres, hrel⟩ :=
    PopulateDHCPNetworks.eachNetwork_resolves settings spec.NetworkSpecs h
  refine ⟨by simp [PopulateDHCPNetworks, hres], by simp [PopulateDHCPNetworks, hres], ?_, ?_⟩
  · have hnet : (PopulateDHCPNetworks spec settings).1.NetworkSpecs = resolved := by
      simp [PopulateDHCPNetworks, hres]
    rw [hnet]
    refine List.Forall₂.imp ?_ hrel
    intro old new ⟨hname, hstatic, hdyn⟩
    refine ⟨hname, hstatic, ?_⟩
    intro hd
    obtain ⟨network, hl, hnew⟩ := hdyn hd
    obtain ⟨h0, h1, h2, h3, h4⟩ :=
      NetworkSpec.populateIPInfo_fields old.2 network.IP network.Netmask network.Gateway
    rw [hnew]
    exact ⟨network, hl, h0, h1, h2, h3, h4 "type" (by decide) (by decide) (by decide), h4⟩
  · intro hstatic
    have := PopulateDHCPNetworks.eachNetwork_static settings spec.NetworkSpecs hstatic
    simp [PopulateDHCPNetworks, this]

/-- C11, the claim as stated fails.  The only network of `bareDynamicSpec`
is dynamic, has no `ip`, `netmask` or `gateway` key, and has a same-named
network in `bareDynamicSettings`.  `PopulateDHCPNetworks` returns no error
and the spec as it was: the network's `ip`, `netmask` and `gateway` are
absent, not equal to the settings' values. -/
theorem PopulateDHCPNetworks_does_not_introduce_keys :
    bareDynamicSpec.NetworkSpecs.map (fun entry => (entry.1, entry.2.isDynamic)) =
      [("fake-net", true)] ∧
    (bareDynamicSettings.Networks.lookup "fake-net").map (fun n => (n.IP, n.Netmask, n.Gateway)) =
      some ("10.0.0.5", "255.255.255.0", "10.0.0.1") ∧
    PopulateDHCPNetworks bareDynamicSpec bareDynamicSettings = (bareDynamicSpec, none) ∧
    ((PopulateDHCPNetworks bareDynamicSpec bareDynamicSettings).1.NetworkSpecs.lookup
      "fake-net").map (fun ns => (ns.Fields.lookup "ip", ns.Fields.lookup "netmask",
        ns.Fields.lookup "gateway")) = some (none, none, none) := by
  decide

/-- Witness for C11: the spec and the settings of the service's test. -/
theorem PopulateDHCPNetworks_resolves_dynamic_networks_witness :
    (∀ name ns, (name, ns) ∈ unresolvedSpec.NetworkSpecs → ns.isDynamic = true →
      ∃ network, resolvingSettings.Networks.lookup name = some network) ∧
    (PopulateDHCPNetworks unresolvedSpec resolvingSettings).2 = none ∧
    (PopulateDHCPNetworks unresolvedSpec resolvingSettings).1 =
      ⟨"fake-deployment",
        [("fake-net1", ⟨[("ip", .str "fake-net1-ip"), ("netmask", .str "fake-net1-netmask"),
            ("gateway", .str "fake-net1-gateway")]⟩),
          ("fake-net2", ⟨[("type", .str "dynamic"), ("ip", .str "fake-resolved2-ip"),
            ("netmask", .str "fake-resolved2-netmask"),
            ("gateway", .str "fake-resolved2-gateway")]⟩),
          ("fake-net3", ⟨[("type", .str "dynamic"), ("ip", .str "fake-resolved3-ip"),
            ("netmask", .str "fake-resolved3-netmask"),
            ("gateway", .str "fake-resolved3-gateway")]⟩)]⟩ := by
  have hyp : ∀ name ns, (name, ns) ∈ unresolvedSpec.NetworkSpecs → ns.isDynamic = true →
      ∃ network, resolvingSettings.Networks.lookup name = some network := by
    intro name ns hmem hd
    simp only [unresolvedSpec, List.mem_cons, Prod.mk.injEq, List.mem_singleton,
      List.not_mem_nil, or_false] at hmem
    rcases hmem with ⟨h1, h2⟩ | ⟨h1, h2⟩ | ⟨h1, h2⟩
    · subst h1; subst h2
      exact absurd hd (by decide)
    · subst h1
      exact ⟨⟨"dynamic", "fake-resolved2-ip", "fake-resolved2-netmask",
        "fake-resolved2-gateway", [], ""⟩, by decide⟩
    · subst h1
      exact ⟨⟨"dynamic", "fake-resolved3-ip", "fake-resolved3-netmask",
        "fake-resolved3-gateway", [], ""⟩, by decide⟩
  exact ⟨hyp,
    (PopulateDHCPNetworks_resolves_dynamic_networks unresolvedSpec resolvingSettings hyp).1,
    by decide⟩

/-- C12.  `PopulateDHCPNetworks` is all-or-nothing.  When some dynamic
network of the spec has no same-named network in the settings, then in
whatever order `order` the networks of the spec are met, the returned spec
is the zero value and the returned error reads
`Network <name> is not found in settings` for a dynamic network `<name>` of
the spec that the settings lack. -/
theorem PopulateDHCPNetworks_fails_on_missing_network (spec : V1ApplySpec)
    (settings : Settings) (order : List (String × NetworkSpec))
    (horder : order.Perm spec.NetworkSpecs)
    (h : ∃ name ns, (name, ns) ∈ spec.NetworkSpecs ∧ ns.isDynamic = true ∧
      settings.Networks.lookup name = none) :
    (PopulateDHCPNetworks ⟨spec.Deployment, order⟩ settings).1 = V1ApplySpec.zero ∧
    ∃ name ns err, (name, ns) ∈ spec.NetworkSpecs ∧ ns.isDynamic = true ∧
      settings.Networks.lookup name = none ∧
      (PopulateDHCPNetworks ⟨spec.Deployment, order⟩ settings).2 = some err ∧
      err.message = "Network " ++ name ++ " is not found in settings" := by
  have h2 : ∃ name ns, (name, ns) ∈ order ∧ ns.isDynamic = true ∧
      settings.Networks.lookup name = none := by
    obtain ⟨name, ns, hmem, hd, hl⟩ := h
    exact ⟨name, ns, horder.mem_iff.mpr hmem, hd, hl⟩
  obtain ⟨name, ns, hmem, hd, hl, herr⟩ :=
    PopulateDHCPNetworks.eachNetwork_missing settings order h2
  refine ⟨by simp [PopulateDHCPNetworks, herr], name, ns,
    .New ("Network " ++ name ++ " is not found in settings"), horder.mem_iff.mp hmem, hd, hl,
    by simp [PopulateDHCPNetworks, herr], rfl⟩

/-- Witness for C12: the spec of the service's test against empty settings,
in its own order and with `fake-net3` met before `fake-net2`. -/
theorem PopulateDHCPNetworks_fails_on_missing_network_witness :
    (∃ name ns, (name, ns) ∈ unresolvedSpec.NetworkSpecs ∧ ns.isDynamic = true ∧
      (⟨[]⟩ : Settings).Networks.lookup name = none) ∧
    PopulateDHCPNetworks unresolvedSpec ⟨[]⟩ =
      (V1ApplySpec.zero, some (.New "Network fake-net2 is not found in settings")) ∧
    (PopulateDHCPNetworks ⟨unresolvedSpec.Deployment, unresolvedSpec.NetworkSpecs.reverse⟩
      ⟨[]⟩).1 = V1ApplySpec.zero :=
  ⟨⟨"fake-net2",
      ⟨[("type", .str "dynamic"), ("ip", .str "fake-net2-ip"),
        ("netmask", .str "fake-net2-netmask"), ("gateway", .str "fake-net2-gateway")]⟩,
      by decide, by decide, rfl⟩,
    by decide,
    (PopulateDHCPNetworks_fails_on_missing_network unresolvedSpec ⟨[]⟩
      unresolvedSpec.NetworkSpecs.reverse (List.reverse_perm _)
      ⟨"fake-net2",
        ⟨[("type", .str "dynamic"), ("ip", .str "fake-net2-ip"),
          ("netmask", .str "fake-net2-netmask"), ("gateway", .str "fake-net2-gateway")]⟩,
        by decide, by decide, rfl⟩).1⟩

end ApplySpecTheorems

end Bosh
